import Mathlib

/-!
# Verification of the go-pabt PA-BT planner

A shallow embedding of the planner implemented in `pabt.go` and `util.go`
(the non-generic implementation, which the generic one mirrors).  The Go
code works on a doubly linked, parent pointered tree of `node` structs that
cross reference five kinds of semantic records (`goal`, `ppa`, `action`,
`preconditions`, `precondition`).  Pointer identity matters (for example the
expandability test `cf.root.precondition == cf`), so the embedding uses an
arena: every `node` and every record lives in a store indexed by `Nat`, and
a Go pointer field becomes an `Option Nat`.  A nil pointer is `none`.

Go loops that are not structurally recursive (the breadth first failure
search, the conflict walk, the conflict BFS and the resolve loop) are given
an explicit fuel argument and return `none` when the fuel runs out, so that
a completed run is distinguished from a truncated one.

Keys and state-variable values are embedded as `Nat` (the Go code only uses
them as hashable map keys and opaque values).  The Go `recover()` guards for
non-hashable keys cannot fire in this embedding and are not modelled.
-/

namespace PABT

/-- `bt.Status` from go-behaviortree.  The Go zero value of `bt.Status` is
none of Running/Success/Failure; it is `Status.zero` here. -/
inductive Status where
  | zero
  | running
  | success
  | failure
deriving DecidableEq, Repr

/-- The error values produced or propagated by the planner:
`pabt: invalid conditions`, `pabt: invalid action`, errors returned by the
`State` implementation (carrying an arbitrary code), and a marker for Go nil
pointer dereferences on paths that are unreachable for well formed plans. -/
inductive GoErr where
  | invalidConditions
  | invalidAction
  | stateFail (code : Nat)
  | nilPanic
deriving DecidableEq, Repr

/-- A `Condition`: a key and a `Match` predicate on values. -/
structure Cond where
  key : Nat
  matchv : Nat → Bool

/-- An `Effect`: a key and the asserted value. -/
structure Eff where
  key : Nat
  value : Nat
deriving DecidableEq, Repr

/-- The data of an `Action` as returned by `State.Actions`: the
`Conditions()` disjunction, the `Effects()` list, and whether `Node()`
returns a non-nil behaviour-tree node. -/
structure Act where
  conditions : List (List Cond)
  effects : List Eff
  hasNode : Bool

/-- The composite tick kinds the planner uses: `bt.Sequence`, `bt.Selector`
and `bt.Memorize(bt.Selector)`. -/
inductive TickKind where
  | sequence
  | selector
  | memorizeSelector
deriving DecidableEq, Repr

/-- A leaf `bt.Node` payload.  `condLeaf` is the closure built by
`newConditionNode` (it records the key, the match predicate, and the id of
the `precondition` record whose `status` field it overwrites on every
tick); `actLeaf` is an opaque action behaviour. -/
inductive Leaf where
  | condLeaf (key : Nat) (matchv : Nat → Bool) (outcome : Nat)
  | actLeaf (tag : Nat)

/-- The `node` struct of pabt.go: role back-references, the payload
(`node`/`tick`), and the five tree links. -/
structure NodeRec where
  goal : Option Nat := none
  ppa : Option Nat := none
  action : Option Nat := none
  preconds : Option Nat := none
  precond : Option Nat := none
  leaf : Option Leaf := none
  tick : Option TickKind := none
  parent : Option Nat := none
  first : Option Nat := none
  last : Option Nat := none
  prev : Option Nat := none
  next : Option Nat := none

/-- The `State` interface: `Variable` and `Actions`. -/
structure StateM where
  variableFn : Nat → Except GoErr Nat
  actionsFn : Cond → Except GoErr (List Act)

/-- The `goal` record. -/
structure GoalRec where
  root : Nat := 0
  state : StateM := ⟨fun _ => .error .nilPanic, fun _ => .error .nilPanic⟩
  or : List Nat := []

/-- The `ppa` record: its root node, its post-condition node, and the
qualifying action records in the order they were appended. -/
structure PpaRec where
  root : Nat := 0
  post : Nat := 0
  actions : List Nat := []

/-- The `action` record: its root node, its leaf node, the keyed effect
map (an association list; Go uses a map but only ever looks keys up), and
the `or` list of preconditions-record ids. -/
structure ActionRec where
  root : Nat := 0
  node : Nat := 0
  effects : List (Nat × Eff) := []
  or : List Nat := []

/-- The `preconditions` record: its root node and the keyed `and` map of
precondition-record ids (an association list keyed by condition key). -/
structure PrecsRec where
  root : Nat := 0
  and : List (Nat × Nat) := []

/-- The `precondition` record: its carrier node, its condition, and the
status recorded by the condition-check leaf on every tick. -/
structure PrecondRec where
  root : Nat := 0
  cond : Cond := ⟨0, fun _ => false⟩
  status : Status := .zero

/-- The arena holding every allocated node and record.  `next` is the
allocation counter: ids at or above it are unallocated (their store entries
are default junk, matching a Go pointer that does not exist). -/
structure PState where
  nodes : Nat → NodeRec
  goals : Nat → GoalRec
  ppas : Nat → PpaRec
  acts : Nat → ActionRec
  precs : Nat → PrecsRec
  preconds : Nat → PrecondRec
  next : Nat

/-- Pointwise store update. -/
def updf {α : Type _} (f : Nat → α) (k : Nat) (v : α) : Nat → α :=
  fun i => if i = k then v else f i

def PState.setNode (σ : PState) (i : Nat) (v : NodeRec) : PState :=
  { σ with nodes := updf σ.nodes i v }

def PState.updNode (σ : PState) (i : Nat) (g : NodeRec → NodeRec) : PState :=
  σ.setNode i (g (σ.nodes i))

def PState.setGoal (σ : PState) (i : Nat) (v : GoalRec) : PState :=
  { σ with goals := updf σ.goals i v }

def PState.updGoal (σ : PState) (i : Nat) (g : GoalRec → GoalRec) : PState :=
  σ.setGoal i (g (σ.goals i))

def PState.setPpa (σ : PState) (i : Nat) (v : PpaRec) : PState :=
  { σ with ppas := updf σ.ppas i v }

def PState.updPpa (σ : PState) (i : Nat) (g : PpaRec → PpaRec) : PState :=
  σ.setPpa i (g (σ.ppas i))

def PState.setAct (σ : PState) (i : Nat) (v : ActionRec) : PState :=
  { σ with acts := updf σ.acts i v }

def PState.updAct (σ : PState) (i : Nat) (g : ActionRec → ActionRec) : PState :=
  σ.setAct i (g (σ.acts i))

def PState.setPrecs (σ : PState) (i : Nat) (v : PrecsRec) : PState :=
  { σ with precs := updf σ.precs i v }

def PState.updPrecs (σ : PState) (i : Nat) (g : PrecsRec → PrecsRec) : PState :=
  σ.setPrecs i (g (σ.precs i))

def PState.setPrecond (σ : PState) (i : Nat) (v : PrecondRec) : PState :=
  { σ with preconds := updf σ.preconds i v }

def PState.updPrecond (σ : PState) (i : Nat) (g : PrecondRec → PrecondRec) : PState :=
  σ.setPrecond i (g (σ.preconds i))

/-- The empty arena: nothing allocated. -/
def emptyState : PState where
  nodes := fun _ => {}
  goals := fun _ => {}
  ppas := fun _ => {}
  acts := fun _ => {}
  precs := fun _ => {}
  preconds := fun _ => {}
  next := 0

/-- `(*node).delete` (util.go): unlink a node from its parent and siblings,
leaving its subtree intact.  The local variables `prev`, `next`, `parent`
are read once up front, exactly as in the Go code, and the subsequent
pointer writes happen sequentially on the evolving state. -/
def delete (σ : PState) (nId : Nat) : PState :=
  let n := σ.nodes nId
  let σ := match n.prev with
    | some p => σ.updNode p (fun r => { r with next := n.next })
    | none => σ
  let σ := match n.next with
    | some x => σ.updNode x (fun r => { r with prev := n.prev })
    | none => σ
  let σ := match n.parent with
    | some par =>
      let σ := if (σ.nodes par).first = some nId then
          σ.updNode par (fun r => { r with first := n.next }) else σ
      if (σ.nodes par).last = some nId then
          σ.updNode par (fun r => { r with last := n.prev }) else σ
    | none => σ
  σ.updNode nId (fun r => { r with prev := none, next := none, parent := none })

/-- One iteration of the loop in `(*node).append` (util.go): splice one
child before `nxt` (or at the end when `nxt` is `none`) under `nId`.  The
Go method panics when the receiver is a leaf (`n.node != nil`); every call
site in this development targets a group node, so the panic branch is not
modelled. -/
def appendChild (σ : PState) (nId : Nat) (nxt : Option Nat) (childId : Nat) : PState :=
  let σ := delete σ childId
  let prev : Option Nat := match nxt with
    | some x => (σ.nodes x).prev
    | none => (σ.nodes nId).last
  let σ := σ.updNode childId (fun r => { r with parent := some nId })
  let σ := match nxt with
    | some x =>
      ((σ.updNode childId (fun r => { r with next := some x })).updNode x
        (fun r => { r with prev := some childId }))
    | none => σ.updNode nId (fun r => { r with last := some childId })
  match prev with
  | some p =>
    ((σ.updNode childId (fun r => { r with prev := some p })).updNode p
      (fun r => { r with next := some childId }))
  | none => σ.updNode nId (fun r => { r with first := some childId })

/-- `(*node).append` (util.go): splice `children` before `nxt` under `nId`,
one at a time, left to right. -/
def append (σ : PState) (nId : Nat) (nxt : Option Nat) (children : List Nat) : PState :=
  children.foldl (fun σ c => appendChild σ nId nxt c) σ

/-- `(*node).copy` (util.go lines 171-182): update all fields of the node
`dst` from `src` except the tree links. -/
def copyNode (σ : PState) (dst : Nat) (src : NodeRec) : PState :=
  σ.updNode dst (fun r =>
    { r with
      goal := src.goal
      ppa := src.ppa
      action := src.action
      preconds := src.preconds
      precond := src.precond
      leaf := src.leaf
      tick := src.tick })

/-- Chase `next` links starting at `o`, with fuel; `none` means the fuel
ran out before the sibling list ended (as a cyclic list would cause). -/
def siblingChase (σ : PState) : Nat → Option Nat → Option (List Nat)
  | _, none => some []
  | 0, some _ => none
  | fuel+1, some i => (siblingChase σ fuel ((σ.nodes i).next)).map (fun l => i :: l)

/-- The child list of a node: chase `first` then `next`, with fuel.  This
is the loop `for item = item.first; item != nil; item = item.next`. -/
def childList (σ : PState) (fuel : Nat) (nId : Nat) : Option (List Nat) :=
  siblingChase σ fuel ((σ.nodes nId).first)

/-- `Chain σ o L`: starting from the pointer `o`, following `next` links
visits exactly the nodes of `L` and then ends at nil. -/
def Chain (σ : PState) : Option Nat → List Nat → Prop
  | o, [] => o = none
  | o, i :: l => o = some i ∧ Chain σ ((σ.nodes i).next) l

/-- The children of `nId` are exactly `L`: the `first`/`next` chain spells
`L` and `last` points at its last element (or nil when empty). -/
def ChildrenAre (σ : PState) (nId : Nat) (L : List Nat) : Prop :=
  Chain σ ((σ.nodes nId).first) L ∧ (σ.nodes nId).last = L.getLast?


/-- The loop body of `(*node).generateAnd` (util.go lines 111-133): for
each condition, probe the `and` map for a duplicate key (duplicate means
`pabt: invalid conditions`), allocate the precondition record and its
carrier leaf node whose payload is `newConditionNode`, append the carrier
under `nId`, and record the precondition in the `and` map. -/
def generateAndAux (nId : Nat) :
    PState → List (Nat × Nat) → List Cond → PState × List (Nat × Nat) × Option GoErr
  | σ, andm, [] => (σ, andm, none)
  | σ, andm, condition :: rest =>
    let key := condition.key
    if (andm.lookup key).isSome then (σ, andm, some .invalidConditions)
    else
      let n := σ.nodes nId
      let pid := σ.next
      let cid := σ.next + 1
      let σ := { σ with next := σ.next + 2 }
      let σ := σ.setPrecond pid { root := cid, cond := condition, status := .zero }
      let σ := σ.setNode cid
        { goal := n.goal, ppa := n.ppa, action := n.action, preconds := n.preconds,
          precond := some pid, leaf := some (.condLeaf key condition.matchv pid) }
      let σ := appendChild σ nId none cid
      generateAndAux nId σ (andm ++ [(key, pid)]) rest

/-- `(*node).generateAnd` (util.go lines 104-136).  Empty conditions are
`pabt: invalid conditions`; otherwise the node becomes a Sequence and the
loop runs.  On a duplicate key the error is returned together with the
partially built map, exactly as the Go named returns do. -/
def generateAnd (σ : PState) (nId : Nat) (conditions : List Cond) :
    PState × List (Nat × Nat) × Option GoErr :=
  if conditions.isEmpty then (σ, [], some .invalidConditions)
  else
    let σ := σ.updNode nId (fun r => { r with tick := some .sequence })
    generateAndAux nId σ [] conditions

/-- The trailing loop of `(*node).generateOr` (util.go lines 96-101):
`preconditions.and, err = preconditions.root.generateAnd(goal[i])`, and
stop at the first error. -/
def generateOrLoop : PState → List (Nat × List Cond) → PState × Option GoErr
  | σ, [] => (σ, none)
  | σ, (precsId, conds) :: rest =>
    match generateAnd σ ((σ.precs precsId).root) conds with
    | (σ', andm, e) =>
      let σ'' := σ'.updPrecs precsId (fun r => { r with and := andm })
      match e with
      | some err => (σ'', some err)
      | none => generateOrLoop σ'' rest

/-- The loop body of the `default` case of `(*node).generateOr` (util.go
lines 84-94): allocate one fresh child node per goal alternative, carrying
a fresh `preconditions` record, and append it under `nId`. -/
def generateOrAlloc (nId : Nat) (acc : PState × List Nat) (_ : List Cond) : PState × List Nat :=
  let (σ, orAcc) := acc
  let n := σ.nodes nId
  let cid := σ.next
  let precsId := σ.next + 1
  let σ := { σ with next := σ.next + 2 }
  let σ := σ.setNode cid
    { goal := n.goal, ppa := n.ppa, action := n.action, preconds := some precsId }
  let σ := σ.setPrecs precsId { root := cid, and := [] }
  let σ := appendChild σ nId none cid
  (σ, orAcc ++ [precsId])

/-- `(*node).generateOr` (util.go lines 75-103): zero alternatives makes a
childless Sequence; one alternative attaches a `preconditions` record to
the node itself; two or more make the node a Selector with one fresh child
node (carrying a fresh `preconditions` record) per alternative.  Then each
alternative's conditions are compiled by `generateAnd`. -/
def generateOr (σ : PState) (nId : Nat) (goal : List (List Cond)) :
    PState × List Nat × Option GoErr :=
  match goal with
  | [] => (σ.updNode nId (fun r => { r with tick := some .sequence }), [], none)
  | [conds] =>
    let precsId := σ.next
    let σ := { σ with next := σ.next + 1 }
    let σ := σ.setPrecs precsId { root := nId, and := [] }
    let σ := σ.updNode nId (fun r => { r with preconds := some precsId })
    match generateOrLoop σ [(precsId, conds)] with
    | (σ, e) => (σ, [precsId], e)
  | _ =>
    let σ := σ.updNode nId (fun r => { r with tick := some .selector })
    match goal.foldl (generateOrAlloc nId) (σ, []) with
    | (σ, orL) =>
      match generateOrLoop σ (orL.zip goal) with
      | (σ, e) => (σ, orL, e)

/-- `(*Plan).init` (pabt.go lines 174-182) running on an existing arena:
allocate the goal record and the root node, run `generateOr`, record the
`or` list, and clear the returned root on error (the Go code sets
`p.root = nil`). -/
def planInitFrom (σ : PState) (state : StateM) (goal : List (List Cond)) :
    PState × Option Nat × Option GoErr :=
  let gId := σ.next
  let rId := σ.next + 1
  let σ := { σ with next := σ.next + 2 }
  let σ := σ.setGoal gId { root := rId, state := state, or := [] }
  let σ := σ.setNode rId { goal := some gId }
  match generateOr σ rId goal with
  | (σ, orL, e) =>
    let σ := σ.updGoal gId (fun g => { g with or := orL })
    match e with
    | none => (σ, some rId, none)
    | some err => (σ, none, some err)

/-- `(*Plan).init` on a fresh plan (what `New` does after validating the
state): start from the empty arena. -/
def planInit (state : StateM) (goal : List (List Cond)) : PState × Option Nat × Option GoErr :=
  planInitFrom emptyState state goal

/-- The effect-map construction loop of `(*node).generateAction` (util.go
lines 253-276): build a keyed map of the effects, failing with
`pabt: invalid action` on a duplicate key, and record whether some effect
has the failed condition's key and a value matching it (the `ok` flag). -/
def buildEffects (pk : Nat) (post : Cond) :
    List (Nat × Eff) → Bool → List Eff → List (Nat × Eff) × Bool × Option GoErr
  | effMap, ok, [] => (effMap, ok, none)
  | effMap, ok, effect :: rest =>
    let key := effect.key
    if (effMap.lookup key).isSome then (effMap, ok, some .invalidAction)
    else
      let effMap := effMap ++ [(key, effect)]
      let ok := if !ok ∧ key = pk ∧ post.matchv effect.value then true else ok
      buildEffects pk post effMap ok rest

/-- `(*node).generateAction` (util.go lines 247-326).  Empty effects are
`pabt: invalid action`.  The action qualifies iff some effect matches the
failed condition (`ok`).  A non-qualifying action returns a nil error and
is not recorded.  A qualifying action gets an action record, a leaf node
(nil leaf is `pabt: invalid action`), a conditions root built with
`generateOr` (wrapped in an extra Sequence when there are two or more
alternatives), the leaf appended last, and is appended to `ppa.actions`.
The Go code dereferences `n.ppa` unconditionally; a missing ppa is a nil
panic, modelled by the error marker. -/
def generateAction (σ : PState) (nId : Nat) (post : Cond) (act : Act) :
    PState × Bool × Option GoErr :=
  let effects := act.effects
  if effects.isEmpty then (σ, false, some .invalidAction)
  else
    let pk := post.key
    match buildEffects pk post [] false effects with
    | (_, ok, some e) => (σ, ok, some e)
    | (effMap, ok, none) =>
      if !ok then (σ, ok, none)
      else
        let n := σ.nodes nId
        let rId := σ.next
        let nodeId := σ.next + 1
        let σ := { σ with next := σ.next + 2 }
        let σ := σ.setAct rId { root := 0, node := nodeId, effects := effMap, or := [] }
        let σ := σ.setNode nodeId
          { goal := n.goal, ppa := n.ppa, action := some rId,
            leaf := if act.hasNode then some (.actLeaf rId) else none }
        if !act.hasNode then (σ, ok, some .invalidAction)
        else
          let rootId := σ.next
          let σ := { σ with next := σ.next + 1 }
          let σ := σ.setNode rootId { goal := n.goal, ppa := n.ppa, action := some rId }
          let σ := σ.updAct rId (fun r => { r with root := rootId })
          match generateOr σ rootId act.conditions with
          | (σ, orL, some e) =>
            (σ.updAct rId (fun r => { r with or := orL }), ok, some e)
          | (σ, orL, none) =>
            let σ := σ.updAct rId (fun r => { r with or := orL })
            let σ :=
              if orL.length ≤ 1 then σ
              else
                let condRoot := (σ.acts rId).root
                let rootId2 := σ.next
                let σ := { σ with next := σ.next + 1 }
                let σ := σ.setNode rootId2
                  { goal := n.goal, ppa := n.ppa, action := some rId,
                    tick := some .sequence }
                let σ := σ.updAct rId (fun r => { r with root := rootId2 })
                appendChild σ rootId2 none condRoot
            let σ := appendChild σ ((σ.acts rId).root) none ((σ.acts rId).node)
            match n.ppa with
            | some P =>
              (σ.updPpa P (fun r => { r with actions := r.actions ++ [rId] }), ok, none)
            | none => (σ, ok, some .nilPanic)

/-- The action loop of `(*precondition).expand` (util.go lines 222-227):
run `generateAction` for each candidate action, stopping at the first
error. -/
def expandActs (carrier : Nat) (cond : Cond) : PState → List Act → PState × Option GoErr
  | σ, [] => (σ, none)
  | σ, act :: rest =>
    match generateAction σ carrier cond act with
    | (σ, _, some e) => (σ, some e)
    | (σ, _, none) => expandActs carrier cond σ rest

/-- `(*precondition).expand` (util.go lines 201-246): query the State for
candidate actions (propagating errors), stash a copy of the carrier as the
post-condition node, overwrite the carrier in place into the PPA Selector
root, append the post node first, build the qualifying actions, and wire
them up: zero actions leaves only the post node, one action's root is
appended directly, two or more are wrapped in a Memorize(Selector) node. -/
def expand (σ : PState) (pid : Nat) : PState × Option GoErr :=
  let p := σ.preconds pid
  let carrier := p.root
  match (σ.nodes carrier).goal with
  | none => (σ, some .nilPanic)
  | some g =>
    match (σ.goals g).state.actionsFn p.cond with
    | .error e => (σ, some e)
    | .ok acts =>
      let old := σ.nodes carrier
      let postId := σ.next
      let ppaId := σ.next + 1
      let σ := { σ with next := σ.next + 2 }
      let σ := σ.setNode postId
        { goal := old.goal, ppa := old.ppa, action := old.action,
          preconds := old.preconds, precond := old.precond,
          leaf := old.leaf, tick := old.tick }
      let σ := σ.setPpa ppaId { root := carrier, post := postId, actions := [] }
      let σ := copyNode σ carrier { goal := old.goal, ppa := some ppaId, tick := some .selector }
      let σ := appendChild σ carrier none postId
      match expandActs carrier p.cond σ acts with
      | (σ, some e) => (σ, some e)
      | (σ, none) =>
        match (σ.ppas ppaId).actions with
        | [] => (σ, none)
        | [a] => (appendChild σ carrier none ((σ.acts a).root), none)
        | _ =>
          let wId := σ.next
          let σ := { σ with next := σ.next + 1 }
          let σ := σ.setNode wId { goal := old.goal, ppa := some ppaId, tick := some .memorizeSelector }
          let σ := ((σ.ppas ppaId).actions).foldl
            (fun σ a => appendChild σ wId none ((σ.acts a).root)) σ
          (appendChild σ carrier none wId, none)

/-- The expandability test of `(*node).search` (util.go lines 189-191): a
visited node yields its precondition record when that record's status is
Failure and the record's carrier still points back at the record. -/
def expandableFailed (σ : PState) (item : Nat) : Option Nat :=
  match (σ.nodes item).precond with
  | some cf =>
    if (σ.preconds cf).status = .failure ∧ (σ.nodes ((σ.preconds cf).root)).precond = some cf
    then some cf else none
  | none => none

/-- The breadth-first queue loop of `(*node).search` (util.go lines
183-200), fuelled.  `none` means the fuel ran out; `some none` means the
queue was exhausted without a hit; `some (some cf)` is a hit. -/
def searchAux (σ : PState) : Nat → List Nat → Option (Option Nat)
  | 0, _ => none
  | _+1, [] => some none
  | fuel+1, item :: queue =>
    match expandableFailed σ item with
    | some cf => some (some cf)
    | none =>
      match siblingChase σ fuel ((σ.nodes item).first) with
      | none => none
      | some kids => searchAux σ fuel (queue ++ kids)

/-- `(*node).search` from a root node. -/
def searchRun (σ : PState) (fuel : Nat) (root : Nat) : Option (Option Nat) :=
  searchAux σ fuel [root]

/-- The breadth-first visit order of the same queue loop: the list of
nodes dequeued, with the same fuel accounting as `searchAux`. -/
def bfsAux (σ : PState) : Nat → List Nat → Option (List Nat)
  | 0, _ => none
  | _+1, [] => some []
  | fuel+1, item :: queue =>
    match siblingChase σ fuel ((σ.nodes item).first) with
    | none => none
    | some kids =>
      match bfsAux σ fuel (queue ++ kids) with
      | none => none
      | some l => some (item :: l)

/-- The tick function built by `newConditionNode` (util.go lines 152-169):
read the variable, Success iff the read succeeded and the value matches,
record the outcome in the precondition record's status, and propagate the
read error. -/
def condLeafTick (σ : PState) (state : StateM) (key : Nat) (matchv : Nat → Bool)
    (outcome : Nat) : PState × Status × Option GoErr :=
  match state.variableFn key with
  | .ok value =>
    let status := if matchv value then Status.success else Status.failure
    (σ.updPrecond outcome (fun r => { r with status := status }), status, none)
  | .error e =>
    (σ.updPrecond outcome (fun r => { r with status := .failure }), .failure, some e)

/-- The condition pairs of `(*ppa).conflicts` (util.go lines 390-401): the
(key, condition) pairs across all of the receiver's action alternatives'
preconditions. -/
def pairsOf (σ : PState) (p : Nat) : List (Nat × Cond) :=
  ((σ.ppas p).actions).bind (fun a =>
    ((σ.acts a).or).bind (fun o =>
      ((σ.precs o).and).map (fun ka => (ka.1, (σ.preconds ka.2).cond))))

/-- The inner check of `(*ppa).conflicts` (util.go lines 414-419): does
the action's effect map falsify one of the pairs? -/
def actFalsifies (σ : PState) (pairs : List (Nat × Cond)) (actId : Nat) : Bool :=
  pairs.any (fun pair =>
    match ((σ.acts actId).effects).lookup pair.1 with
    | some eff => !pair.2.matchv eff.value
    | none => false)

/-- The sub-PPA enumeration of `(*ppa).conflicts` (util.go lines 420-426):
for each action alternative's precondition, if the precondition's carrier
has become the root of its own (expanded) PPA, that PPA executes earlier
too.  (The Go code reads `and.root.ppa.root` unconditionally; in context
the `ppa` back-reference of an action's precondition node is always set,
so the nil case never fires and is skipped here.) -/
def subPpasOf (σ : PState) (o : Nat) : List Nat :=
  ((σ.ppas o).actions).bind (fun a =>
    ((σ.acts a).or).bind (fun orId =>
      ((σ.precs orId).and).filterMap (fun ka =>
        let root := (σ.preconds ka.2).root
        match (σ.nodes root).ppa with
        | some q => if (σ.ppas q).root = root then some q else none
        | none => none)))

/-- The breadth-first queue loop of `(*ppa).conflicts` (util.go lines
409-428), fuelled. -/
def conflictsAux (σ : PState) (pairs : List (Nat × Cond)) : Nat → List Nat → Option Bool
  | 0, _ => none
  | _+1, [] => some false
  | fuel+1, o :: queue =>
    if ((σ.ppas o).actions).any (actFalsifies σ pairs) then some true
    else conflictsAux σ pairs fuel (queue ++ subPpasOf σ o)

/-- `(*ppa).conflicts` (util.go lines 388-431): the fast path returns
false when the receiver has no condition pairs; otherwise breadth-first
over the candidate PPA and its sub-PPAs. -/
def conflictsRun (σ : PState) (p : Nat) (fuel : Nat) (o : Nat) : Option Bool :=
  let pairs := pairsOf σ p
  if pairs.isEmpty then some false
  else conflictsAux σ pairs fuel [o]

/-- One move of the walk in `(*ppa).conflict` (util.go lines 363-381):
move left to the previous sibling (returning its PPA when that sibling is
an expanded PPA root, to be checked), else up to the parent's PPA root
(never checked immediately), else stop. -/
def wstep (σ : PState) (n : Nat) : Option (Nat × Option Nat) :=
  match (σ.nodes n).prev with
  | some m =>
    match (σ.nodes m).ppa with
    | some q => if (σ.ppas q).root = m then some (m, some q) else some (m, none)
    | none => some (m, none)
  | none =>
    match (σ.nodes n).parent with
    | some par =>
      match (σ.nodes par).ppa with
      | some q => some ((σ.ppas q).root, none)
      | none => none
    | none => none

/-- The loop of `(*ppa).conflict` (util.go lines 334-387), fuelled: walk
left/up from `n`, and return the first checked PPA whose `conflicts`
check fires. -/
def conflictAux (σ : PState) (p : Nat) (bf : Nat) : Nat → Nat → Option (Option Nat)
  | 0, _ => none
  | fuel+1, n =>
    match wstep σ n with
    | none => some none
    | some (m, none) => conflictAux σ p bf fuel m
    | some (m, some q) =>
      match conflictsRun σ p bf q with
      | none => none
      | some true => some (some q)
      | some false => conflictAux σ p bf fuel m

/-- `(*ppa).conflict` starting from the receiver's root. -/
def conflictRun (σ : PState) (wf bf : Nat) (p : Nat) : Option (Option Nat) :=
  conflictAux σ p bf wf ((σ.ppas p).root)

/-- `(*ppa).resolve` (util.go lines 327-333), fuelled: while a conflict
PPA is found, move the receiver's root to be the immediate sibling before
the conflicting PPA's root under that root's parent, and count the
promotions.  The Go code dereferences `c.root.parent`; a nil parent is a
panic, modelled as divergence (`none`). -/
def resolveAux (wf bf : Nat) : Nat → PState → Nat → Option (PState × Nat)
  | 0, _, _ => none
  | fuel+1, σ, p =>
    match conflictRun σ wf bf p with
    | none => none
    | some none => some (σ, 0)
    | some (some c) =>
      match (σ.nodes ((σ.ppas c).root)).parent with
      | none => none
      | some par =>
        match resolveAux wf bf fuel (appendChild σ par (some ((σ.ppas c).root)) ((σ.ppas p).root)) p with
        | none => none
        | some (σ', k) => some (σ', k + 1)

/-- `(*ppa).resolve` with fuel for the outer loop, the walk and the
conflicts BFS. -/
def resolveRun (σ : PState) (rf wf bf : Nat) (p : Nat) : Option (PState × Nat) :=
  resolveAux wf bf rf σ p

/-- The per-tick closure of `(*Plan).bt` (pabt.go lines 193-223), given
the (status, error) the underlying behaviour tree tick returned.  On a nil
error and Failure: search; no hit discards the plan (root := none) and
returns the Failure; a hit is expanded (errors propagate with the tree
kept) and on success conflicts are resolved on the new PPA and the tick
returns Running.  Divergence of a fuelled traversal propagates as `none`. -/
def planTick (σ : PState) (root : Option Nat) (status : Status) (err : Option GoErr)
    (sf rf wf bf : Nat) : Option (PState × Option Nat × Status × Option GoErr) :=
  if err ≠ none ∨ status ≠ .failure then some (σ, root, status, err)
  else
    match root with
    | none => some (σ, root, status, err)
    | some r =>
      match searchRun σ sf r with
      | none => none
      | some none => some (σ, none, status, err)
      | some (some cf) =>
        match expand σ cf with
        | (σ', some e) => some (σ', root, status, some e)
        | (σ', none) =>
          match (σ'.nodes ((σ'.preconds cf).root)).ppa with
          | none => none
          | some P =>
            match resolveRun σ' rf wf bf P with
            | none => none
            | some (σ'', _) => some (σ'', root, .running, none)

/-- A State whose only candidate action has an empty effects set (used to
settle C4). -/
def c4State : StateM := ⟨fun _ => .ok 0, fun _ => .ok [⟨[], [], true⟩]⟩

/-- The plan arena for the goal x1 = 1 under `c4State`; the root is node
1, the condition leaf node 4 carries precondition record 3. -/
def c4Sigma : PState := (planInit c4State [[⟨1, fun x => x == 1⟩]]).1

/-- An action that qualifies for the failed condition x1 = 1 (its effect
sets x1 to 1) but whose Conditions contain an empty alternative, which is
invalid (used to settle C3). -/
def c3Act : Act := ⟨[[]], [⟨1, 1⟩], true⟩

/-- A State whose only candidate action is `c3Act`. -/
def c3State : StateM := ⟨fun _ => .ok 0, fun _ => .ok [c3Act]⟩

/-- The plan arena for the goal x1 = 1 under `c3State`. -/
def c3Sigma : PState := (planInit c3State [[⟨1, fun x => x == 1⟩]]).1

/-- Validity of an action's `Conditions()` disjunction: every alternative
is non-empty with distinct keys (what the goal compiler accepts). -/
def CondsValid (gs : List (List Cond)) : Prop :=
  ∀ g ∈ gs, g ≠ [] ∧ (g.map Cond.key).Nodup

/-- A trivial State used by witnesses: every variable reads as 0, no
actions. -/
def wState : StateM := ⟨fun _ => .ok 0, fun _ => .ok []⟩

/-- A simple equality condition used by witnesses. -/
def wCond (k v : Nat) : Cond := ⟨k, fun x => x == v⟩

/-- A tiny arena used by the expand witness: goal record 0 rooted at node
1, a precondition record 2 carried by node 1, three ids allocated. -/
def c5wSigma : PState :=
  { ((emptyState.setGoal 0 { root := 1, state := wState }).setNode 1
      { goal := some 0 }).setPrecond 2 { root := 1, cond := wCond 1 1 } with next := 3 }

/-- A tiny arena used by the driver witness: like `c5wSigma` but the root
node carries failed precondition record 2, so the failure search hits. -/
def c1wSigma : PState :=
  { ((emptyState.setGoal 0 { root := 1, state := wState }).setNode 1
      { goal := some 0, precond := some 2 }).setPrecond 2
      { root := 1, cond := wCond 1 1, status := .failure } with next := 3 }

/-- The PPAs the walk of `(*ppa).conflict` checks, starting from a node:
each left/up move may yield a checked candidate (a previous sibling that
is an expanded PPA root), and the walk continues from the reached node. -/
inductive WalkChecked (σ : PState) : Nat → Nat → Prop where
  | here {n m q} : wstep σ n = some (m, some q) → WalkChecked σ n q
  | there {n m r q} : wstep σ n = some (m, r) → WalkChecked σ m q → WalkChecked σ n q

/-- The closure of the `(*ppa).conflicts` breadth-first enumeration: a
candidate PPA together with the sub-PPAs of its action alternatives'
preconditions, transitively. -/
inductive SubReach (σ : PState) : Nat → Nat → Prop where
  | refl (o : Nat) : SubReach σ o o
  | step {o o2 o3} : SubReach σ o o2 → o3 ∈ subPpasOf σ o2 → SubReach σ o o3


theorem updf_self {α : Type _} (f : Nat → α) (i : Nat) : updf f i (f i) = f := by
  funext j
  by_cases h : j = i <;> simp [updf, h]

theorem setNode_self (σ : PState) (i : Nat) : σ.setNode i (σ.nodes i) = σ := by
  cases σ
  simp [PState.setNode, updf_self]

/-- C9: `(*node).copy` replaces the target's role back-references and
payload (goal, ppa, action, preconditions, precondition, leaf node, tick)
with the source's, while the tree links parent, first, last, prev and next
of the target are left unchanged, so the node keeps its position among its
siblings. -/
theorem copy_overwrites_payload_preserves_links (σ : PState) (dst : Nat) (src : NodeRec) :
    ((copyNode σ dst src).nodes dst).goal = src.goal ∧
    ((copyNode σ dst src).nodes dst).ppa = src.ppa ∧
    ((copyNode σ dst src).nodes dst).action = src.action ∧
    ((copyNode σ dst src).nodes dst).preconds = src.preconds ∧
    ((copyNode σ dst src).nodes dst).precond = src.precond ∧
    ((copyNode σ dst src).nodes dst).leaf = src.leaf ∧
    ((copyNode σ dst src).nodes dst).tick = src.tick ∧
    ((copyNode σ dst src).nodes dst).parent = (σ.nodes dst).parent ∧
    ((copyNode σ dst src).nodes dst).first = (σ.nodes dst).first ∧
    ((copyNode σ dst src).nodes dst).last = (σ.nodes dst).last ∧
    ((copyNode σ dst src).nodes dst).prev = (σ.nodes dst).prev ∧
    ((copyNode σ dst src).nodes dst).next = (σ.nodes dst).next := by
  simp [copyNode, PState.updNode, PState.setNode, updf]

/-- `delete` only edits node records: the `ppas` store is untouched. -/
theorem delete_ppas (σ : PState) (nId : Nat) : (delete σ nId).ppas = σ.ppas := by
  simp only [delete]
  repeat' split
  all_goals simp [PState.updNode, PState.setNode]

/-- `appendChild` only edits node records: the `ppas` store is untouched. -/
theorem appendChild_ppas (σ : PState) (nId : Nat) (nxt : Option Nat) (c : Nat) :
    (appendChild σ nId nxt c).ppas = σ.ppas := by
  simp only [appendChild]
  repeat' split
  all_goals simp [PState.updNode, PState.setNode, delete_ppas]

/-- `delete` only edits node records: `goals` is untouched. -/
theorem delete_goals (σ : PState) (nId : Nat) : (delete σ nId).goals = σ.goals := by
  simp only [delete]
  repeat' split
  all_goals simp [PState.updNode, PState.setNode]

/-- `appendChild` only edits node records: `goals` is untouched. -/
theorem appendChild_goals (σ : PState) (nId : Nat) (nxt : Option Nat) (c : Nat) :
    (appendChild σ nId nxt c).goals = σ.goals := by
  simp only [appendChild]
  repeat' split
  all_goals simp [PState.updNode, PState.setNode, delete_goals]

/-- `delete` only edits node records: `acts` is untouched. -/
theorem delete_acts (σ : PState) (nId : Nat) : (delete σ nId).acts = σ.acts := by
  simp only [delete]
  repeat' split
  all_goals simp [PState.updNode, PState.setNode]

/-- `appendChild` only edits node records: `acts` is untouched. -/
theorem appendChild_acts (σ : PState) (nId : Nat) (nxt : Option Nat) (c : Nat) :
    (appendChild σ nId nxt c).acts = σ.acts := by
  simp only [appendChild]
  repeat' split
  all_goals simp [PState.updNode, PState.setNode, delete_acts]

/-- `delete` only edits node records: `precs` is untouched. -/
theorem delete_precs (σ : PState) (nId : Nat) : (delete σ nId).precs = σ.precs := by
  simp only [delete]
  repeat' split
  all_goals simp [PState.updNode, PState.setNode]

/-- `appendChild` only edits node records: `precs` is untouched. -/
theorem appendChild_precs (σ : PState) (nId : Nat) (nxt : Option Nat) (c : Nat) :
    (appendChild σ nId nxt c).precs = σ.precs := by
  simp only [appendChild]
  repeat' split
  all_goals simp [PState.updNode, PState.setNode, delete_precs]

/-- `delete` only edits node records: `preconds` is untouched. -/
theorem delete_preconds (σ : PState) (nId : Nat) : (delete σ nId).preconds = σ.preconds := by
  simp only [delete]
  repeat' split
  all_goals simp [PState.updNode, PState.setNode]

/-- `appendChild` only edits node records: `preconds` is untouched. -/
theorem appendChild_preconds (σ : PState) (nId : Nat) (nxt : Option Nat) (c : Nat) :
    (appendChild σ nId nxt c).preconds = σ.preconds := by
  simp only [appendChild]
  repeat' split
  all_goals simp [PState.updNode, PState.setNode, delete_preconds]

/-- `delete` only edits node records: `next` is untouched. -/
theorem delete_next (σ : PState) (nId : Nat) : (delete σ nId).next = σ.next := by
  simp only [delete]
  repeat' split
  all_goals simp [PState.updNode, PState.setNode]

/-- `appendChild` only edits node records: `next` is untouched. -/
theorem appendChild_next (σ : PState) (nId : Nat) (nxt : Option Nat) (c : Nat) :
    (appendChild σ nId nxt c).next = σ.next := by
  simp only [appendChild]
  repeat' split
  all_goals simp [PState.updNode, PState.setNode, delete_next]

/-- Deleting a node whose links are all nil leaves the state unchanged. -/
theorem delete_fresh (σ : PState) (c : Nat)
    (hprev : (σ.nodes c).prev = none) (hnext : (σ.nodes c).next = none)
    (hpar : (σ.nodes c).parent = none) :
    delete σ c = σ := by
  have hrec : (fun r => { r with prev := none, next := none, parent := none })
      (σ.nodes c) = σ.nodes c := by
    cases h : σ.nodes c
    simp_all
  simp only [delete, hprev, hnext, hpar, PState.updNode, hrec, setNode_self]

/-- Appending a fresh-linked child at the end of a node that already has a
last child `l`: the four link updates of `(*node).append`, written out. -/
theorem appendChild_last_eq (σ : PState) (n c l : Nat)
    (hlast : (σ.nodes n).last = some l)
    (hprev : (σ.nodes c).prev = none) (hnext : (σ.nodes c).next = none)
    (hpar : (σ.nodes c).parent = none) :
    appendChild σ n none c
      = ((((σ.updNode c (fun r => { r with parent := some n })).updNode n
            (fun r => { r with last := some c })).updNode c
           (fun r => { r with prev := some l })).updNode l
          (fun r => { r with next := some c })) := by
  have hdel : delete σ c = σ := delete_fresh σ c hprev hnext hpar
  simp only [appendChild, hdel, hlast]

/-- Appending a fresh-linked child under a node with no children yet: the
three link updates of `(*node).append`, written out. -/
theorem appendChild_none_eq (σ : PState) (n c : Nat)
    (hlast : (σ.nodes n).last = none)
    (hprev : (σ.nodes c).prev = none) (hnext : (σ.nodes c).next = none)
    (hpar : (σ.nodes c).parent = none) :
    appendChild σ n none c
      = ((σ.updNode c (fun r => { r with parent := some n })).updNode n
          (fun r => { r with last := some c })).updNode n
          (fun r => { r with first := some c }) := by
  have hdel : delete σ c = σ := delete_fresh σ c hprev hnext hpar
  simp only [appendChild, hdel, hlast]


theorem chain_congr {σ σ' : PState} :
    ∀ {o : Option Nat} {L : List Nat}, Chain σ o L →
    (∀ x ∈ L, (σ'.nodes x).next = (σ.nodes x).next) →
    Chain σ' o L := by
  intro o L
  induction L generalizing o with
  | nil => intro h _; exact h
  | cons i l ih =>
    intro h hagree
    obtain ⟨ho, hrest⟩ := h
    refine ⟨ho, ?_⟩
    rw [hagree i (by simp)]
    exact ih hrest (fun x hx => hagree x (by simp [hx]))

theorem chain_snoc {σ σ' : PState} {c x : Nat} :
    ∀ {o : Option Nat} {M : List Nat}, Chain σ o (M ++ [x]) →
    (∀ y ∈ M, (σ'.nodes y).next = (σ.nodes y).next) →
    (σ'.nodes x).next = some c →
    (σ'.nodes c).next = none →
    Chain σ' o (M ++ [x] ++ [c]) := by
  intro o M
  induction M generalizing o with
  | nil =>
    intro h _ hx hc
    obtain ⟨ho, _⟩ := h
    simp only [List.nil_append, Chain]
    exact ⟨ho, hx, hc⟩
  | cons y M' ih =>
    intro h hagree hx hc
    obtain ⟨ho, hrest⟩ := h
    simp only [List.cons_append, Chain]
    refine ⟨ho, ?_⟩
    rw [hagree y (by simp)]
    exact ih hrest (fun z hz => hagree z (by simp [hz])) hx hc

/-- Appending a node with nil links at the end of `nId`'s child list: the
children become `L ++ [c]`, the new child's `parent`, `prev` are set, every
other node keeps its record except the old last child gains `next = c`. -/
theorem appendChild_last_children (σ : PState) (nId c : Nat) (L : List Nat)
    (hch : ChildrenAre σ nId L)
    (hprev : (σ.nodes c).prev = none) (hnext : (σ.nodes c).next = none)
    (hpar : (σ.nodes c).parent = none)
    (hcn : c ≠ nId) (hcL : c ∉ L) (hnL : nId ∉ L) (hnd : L.Nodup) :
    ChildrenAre (appendChild σ nId none c) nId (L ++ [c]) ∧
    ((appendChild σ nId none c).nodes c
        = { σ.nodes c with parent := some nId, prev := L.getLast? }) ∧
    (∀ y, y ≠ c → y ≠ nId → L.getLast? ≠ some y →
        (appendChild σ nId none c).nodes y = σ.nodes y) ∧
    (∀ y, L.getLast? = some y →
        (appendChild σ nId none c).nodes y = { σ.nodes y with next := some c }) ∧
    ((appendChild σ nId none c).nodes nId
        = { σ.nodes nId with
              first := if L = [] then some c else (σ.nodes nId).first
              last := some c }) ∧
    (appendChild σ nId none c).goals = σ.goals ∧
    (appendChild σ nId none c).ppas = σ.ppas ∧
    (appendChild σ nId none c).acts = σ.acts ∧
    (appendChild σ nId none c).precs = σ.precs ∧
    (appendChild σ nId none c).preconds = σ.preconds ∧
    (appendChild σ nId none c).next = σ.next := by
  obtain ⟨hchain, hlast⟩ := hch
  have hnc : nId ≠ c := Ne.symm hcn
  have hdel : delete σ c = σ := delete_fresh σ c hprev hnext hpar
  rcases List.eq_nil_or_concat L with rfl | ⟨M, x, rfl⟩
  · have hl : (σ.nodes nId).last = none := by simpa using hlast
    have hf : (σ.nodes nId).first = none := by simpa [Chain] using hchain
    have hc' : (appendChild σ nId none c).nodes c = { σ.nodes c with parent := some nId } := by
      simp [appendChild, hdel, hl, PState.updNode, PState.setNode, updf, hcn, hnc]
    have hn' : (appendChild σ nId none c).nodes nId
        = { σ.nodes nId with first := some c, last := some c } := by
      simp [appendChild, hdel, hl, PState.updNode, PState.setNode, updf, hcn, hnc]
    have hy' : ∀ y, y ≠ c → y ≠ nId → (appendChild σ nId none c).nodes y = σ.nodes y := by
      intro y h1 h2
      simp [appendChild, hdel, hl, PState.updNode, PState.setNode, updf, h1, h2]
    refine ⟨⟨?_, ?_⟩, ?_, ?_, ?_, ?_, ?_, ?_, ?_, ?_, ?_, ?_⟩
    · simp [Chain, hn', hc', hnext]
    · simp [hn']
    · simp [hc', hprev]
    · intro y h1 h2 _
      exact hy' y h1 h2
    · intro y hy
      simp at hy
    · simp [hn']
    · simp [appendChild, hdel, hl, PState.updNode, PState.setNode]
    · simp [appendChild, hdel, hl, PState.updNode, PState.setNode]
    · simp [appendChild, hdel, hl, PState.updNode, PState.setNode]
    · simp [appendChild, hdel, hl, PState.updNode, PState.setNode]
    · simp [appendChild, hdel, hl, PState.updNode, PState.setNode]
    · simp [appendChild, hdel, hl, PState.updNode, PState.setNode]
  · simp only [List.concat_eq_append] at hcL hnL hnd hchain hlast ⊢
    have hlx : (M ++ [x]).getLast? = some x := by simp
    have hl : (σ.nodes nId).last = some x := by rw [hlast, hlx]
    have hxc : x ≠ c := by
      intro h
      exact hcL (by simp [h])
    have hcx : c ≠ x := Ne.symm hxc
    have hxn : x ≠ nId := by
      intro h
      exact hnL (by rw [← h]; simp)
    have hnx : nId ≠ x := Ne.symm hxn
    have hMx : x ∉ M := by
      rw [List.nodup_append] at hnd
      intro hx
      exact hnd.2.2 hx (by simp)
    have hc' : (appendChild σ nId none c).nodes c
        = { σ.nodes c with parent := some nId, prev := some x } := by
      simp [appendChild, hdel, hl, PState.updNode, PState.setNode, updf, hcn, hnc, hxc, hcx]
    have hn' : (appendChild σ nId none c).nodes nId
        = { σ.nodes nId with last := some c } := by
      simp [appendChild, hdel, hl, PState.updNode, PState.setNode, updf, hcn, hnc, hxn, hnx]
    have hx' : (appendChild σ nId none c).nodes x
        = { σ.nodes x with next := some c } := by
      simp [appendChild, hdel, hl, PState.updNode, PState.setNode, updf, hxc, hcx, hxn, hnx]
    have hy' : ∀ y, y ≠ c → y ≠ nId → y ≠ x → (appendChild σ nId none c).nodes y = σ.nodes y := by
      intro y h1 h2 h3
      simp [appendChild, hdel, hl, PState.updNode, PState.setNode, updf, h1, h2, h3]
    refine ⟨⟨?_, ?_⟩, ?_, ?_, ?_, ?_, ?_, ?_, ?_, ?_, ?_, ?_⟩
    · have hfirst : ((appendChild σ nId none c).nodes nId).first = (σ.nodes nId).first := by
        simp [hn']
      rw [hfirst]
      refine chain_snoc hchain ?_ ?_ ?_
      · intro y hy
        have hyc : y ≠ c := fun h => hcL (by simp [h ▸ hy])
        have hyx : y ≠ x := fun h => hMx (h ▸ hy)
        by_cases hyn : y = nId
        · subst hyn
          simp [hn']
        · simp [hy' y hyc hyn hyx]
      · simp [hx']
      · simp [hc', hnext]
    · simp [hn', hlx]
    · simp [hc', hlx]
    · intro y hyc hyn hyx
      rw [hlx] at hyx
      have hyx' : y ≠ x := fun h => hyx (by rw [h])
      exact hy' y hyc hyn hyx'
    · intro y hy
      rw [hlx] at hy
      have : x = y := by simpa using hy
      subst this
      exact hx'
    · have : ¬(M ++ [x] = []) := by simp
      simp [hn', this]
    · simp [appendChild, hdel, hl, PState.updNode, PState.setNode]
    · simp [appendChild, hdel, hl, PState.updNode, PState.setNode]
    · simp [appendChild, hdel, hl, PState.updNode, PState.setNode]
    · simp [appendChild, hdel, hl, PState.updNode, PState.setNode]
    · simp [appendChild, hdel, hl, PState.updNode, PState.setNode]
    · simp [appendChild, hdel, hl, PState.updNode, PState.setNode]

@[simp] theorem setNode_goals (σ : PState) (i : Nat) (v : NodeRec) : (σ.setNode i v).goals = σ.goals := rfl

@[simp] theorem setNode_ppas (σ : PState) (i : Nat) (v : NodeRec) : (σ.setNode i v).ppas = σ.ppas := rfl

@[simp] theorem setNode_acts (σ : PState) (i : Nat) (v : NodeRec) : (σ.setNode i v).acts = σ.acts := rfl

@[simp] theorem setNode_precs (σ : PState) (i : Nat) (v : NodeRec) : (σ.setNode i v).precs = σ.precs := rfl

@[simp] theorem setNode_preconds (σ : PState) (i : Nat) (v : NodeRec) : (σ.setNode i v).preconds = σ.preconds := rfl

@[simp] theorem setNode_next (σ : PState) (i : Nat) (v : NodeRec) : (σ.setNode i v).next = σ.next := rfl

@[simp] theorem setAct_nodes (σ : PState) (i : Nat) (v : ActionRec) : (σ.setAct i v).nodes = σ.nodes := rfl

@[simp] theorem setAct_goals (σ : PState) (i : Nat) (v : ActionRec) : (σ.setAct i v).goals = σ.goals := rfl

@[simp] theorem setAct_ppas (σ : PState) (i : Nat) (v : ActionRec) : (σ.setAct i v).ppas = σ.ppas := rfl

@[simp] theorem setAct_precs (σ : PState) (i : Nat) (v : ActionRec) : (σ.setAct i v).precs = σ.precs := rfl

@[simp] theorem setAct_preconds (σ : PState) (i : Nat) (v : ActionRec) : (σ.setAct i v).preconds = σ.preconds := rfl

@[simp] theorem setAct_next (σ : PState) (i : Nat) (v : ActionRec) : (σ.setAct i v).next = σ.next := rfl

@[simp] theorem setPpa_nodes (σ : PState) (i : Nat) (v : PpaRec) : (σ.setPpa i v).nodes = σ.nodes := rfl

@[simp] theorem setPpa_acts (σ : PState) (i : Nat) (v : PpaRec) : (σ.setPpa i v).acts = σ.acts := rfl

@[simp] theorem setPpa_next (σ : PState) (i : Nat) (v : PpaRec) : (σ.setPpa i v).next = σ.next := rfl

@[simp] theorem setPpa_precs (σ : PState) (i : Nat) (v : PpaRec) : (σ.setPpa i v).precs = σ.precs := rfl

@[simp] theorem setPpa_preconds (σ : PState) (i : Nat) (v : PpaRec) : (σ.setPpa i v).preconds = σ.preconds := rfl

@[simp] theorem setPpa_goals (σ : PState) (i : Nat) (v : PpaRec) : (σ.setPpa i v).goals = σ.goals := rfl

theorem mem_of_getLast?_eq {L : List Nat} {y : Nat} (h : L.getLast? = some y) : y ∈ L := by
  obtain ⟨hne, heq⟩ := List.mem_getLast?_eq_getLast (show y ∈ L.getLast? by simp [h, Option.mem_def])
  rw [heq]
  exact List.getLast_mem hne

theorem lookup_none_of_not_mem_keys {α : Type _} {l : List (Nat × α)} {k : Nat}
    (h : k ∉ l.map Prod.fst) : l.lookup k = none := by
  induction l with
  | nil => rfl
  | cons p t ih =>
    obtain ⟨a, b⟩ := p
    simp only [List.map, List.mem_cons] at h
    push_neg at h
    obtain ⟨h1, h2⟩ := h
    have hba : (k == a) = false := by simp [h1]
    simp [List.lookup, hba, ih h2]

/-- The effect of the `generateAnd` loop: one fresh precondition record and
one fresh carrier leaf per condition, appended in order under `nId`, and
the `and` map extended by the condition keys paired with the fresh
precondition ids.  Everything previously allocated except the parent's
child links (and the old last child's `next`) is untouched. -/
theorem generateAndAux_ok (nId : Nat) :
    ∀ (conds : List Cond) (σ : PState) (andm : List (Nat × Nat)) (L : List Nat),
    nId < σ.next →
    (∀ x ∈ L, x < σ.next) →
    nId ∉ L → L.Nodup →
    ChildrenAre σ nId L →
    ((andm.map Prod.fst ++ conds.map Cond.key).Nodup) →
    ∃ σ' cids pids,
      generateAndAux nId σ andm conds = (σ', andm ++ (conds.map Cond.key).zip pids, none) ∧
      σ.next ≤ σ'.next ∧
      ChildrenAre σ' nId (L ++ cids) ∧
      cids.length = conds.length ∧
      pids.length = conds.length ∧
      (∀ x ∈ cids, σ.next ≤ x ∧ x < σ'.next) ∧
      (∀ x ∈ pids, σ.next ≤ x ∧ x < σ'.next) ∧
      cids.Nodup ∧
      (∀ i ci pi c, cids.get? i = some ci → pids.get? i = some pi → conds.get? i = some c →
        (σ'.nodes ci).leaf = some (.condLeaf c.key c.matchv pi) ∧
        (σ'.nodes ci).precond = some pi ∧
        (σ'.nodes ci).parent = some nId ∧
        (σ'.nodes ci).goal = (σ.nodes nId).goal ∧
        (σ'.nodes ci).ppa = (σ.nodes nId).ppa ∧
        (σ'.nodes ci).action = (σ.nodes nId).action ∧
        (σ'.nodes ci).preconds = (σ.nodes nId).preconds ∧
        (σ'.nodes ci).tick = none ∧
        (σ'.nodes ci).first = none ∧
        (σ'.preconds pi).cond = c ∧
        (σ'.preconds pi).status = .zero ∧
        (σ'.preconds pi).root = ci) ∧
      (∀ y, y < σ.next → y ≠ nId → y ∉ L → σ'.nodes y = σ.nodes y) ∧
      (∀ y ∈ L, σ'.nodes y = { σ.nodes y with next := (σ'.nodes y).next }) ∧
      (∀ y, y < σ.next → σ'.preconds y = σ.preconds y) ∧
      σ'.precs = σ.precs ∧ σ'.goals = σ.goals ∧ σ'.ppas = σ.ppas ∧ σ'.acts = σ.acts ∧
      (σ'.nodes nId).goal = (σ.nodes nId).goal ∧
      (σ'.nodes nId).ppa = (σ.nodes nId).ppa ∧
      (σ'.nodes nId).action = (σ.nodes nId).action ∧
      (σ'.nodes nId).preconds = (σ.nodes nId).preconds ∧
      (σ'.nodes nId).precond = (σ.nodes nId).precond ∧
      (σ'.nodes nId).leaf = (σ.nodes nId).leaf ∧
      (σ'.nodes nId).tick = (σ.nodes nId).tick ∧
      (σ'.nodes nId).parent = (σ.nodes nId).parent ∧
      (σ'.nodes nId).prev = (σ.nodes nId).prev ∧
      (σ'.nodes nId).next = (σ.nodes nId).next := by
  intro conds
  induction conds with
  | nil =>
    intro σ andm L hn hL hnL hnd hch hkeys
    refine ⟨σ, [], [], ?_⟩
    simp [generateAndAux, hch]
  | cons c rest ih =>
    intro σ andm L hn hL hnL hnd hch hkeys
    have hkmem : c.key ∉ andm.map Prod.fst := by
      rw [List.nodup_append] at hkeys
      intro hmem
      exact hkeys.2.2 hmem (by simp)
    have hlookup : andm.lookup c.key = none := lookup_none_of_not_mem_keys hkmem
    -- the allocation step
    set pid := σ.next with hpid
    set cid := σ.next + 1 with hcid
    set σ₁ : PState := { σ with next := σ.next + 2 } with hσ₁
    set σ₂ : PState := σ₁.setPrecond pid { root := cid, cond := c, status := .zero } with hσ₂
    set lit : NodeRec :=
      { goal := (σ.nodes nId).goal, ppa := (σ.nodes nId).ppa, action := (σ.nodes nId).action,
        preconds := (σ.nodes nId).preconds, precond := some pid,
        leaf := some (.condLeaf c.key c.matchv pid) } with hlit
    set σ₃ : PState := σ₂.setNode cid lit with hσ₃
    have hcidn : cid ≠ nId := by omega
    have hncid : nId ≠ cid := by omega
    have hcidL : cid ∉ L := fun hmem => by have := hL cid hmem; omega
    have hnodes₃ : ∀ y, y ≠ cid → σ₃.nodes y = σ.nodes y := by
      intro y hy
      simp [hσ₃, hσ₂, hσ₁, PState.setNode, PState.setPrecond, updf, hy]
    have hnodes₃cid : σ₃.nodes cid = lit := by
      simp [hσ₃, hσ₂, hσ₁, PState.setNode, PState.setPrecond, updf]
    have hch₃ : ChildrenAre σ₃ nId L := by
      obtain ⟨hchain, hlast⟩ := hch
      refine ⟨?_, ?_⟩
      · rw [hnodes₃ nId hncid]
        exact chain_congr hchain (fun x hx => by rw [hnodes₃ x (fun h => hcidL (h ▸ hx))])
      · rw [hnodes₃ nId hncid]
        exact hlast
    obtain ⟨hac, hcrec, hfr, hlastrec, hnrec, hgo, hpp, hact, hprc, hpcd, hnx⟩ :=
      appendChild_last_children σ₃ nId cid L hch₃
        (by rw [hnodes₃cid]) (by rw [hnodes₃cid]) (by rw [hnodes₃cid])
        hcidn hcidL hnL hnd
    set σ₄ : PState := appendChild σ₃ nId none cid with hσ₄
    have hnext₄ : σ₄.next = σ.next + 2 := by
      rw [hnx]
      simp [hσ₃, hσ₂, hσ₁, PState.setNode, PState.setPrecond]
    have hkeys' : (((andm ++ [(c.key, pid)]).map Prod.fst) ++ rest.map Cond.key).Nodup := by
      simpa using hkeys
    have hL₄ : ∀ x ∈ L ++ [cid], x < σ₄.next := by
      intro x hx
      rcases List.mem_append.mp hx with h | h
      · have := hL x h; omega
      · simp at h; omega
    have hnL₄ : nId ∉ L ++ [cid] := by
      intro hmem
      rcases List.mem_append.mp hmem with h | h
      · exact hnL h
      · simp at h; omega
    have hnd₄ : (L ++ [cid]).Nodup := by
      rw [List.nodup_append]
      exact ⟨hnd, List.nodup_singleton _, fun a ha => by
        simp
        intro heq
        exact hcidL (heq ▸ ha)⟩
    have hn₄ : nId < σ₄.next := by omega
    -- the parent node after the append
    have hnId₄ : σ₄.nodes nId
        = { σ.nodes nId with
              first := if L = [] then some cid else (σ.nodes nId).first
              last := some cid } := by
      rw [hnrec, hnodes₃ nId hncid]
    obtain ⟨σ', cids', pids', hrun, hmono, hch', hclen, hplen, hcb, hpb, hcnd,
        hfacts, hfr', hlfr', hpfr', hprcs', hgoals', hppas', hacts',
        g1, g2, g3, g4, g5, g6, g7, g8, g9, g10⟩ :=
      ih σ₄ (andm ++ [(c.key, pid)]) (L ++ [cid]) hn₄ hL₄ hnL₄ hnd₄ hac hkeys'
    refine ⟨σ', cid :: cids', pid :: pids', ?_, ?_, ?_, ?_, ?_, ?_, ?_, ?_, ?_, ?_, ?_,
      ?_, ?_, ?_, ?_, ?_, ?_, ?_, ?_, ?_, ?_, ?_, ?_, ?_, ?_, ?_⟩
    · -- the computation takes exactly this step
      have hstep : generateAndAux nId σ andm (c :: rest)
          = generateAndAux nId σ₄ (andm ++ [(c.key, pid)]) rest := by
        rw [generateAndAux]
        simp only [hlookup, Option.isSome_none, Bool.false_eq_true, if_false]
        try rfl
      rw [hstep, hrun]
      simp
    · omega
    · simpa using hch'
    · simpa using hclen
    · simpa using hplen
    · intro x hx
      rcases List.mem_cons.mp hx with rfl | h
      · have := hmono; omega
      · have := hcb x h; omega
    · intro x hx
      rcases List.mem_cons.mp hx with rfl | h
      · have := hmono; omega
      · have := hpb x h; omega
    · refine List.nodup_cons.mpr ⟨?_, hcnd⟩
      intro hmem
      have := hcb cid hmem
      omega
    · intro i ci pi cc hci hpi hcc
      cases i with
      | zero =>
        simp at hci hpi hcc
        subst hci; subst hpi; subst hcc
        have hcidmem : cid ∈ L ++ [cid] := by simp
        have hrec := hlfr' cid hcidmem
        have hσ₄cid : σ₄.nodes cid = { lit with parent := some nId, prev := L.getLast? } := by
          rw [hcrec, hnodes₃cid]
        have hpid' : σ'.preconds pid = σ₄.preconds pid := hpfr' pid (by omega)
        have hpid₄ : σ₄.preconds pid = { root := cid, cond := c, status := .zero } := by
          rw [hpcd]
          simp [hσ₃, hσ₂, hσ₁, PState.setNode, PState.setPrecond, updf]
        rw [hrec, hσ₄cid, hpid', hpid₄]
        simp [hlit]
      | succ j =>
        simp only [List.get?_cons_succ] at hci hpi hcc
        have := hfacts j ci pi cc hci hpi hcc
        rw [hnId₄] at this
        simpa using this
    · intro y hy hyn hyL
      have h1 : σ'.nodes y = σ₄.nodes y := by
        refine hfr' y (by omega) hyn ?_
        intro hmem
        rcases List.mem_append.mp hmem with h | h
        · exact hyL h
        · simp at h; omega
      have h2 : σ₄.nodes y = σ₃.nodes y := by
        refine hfr y (fun h => by omega) hyn ?_
        intro h
        exact hyL (mem_of_getLast?_eq h)
      rw [h1, h2, hnodes₃ y (by omega)]
    · intro y hy
      have hymem : y ∈ L ++ [cid] := by simp [hy]
      have h1 := hlfr' y hymem
      have hyn : y ≠ nId := fun h => hnL (h ▸ hy)
      have hycid : y ≠ cid := fun h => hcidL (h ▸ hy)
      by_cases hylast : L.getLast? = some y
      · have h2 : σ₄.nodes y = { σ₃.nodes y with next := some cid } := hlastrec y hylast
        rw [h1, h2, hnodes₃ y hycid]
      · have h2 : σ₄.nodes y = σ₃.nodes y := hfr y hycid hyn hylast
        rw [h1, h2, hnodes₃ y hycid]
    · intro y hy
      have h1 : σ'.preconds y = σ₄.preconds y := hpfr' y (by omega)
      rw [h1, hpcd]
      simp only [hσ₃, hσ₂, hσ₁, PState.setNode, PState.setPrecond]
      simp [updf, show y ≠ pid by omega]
    · rw [hprcs', hprc]
      simp [hσ₃, hσ₂, hσ₁, PState.setNode, PState.setPrecond]
    · rw [hgoals', hgo]
      simp [hσ₃, hσ₂, hσ₁, PState.setNode, PState.setPrecond]
    · rw [hppas', hpp]
      simp [hσ₃, hσ₂, hσ₁, PState.setNode, PState.setPrecond]
    · rw [hacts', hact]
      simp [hσ₃, hσ₂, hσ₁, PState.setNode, PState.setPrecond]
    · rw [g1, hnId₄]
    · rw [g2, hnId₄]
    · rw [g3, hnId₄]
    · rw [g4, hnId₄]
    · rw [g5, hnId₄]
    · rw [g6, hnId₄]
    · rw [g7, hnId₄]
    · rw [g8, hnId₄]
    · rw [g9, hnId₄]
    · rw [g10, hnId₄]

/-- `generateAnd` on a childless target node with valid conditions: the
node becomes a Sequence whose children are fresh condition-check leaves,
one per condition, in order. -/
theorem generateAnd_ok (σ : PState) (nId : Nat) (conds : List Cond)
    (hne : conds ≠ []) (hkeys : (conds.map Cond.key).Nodup)
    (hn : nId < σ.next) (hch : ChildrenAre σ nId []) :
    ∃ σ' cids pids,
      generateAnd σ nId conds = (σ', (conds.map Cond.key).zip pids, none) ∧
      σ.next ≤ σ'.next ∧
      ChildrenAre σ' nId cids ∧
      cids.length = conds.length ∧
      pids.length = conds.length ∧
      (∀ x ∈ cids, σ.next ≤ x ∧ x < σ'.next) ∧
      (∀ x ∈ pids, σ.next ≤ x ∧ x < σ'.next) ∧
      cids.Nodup ∧
      (∀ i ci pi c, cids.get? i = some ci → pids.get? i = some pi → conds.get? i = some c →
        (σ'.nodes ci).leaf = some (.condLeaf c.key c.matchv pi) ∧
        (σ'.nodes ci).precond = some pi ∧
        (σ'.nodes ci).parent = some nId ∧
        (σ'.nodes ci).goal = (σ.nodes nId).goal ∧
        (σ'.nodes ci).ppa = (σ.nodes nId).ppa ∧
        (σ'.nodes ci).action = (σ.nodes nId).action ∧
        (σ'.nodes ci).preconds = (σ.nodes nId).preconds ∧
        (σ'.nodes ci).tick = none ∧
        (σ'.nodes ci).first = none ∧
        (σ'.preconds pi).cond = c ∧
        (σ'.preconds pi).status = .zero ∧
        (σ'.preconds pi).root = ci) ∧
      (∀ y, y < σ.next → y ≠ nId → σ'.nodes y = σ.nodes y) ∧
      (∀ y, y < σ.next → σ'.preconds y = σ.preconds y) ∧
      σ'.precs = σ.precs ∧ σ'.goals = σ.goals ∧ σ'.ppas = σ.ppas ∧ σ'.acts = σ.acts ∧
      (σ'.nodes nId).goal = (σ.nodes nId).goal ∧
      (σ'.nodes nId).ppa = (σ.nodes nId).ppa ∧
      (σ'.nodes nId).action = (σ.nodes nId).action ∧
      (σ'.nodes nId).preconds = (σ.nodes nId).preconds ∧
      (σ'.nodes nId).precond = (σ.nodes nId).precond ∧
      (σ'.nodes nId).leaf = (σ.nodes nId).leaf ∧
      (σ'.nodes nId).tick = some .sequence ∧
      (σ'.nodes nId).parent = (σ.nodes nId).parent ∧
      (σ'.nodes nId).prev = (σ.nodes nId).prev ∧
      (σ'.nodes nId).next = (σ.nodes nId).next := by
  set σt : PState := σ.updNode nId (fun r => { r with tick := some .sequence }) with hσt
  have hteq : ∀ y, y ≠ nId → σt.nodes y = σ.nodes y := by
    intro y hy
    simp [hσt, PState.updNode, PState.setNode, updf, hy]
  have htn : σt.nodes nId = { σ.nodes nId with tick := some .sequence } := by
    simp [hσt, PState.updNode, PState.setNode, updf]
  have hnextt : σt.next = σ.next := by simp [hσt, PState.updNode, PState.setNode]
  have hcht : ChildrenAre σt nId [] := by
    obtain ⟨hchain, hlast⟩ := hch
    constructor
    · rw [htn]
      simp only [Chain] at hchain ⊢
      simpa using hchain
    · rw [htn]
      simpa using hlast
  obtain ⟨σ', cids, pids, hrun, hmono, hch', hclen, hplen, hcb, hpb, hcnd, hfacts,
      hfr, hlfr, hpfr, hprcs, hgoals, hppas, hacts,
      g1, g2, g3, g4, g5, g6, g7, g8, g9, g10⟩ :=
    generateAndAux_ok nId conds σt [] [] (by omega) (by simp) (by simp) (by simp) hcht
      (by simpa using hkeys)
  refine ⟨σ', cids, pids, ?_, by omega, by simpa using hch', hclen, hplen,
    ?_, ?_, hcnd, ?_, ?_, ?_, ?_, ?_, ?_, ?_, ?_, ?_, ?_, ?_, ?_, ?_, ?_, ?_, ?_, ?_⟩
  · rw [generateAnd, if_neg (by simpa using hne)]
    exact hrun
  · intro x hx
    have := hcb x hx
    omega
  · intro x hx
    have := hpb x hx
    omega
  · intro i ci pi c h1 h2 h3
    have := hfacts i ci pi c h1 h2 h3
    rw [htn] at this
    simpa using this
  · intro y hy hyn
    rw [hfr y (by omega) hyn (by simp), hteq y hyn]
  · intro y hy
    exact hpfr y (by omega)
  · rw [hprcs]; simp [hσt, PState.updNode, PState.setNode]
  · rw [hgoals]; simp [hσt, PState.updNode, PState.setNode]
  · rw [hppas]; simp [hσt, PState.updNode, PState.setNode]
  · rw [hacts]; simp [hσt, PState.updNode, PState.setNode]
  · rw [g1, htn]
  · rw [g2, htn]
  · rw [g3, htn]
  · rw [g4, htn]
  · rw [g5, htn]
  · rw [g6, htn]
  · rw [g7, htn]
  · rw [g8, htn]
  · rw [g9, htn]
  · rw [g10, htn]

/-- The allocation fold of the multi-alternative case of `generateOr`: one
fresh childless node per alternative, each carrying a fresh empty
`preconditions` record, appended in order under `nId`. -/
theorem generateOrAlloc_ok (nId : Nat) :
    ∀ (goal : List (List Cond)) (σ : PState) (orAcc : List Nat) (L : List Nat),
    nId < σ.next →
    (∀ x ∈ L, x < σ.next) →
    nId ∉ L → L.Nodup →
    ChildrenAre σ nId L →
    ∃ σ' alts precsIds,
      goal.foldl (generateOrAlloc nId) (σ, orAcc) = (σ', orAcc ++ precsIds) ∧
      σ.next ≤ σ'.next ∧
      alts.length = goal.length ∧
      precsIds.length = goal.length ∧
      ChildrenAre σ' nId (L ++ alts) ∧
      (∀ x ∈ alts, σ.next ≤ x ∧ x < σ'.next) ∧
      (∀ x ∈ precsIds, σ.next ≤ x ∧ x < σ'.next) ∧
      alts.Nodup ∧ precsIds.Nodup ∧
      (∀ k ak pk, alts.get? k = some ak → precsIds.get? k = some pk →
        (σ'.nodes ak).goal = (σ.nodes nId).goal ∧
        (σ'.nodes ak).ppa = (σ.nodes nId).ppa ∧
        (σ'.nodes ak).action = (σ.nodes nId).action ∧
        (σ'.nodes ak).preconds = some pk ∧
        (σ'.nodes ak).precond = none ∧
        (σ'.nodes ak).leaf = none ∧
        (σ'.nodes ak).tick = none ∧
        (σ'.nodes ak).parent = some nId ∧
        (σ'.nodes ak).first = none ∧
        (σ'.nodes ak).last = none ∧
        (σ'.precs pk).root = ak ∧
        (σ'.precs pk).and = []) ∧
      (∀ y, y < σ.next → y ≠ nId → y ∉ L → σ'.nodes y = σ.nodes y) ∧
      (∀ y ∈ L, σ'.nodes y = { σ.nodes y with next := (σ'.nodes y).next }) ∧
      (∀ y, y < σ.next → σ'.precs y = σ.precs y) ∧
      σ'.preconds = σ.preconds ∧ σ'.goals = σ.goals ∧ σ'.ppas = σ.ppas ∧ σ'.acts = σ.acts ∧
      (σ'.nodes nId).goal = (σ.nodes nId).goal ∧
      (σ'.nodes nId).ppa = (σ.nodes nId).ppa ∧
      (σ'.nodes nId).action = (σ.nodes nId).action ∧
      (σ'.nodes nId).preconds = (σ.nodes nId).preconds ∧
      (σ'.nodes nId).precond = (σ.nodes nId).precond ∧
      (σ'.nodes nId).leaf = (σ.nodes nId).leaf ∧
      (σ'.nodes nId).tick = (σ.nodes nId).tick ∧
      (σ'.nodes nId).parent = (σ.nodes nId).parent ∧
      (σ'.nodes nId).prev = (σ.nodes nId).prev ∧
      (σ'.nodes nId).next = (σ.nodes nId).next := by
  intro goal
  induction goal with
  | nil =>
    intro σ orAcc L hn hL hnL hnd hch
    refine ⟨σ, [], [], ?_⟩
    simp [hch]
  | cons g rest ih =>
    intro σ orAcc L hn hL hnL hnd hch
    set cid := σ.next with hcidd
    set precsId := σ.next + 1 with hpidd
    set σ₁ : PState := { σ with next := σ.next + 2 } with hσ₁
    set lit : NodeRec :=
      { goal := (σ.nodes nId).goal, ppa := (σ.nodes nId).ppa, action := (σ.nodes nId).action,
        preconds := some precsId } with hlit
    set σ₂ : PState := σ₁.setNode cid lit with hσ₂
    set σ₃ : PState := σ₂.setPrecs precsId { root := cid, and := [] } with hσ₃
    have hcidn : cid ≠ nId := by omega
    have hncid : nId ≠ cid := by omega
    have hcidL : cid ∉ L := fun hmem => by have := hL cid hmem; omega
    have hnodes₃ : ∀ y, y ≠ cid → σ₃.nodes y = σ.nodes y := by
      intro y hy
      simp [hσ₃, hσ₂, hσ₁, PState.setNode, PState.setPrecs, updf, hy]
    have hnodes₃cid : σ₃.nodes cid = lit := by
      simp [hσ₃, hσ₂, hσ₁, PState.setNode, PState.setPrecs, updf]
    have hch₃ : ChildrenAre σ₃ nId L := by
      obtain ⟨hchain, hlast⟩ := hch
      refine ⟨?_, ?_⟩
      · rw [hnodes₃ nId hncid]
        exact chain_congr hchain (fun x hx => by rw [hnodes₃ x (fun h => hcidL (h ▸ hx))])
      · rw [hnodes₃ nId hncid]
        exact hlast
    obtain ⟨hac, hcrec, hfr, hlastrec, hnrec, hgo, hpp, hact, hprc, hpcd, hnx⟩ :=
      appendChild_last_children σ₃ nId cid L hch₃
        (by rw [hnodes₃cid]) (by rw [hnodes₃cid]) (by rw [hnodes₃cid])
        hcidn hcidL hnL hnd
    set σ₄ : PState := appendChild σ₃ nId none cid with hσ₄
    have hnext₄ : σ₄.next = σ.next + 2 := by
      rw [hnx]
      simp [hσ₃, hσ₂, hσ₁, PState.setNode, PState.setPrecs]
    have hL₄ : ∀ x ∈ L ++ [cid], x < σ₄.next := by
      intro x hx
      rcases List.mem_append.mp hx with h | h
      · have := hL x h; omega
      · simp at h; omega
    have hnL₄ : nId ∉ L ++ [cid] := by
      intro hmem
      rcases List.mem_append.mp hmem with h | h
      · exact hnL h
      · simp at h; omega
    have hnd₄ : (L ++ [cid]).Nodup := by
      rw [List.nodup_append]
      exact ⟨hnd, List.nodup_singleton _, fun a ha => by
        simp
        intro heq
        exact hcidL (heq ▸ ha)⟩
    have hn₄ : nId < σ₄.next := by omega
    have hnId₄ : σ₄.nodes nId
        = { σ.nodes nId with
              first := if L = [] then some cid else (σ.nodes nId).first
              last := some cid } := by
      rw [hnrec, hnodes₃ nId hncid]
    obtain ⟨σ', alts', precsIds', hrun, hmono, halen, hplen, hch', hab, hpb, hand, hpnd,
        hfacts, hfr', hlfr', hprcs', hpcds', hgoals', hppas', hacts',
        g1, g2, g3, g4, g5, g6, g7, g8, g9, g10⟩ :=
      ih σ₄ (orAcc ++ [precsId]) (L ++ [cid]) hn₄ hL₄ hnL₄ hnd₄ hac
    refine ⟨σ', cid :: alts', precsId :: precsIds', ?_, ?_, ?_, ?_, ?_, ?_, ?_, ?_, ?_,
      ?_, ?_, ?_, ?_, ?_, ?_, ?_, ?_, ?_, ?_, ?_, ?_, ?_, ?_, ?_, ?_, ?_, ?_⟩
    · have hstep : (g :: rest).foldl (generateOrAlloc nId) (σ, orAcc)
          = rest.foldl (generateOrAlloc nId) (σ₄, orAcc ++ [precsId]) := by
        rw [List.foldl_cons]
        rfl
      rw [hstep, hrun]
      simp
    · omega
    · simpa using halen
    · simpa using hplen
    · simpa using hch'
    · intro x hx
      rcases List.mem_cons.mp hx with rfl | h
      · have := hmono; omega
      · have := hab x h; omega
    · intro x hx
      rcases List.mem_cons.mp hx with rfl | h
      · have := hmono; omega
      · have := hpb x h; omega
    · refine List.nodup_cons.mpr ⟨?_, hand⟩
      intro hmem
      have := hab cid hmem
      omega
    · refine List.nodup_cons.mpr ⟨?_, hpnd⟩
      intro hmem
      have := hpb precsId hmem
      omega
    · intro k ak pk hak hpk
      cases k with
      | zero =>
        simp only [List.get?_cons_zero, Option.some.injEq] at hak hpk
        subst hak
        subst hpk
        have hcidmem : cid ∈ L ++ [cid] := by simp
        have hrec := hlfr' cid hcidmem
        have hσ₄cid : σ₄.nodes cid = { lit with parent := some nId, prev := L.getLast? } := by
          rw [hcrec, hnodes₃cid]
        have hprec' : σ'.precs precsId = σ₄.precs precsId := hprcs' precsId (by omega)
        have hprec₄ : σ₄.precs precsId = { root := cid, and := [] } := by
          rw [hprc]
          simp [hσ₃, hσ₂, hσ₁, PState.setNode, PState.setPrecs, updf]
        rw [hrec, hσ₄cid, hprec', hprec₄]
        simp [hlit]
      | succ j =>
        simp only [List.get?_cons_succ] at hak hpk
        have := hfacts j ak pk hak hpk
        rw [hnId₄] at this
        simpa using this
    · intro y hy hyn hyL
      have h1 : σ'.nodes y = σ₄.nodes y := by
        refine hfr' y (by omega) hyn ?_
        intro hmem
        rcases List.mem_append.mp hmem with h | h
        · exact hyL h
        · simp at h; omega
      have h2 : σ₄.nodes y = σ₃.nodes y := by
        refine hfr y (fun h => by omega) hyn ?_
        intro h
        exact hyL (mem_of_getLast?_eq h)
      rw [h1, h2, hnodes₃ y (by omega)]
    · intro y hy
      have hymem : y ∈ L ++ [cid] := by simp [hy]
      have h1 := hlfr' y hymem
      have hyn : y ≠ nId := fun h => hnL (h ▸ hy)
      have hycid : y ≠ cid := fun h => hcidL (h ▸ hy)
      by_cases hylast : L.getLast? = some y
      · have h2 : σ₄.nodes y = { σ₃.nodes y with next := some cid } := hlastrec y hylast
        rw [h1, h2, hnodes₃ y hycid]
      · have h2 : σ₄.nodes y = σ₃.nodes y := hfr y hycid hyn hylast
        rw [h1, h2, hnodes₃ y hycid]
    · intro y hy
      have h1 : σ'.precs y = σ₄.precs y := hprcs' y (by omega)
      rw [h1, hprc]
      simp only [hσ₃, hσ₂, hσ₁, PState.setNode, PState.setPrecs]
      simp [updf, show y ≠ precsId by omega]
    · rw [hpcds', hpcd]
      simp [hσ₃, hσ₂, hσ₁, PState.setNode, PState.setPrecs]
    · rw [hgoals', hgo]
      simp [hσ₃, hσ₂, hσ₁, PState.setNode, PState.setPrecs]
    · rw [hppas', hpp]
      simp [hσ₃, hσ₂, hσ₁, PState.setNode, PState.setPrecs]
    · rw [hacts', hact]
      simp [hσ₃, hσ₂, hσ₁, PState.setNode, PState.setPrecs]
    · rw [g1, hnId₄]
    · rw [g2, hnId₄]
    · rw [g3, hnId₄]
    · rw [g4, hnId₄]
    · rw [g5, hnId₄]
    · rw [g6, hnId₄]
    · rw [g7, hnId₄]
    · rw [g8, hnId₄]
    · rw [g9, hnId₄]
    · rw [g10, hnId₄]

/-- The `generateAnd` loop at the end of `generateOr`, over a list of
(preconditions-record id, conditions) pairs whose roots are distinct
childless nodes: every alternative compiles successfully, its root becomes
a Sequence of fresh condition-check leaves, and its `and` map is filled. -/
theorem generateOrLoop_ok :
    ∀ (pairs : List (Nat × List Cond)) (σ : PState),
    (∀ p ∈ pairs, p.1 < σ.next ∧ p.2 ≠ [] ∧ (p.2.map Cond.key).Nodup ∧
        (σ.precs p.1).root < σ.next ∧ ChildrenAre σ ((σ.precs p.1).root) []) →
    (pairs.map Prod.fst).Nodup →
    (pairs.map (fun p => (σ.precs p.1).root)).Nodup →
    ∃ σ',
      generateOrLoop σ pairs = (σ', none) ∧
      σ.next ≤ σ'.next ∧
      (∀ k pid conds, pairs.get? k = some (pid, conds) →
        ∃ cids pids2,
          (σ'.precs pid).root = (σ.precs pid).root ∧
          (σ'.precs pid).and = (conds.map Cond.key).zip pids2 ∧
          cids.length = conds.length ∧ pids2.length = conds.length ∧
          ChildrenAre σ' ((σ.precs pid).root) cids ∧
          (∀ x ∈ cids, σ.next ≤ x ∧ x < σ'.next) ∧
          (∀ x ∈ pids2, σ.next ≤ x ∧ x < σ'.next) ∧
          (∀ i ci pi c, cids.get? i = some ci → pids2.get? i = some pi →
              conds.get? i = some c →
            (σ'.nodes ci).leaf = some (.condLeaf c.key c.matchv pi) ∧
            (σ'.nodes ci).precond = some pi ∧
            (σ'.nodes ci).parent = some ((σ.precs pid).root) ∧
            (σ'.nodes ci).goal = (σ.nodes ((σ.precs pid).root)).goal ∧
            (σ'.nodes ci).ppa = (σ.nodes ((σ.precs pid).root)).ppa ∧
            (σ'.nodes ci).action = (σ.nodes ((σ.precs pid).root)).action ∧
            (σ'.nodes ci).preconds = (σ.nodes ((σ.precs pid).root)).preconds ∧
            (σ'.nodes ci).tick = none ∧
            (σ'.preconds pi).cond = c ∧
            (σ'.preconds pi).status = .zero ∧
            (σ'.preconds pi).root = ci) ∧
          (σ'.nodes ((σ.precs pid).root)).tick = some .sequence ∧
          (σ'.nodes ((σ.precs pid).root)).goal = (σ.nodes ((σ.precs pid).root)).goal ∧
          (σ'.nodes ((σ.precs pid).root)).ppa = (σ.nodes ((σ.precs pid).root)).ppa ∧
          (σ'.nodes ((σ.precs pid).root)).action = (σ.nodes ((σ.precs pid).root)).action ∧
          (σ'.nodes ((σ.precs pid).root)).preconds
              = (σ.nodes ((σ.precs pid).root)).preconds ∧
          (σ'.nodes ((σ.precs pid).root)).precond
              = (σ.nodes ((σ.precs pid).root)).precond ∧
          (σ'.nodes ((σ.precs pid).root)).leaf = (σ.nodes ((σ.precs pid).root)).leaf ∧
          (σ'.nodes ((σ.precs pid).root)).parent
              = (σ.nodes ((σ.precs pid).root)).parent ∧
          (σ'.nodes ((σ.precs pid).root)).prev = (σ.nodes ((σ.precs pid).root)).prev ∧
          (σ'.nodes ((σ.precs pid).root)).next = (σ.nodes ((σ.precs pid).root)).next) ∧
      (∀ y, y < σ.next → y ∉ pairs.map (fun p => (σ.precs p.1).root) →
          σ'.nodes y = σ.nodes y) ∧
      (∀ y, y < σ.next → σ'.preconds y = σ.preconds y) ∧
      (∀ y, y ∉ pairs.map Prod.fst → σ'.precs y = σ.precs y) ∧
      σ'.goals = σ.goals ∧ σ'.ppas = σ.ppas ∧ σ'.acts = σ.acts := by
  intro pairs
  induction pairs with
  | nil =>
    intro σ _ _ _
    refine ⟨σ, ?_⟩
    simp [generateOrLoop]
  | cons hd rest ih =>
    obtain ⟨pid, conds⟩ := hd
    intro σ hall hpnd hrnd
    obtain ⟨hpidlt, hcne, hckeys, hrlt, hrch⟩ := hall (pid, conds) (by simp)
    set r := (σ.precs pid).root with hrdef
    obtain ⟨σ₄, cids, pids2, hgen, hmono₄, hch₄, hclen, hplen2, hcb, hpb2, hcnd,
        hfacts, hfr₄, hpfr₄, hprcs₄, hgoals₄, hppas₄, hacts₄,
        a1, a2, a3, a4, a5, a6, a7, a8, a9, a10⟩ :=
      generateAnd_ok σ r conds hcne hckeys hrlt hrch
    set σ₅ : PState := σ₄.updPrecs pid (fun rec => { rec with and := (conds.map Cond.key).zip pids2 }) with hσ₅
    have hprecs₅ : ∀ y, y ≠ pid → σ₅.precs y = σ₄.precs y := by
      intro y hy
      simp [hσ₅, PState.updPrecs, PState.setPrecs, updf, hy]
    have hprecs₅pid : σ₅.precs pid
        = { σ₄.precs pid with and := (conds.map Cond.key).zip pids2 } := by
      simp [hσ₅, PState.updPrecs, PState.setPrecs, updf]
    have hnodes₅ : σ₅.nodes = σ₄.nodes := by
      simp [hσ₅, PState.updPrecs, PState.setPrecs]
    have hnext₅ : σ₅.next = σ₄.next := by
      simp [hσ₅, PState.updPrecs, PState.setPrecs]
    have hpcds₅ : σ₅.preconds = σ₄.preconds := by
      simp [hσ₅, PState.updPrecs, PState.setPrecs]
    -- the precondition record roots of the remaining pairs are untouched
    have hpid_not_rest : pid ∉ rest.map Prod.fst := by
      rw [List.map_cons, List.nodup_cons] at hpnd
      exact hpnd.1
    have hr_not_rest : r ∉ rest.map (fun p => (σ.precs p.1).root) := by
      rw [List.map_cons, List.nodup_cons] at hrnd
      exact hrnd.1
    have hprest : ∀ p ∈ rest, σ₅.precs p.1 = σ.precs p.1 := by
      intro p hp
      have hne : p.1 ≠ pid := by
        intro h
        exact hpid_not_rest (h ▸ (List.mem_map.mpr ⟨p, hp, rfl⟩))
      rw [hprecs₅ p.1 hne, hprcs₄]
    have hrnode : ∀ p ∈ rest,
        σ₅.nodes ((σ.precs p.1).root) = σ.nodes ((σ.precs p.1).root) := by
      intro p hp
      have hner : (σ.precs p.1).root ≠ r := by
        intro h
        exact hr_not_rest (h ▸ (List.mem_map.mpr ⟨p, hp, rfl⟩))
      rw [hnodes₅]
      exact hfr₄ _ (hall p (by simp [hp])).2.2.2.1 hner
    have hallrest : ∀ p ∈ rest, p.1 < σ₅.next ∧ p.2 ≠ [] ∧ (p.2.map Cond.key).Nodup ∧
        (σ₅.precs p.1).root < σ₅.next ∧ ChildrenAre σ₅ ((σ₅.precs p.1).root) [] := by
      intro p hp
      obtain ⟨h1, h2, h3, h4, h5⟩ := hall p (by simp [hp])
      refine ⟨by omega, h2, h3, ?_, ?_⟩
      · rw [hprest p hp]
        omega
      · obtain ⟨hc1, hc2⟩ := h5
        rw [hprest p hp]
        refine ⟨?_, ?_⟩
        · simp only [Chain] at hc1 ⊢
          rw [hrnode p hp]
          exact hc1
        · rw [hrnode p hp]
          exact hc2
    have hpndrest : (rest.map Prod.fst).Nodup := by
      rw [List.map_cons, List.nodup_cons] at hpnd
      exact hpnd.2
    have hrootsrw : rest.map (fun p => (σ₅.precs p.1).root)
        = rest.map (fun p => (σ.precs p.1).root) := by
      refine List.map_congr_left ?_
      intro p hp
      rw [hprest p hp]
    have hrndrest : (rest.map (fun p => (σ₅.precs p.1).root)).Nodup := by
      rw [hrootsrw]
      rw [List.map_cons, List.nodup_cons] at hrnd
      exact hrnd.2
    obtain ⟨σ', hrun, hmono', hk', hfr', hpfr', hprcs', hgoals', hppas', hacts'⟩ :=
      ih σ₅ hallrest hpndrest hrndrest
    have hrkeep : σ'.nodes r = σ₄.nodes r := by
      rw [← hnodes₅]
      refine hfr' r (by omega) ?_
      rw [hrootsrw]
      exact hr_not_rest
    have hpid_precs : (σ'.precs pid).root = r ∧
        (σ'.precs pid).and = (conds.map Cond.key).zip pids2 := by
      have h1 : σ'.precs pid = σ₅.precs pid := hprcs' pid hpid_not_rest
      rw [h1, hprecs₅pid, hprcs₄]
      exact ⟨rfl, rfl⟩
    refine ⟨σ', ?_, by omega, ?_, ?_, ?_, ?_, ?_, ?_, ?_⟩
    · show generateOrLoop σ ((pid, conds) :: rest) = (σ', none)
      rw [generateOrLoop]
      rw [hrdef] at hgen
      simp only [hgen]
      show generateOrLoop σ₅ rest = (σ', none)
      exact hrun
    · intro k pid' conds' hk
      cases k with
      | zero =>
        simp only [List.get?_cons_zero, Option.some.injEq, Prod.mk.injEq] at hk
        obtain ⟨rfl, rfl⟩ := hk
        refine ⟨cids, pids2, hpid_precs.1, hpid_precs.2, hclen, hplen2, ?_, ?_, ?_,
          ?_, ?_, ?_, ?_, ?_, ?_, ?_, ?_, ?_, ?_, ?_⟩
        · -- children of r survive the rest of the loop
          obtain ⟨hc1, hc2⟩ := hch₄
          have hckeep : ∀ x ∈ cids, σ'.nodes x = σ₄.nodes x := by
            intro x hx
            have hb := hcb x hx
            rw [← hnodes₅]
            refine hfr' x (by omega) ?_
            rw [hrootsrw]
            intro hmem
            obtain ⟨p, hp, hpe⟩ := List.mem_map.mp hmem
            have := (hall p (by simp [hp])).2.2.2.1
            omega
          refine ⟨?_, ?_⟩
          · rw [hrkeep]
            refine chain_congr hc1 ?_
            intro x hx
            rw [hckeep x hx]
          · rw [hrkeep]
            exact hc2
        · intro x hx
          have := hcb x hx
          omega
        · intro x hx
          have := hpb2 x hx
          omega
        · intro i ci pi c h1 h2 h3
          obtain ⟨f1, f2, f3, f4, f5, f6, f7, f8, f9, f10, f11, f12⟩ :=
            hfacts i ci pi c h1 h2 h3
          have hcikeep : σ'.nodes ci = σ₄.nodes ci := by
            have hb := hcb ci (List.get?_mem h1)
            rw [← hnodes₅]
            refine hfr' ci (by omega) ?_
            rw [hrootsrw]
            intro hmem
            obtain ⟨p, hp, hpe⟩ := List.mem_map.mp hmem
            have := (hall p (by simp [hp])).2.2.2.1
            omega
          have hpikeep : σ'.preconds pi = σ₄.preconds pi := by
            have hb := hpb2 pi (List.get?_mem h2)
            rw [← hpcds₅]
            exact hpfr' pi (by omega)
          rw [hcikeep, hpikeep]
          exact ⟨f1, f2, f3, f4, f5, f6, f7, f8, f10, f11, f12⟩
        · rw [hrkeep]
          exact a7
        · rw [hrkeep]
          exact a1
        · rw [hrkeep]
          exact a2
        · rw [hrkeep]
          exact a3
        · rw [hrkeep]
          exact a4
        · rw [hrkeep]
          exact a5
        · rw [hrkeep]
          exact a6
        · rw [hrkeep]
          exact a8
        · rw [hrkeep]
          exact a9
        · rw [hrkeep]
          exact a10
      | succ j =>
        simp only [List.get?_cons_succ] at hk
        have hmemj : (pid', conds') ∈ rest := List.get?_mem hk
        have hroot' : (σ₅.precs pid').root = (σ.precs pid').root :=
          congrArg PrecsRec.root (hprest _ hmemj)
        have hnode' : σ₅.nodes ((σ.precs pid').root) = σ.nodes ((σ.precs pid').root) :=
          hrnode _ hmemj
        obtain ⟨cids', pids2', b1, b2, b3, b4, b5, b6, b7, b8, b9, b10, b11, b12, b13,
            b14, b15, b16, b17, b18⟩ := hk' j pid' conds' hk
        rw [hroot'] at b1 b5 b8 b9 b10 b11 b12 b13 b14 b15 b16 b17 b18
        rw [hnode'] at b8 b10 b11 b12 b13 b14 b15 b16 b17 b18
        refine ⟨cids', pids2', b1, b2, b3, b4, b5, ?_, ?_,
          b8, b9, b10, b11, b12, b13, b14, b15, b16, b17, b18⟩
        · intro x hx
          have := b6 x hx
          omega
        · intro x hx
          have := b7 x hx
          omega
    · intro y hy hmem
      simp only [List.map_cons, List.mem_cons] at hmem
      push_neg at hmem
      obtain ⟨hyr, hyrest⟩ := hmem
      have h1 : σ'.nodes y = σ₅.nodes y := by
        refine hfr' y (by omega) ?_
        rw [hrootsrw]
        exact hyrest
      rw [h1, hnodes₅]
      exact hfr₄ y hy hyr
    · intro y hy
      have h1 : σ'.preconds y = σ₅.preconds y := hpfr' y (by omega)
      rw [h1, hpcds₅]
      exact hpfr₄ y hy
    · intro y hy
      simp only [List.map_cons, List.mem_cons] at hy
      push_neg at hy
      obtain ⟨hyp, hyrest⟩ := hy
      have h1 : σ'.precs y = σ₅.precs y := hprcs' y hyrest
      rw [h1, hprecs₅ y hyp, hprcs₄]
    · rw [hgoals']
      simp [hσ₅, PState.updPrecs, PState.setPrecs, hgoals₄]
    · rw [hppas']
      simp [hσ₅, PState.updPrecs, PState.setPrecs, hppas₄]
    · rw [hacts']
      simp [hσ₅, PState.updPrecs, PState.setPrecs, hacts₄]

/-- `generateOr` with exactly one alternative: the node itself carries the
fresh `preconditions` record and becomes a Sequence of condition leaves. -/
theorem generateOr_single_ok (σ : PState) (nId : Nat) (conds : List Cond)
    (hne : conds ≠ []) (hkeys : (conds.map Cond.key).Nodup)
    (hn : nId < σ.next) (hch : ChildrenAre σ nId []) :
    ∃ σ' cids pids,
      generateOr σ nId [conds] = (σ', [σ.next], none) ∧
      σ.next < σ'.next ∧
      (σ'.precs σ.next).root = nId ∧
      (σ'.precs σ.next).and = (conds.map Cond.key).zip pids ∧
      (σ'.nodes nId).preconds = some σ.next ∧
      (σ'.nodes nId).tick = some .sequence ∧
      ChildrenAre σ' nId cids ∧
      cids.length = conds.length ∧ pids.length = conds.length ∧
      (∀ x ∈ cids, σ.next < x ∧ x < σ'.next) ∧
      (∀ x ∈ pids, σ.next < x ∧ x < σ'.next) ∧
      (∀ i ci pi c, cids.get? i = some ci → pids.get? i = some pi → conds.get? i = some c →
        (σ'.nodes ci).leaf = some (.condLeaf c.key c.matchv pi) ∧
        (σ'.nodes ci).precond = some pi ∧
        (σ'.nodes ci).parent = some nId ∧
        (σ'.nodes ci).goal = (σ.nodes nId).goal ∧
        (σ'.nodes ci).ppa = (σ.nodes nId).ppa ∧
        (σ'.nodes ci).action = (σ.nodes nId).action ∧
        (σ'.nodes ci).preconds = some σ.next ∧
        (σ'.preconds pi).cond = c ∧
        (σ'.preconds pi).status = .zero ∧
        (σ'.preconds pi).root = ci) ∧
      (∀ y, y < σ.next → y ≠ nId → σ'.nodes y = σ.nodes y) ∧
      (∀ y, y < σ.next → σ'.preconds y = σ.preconds y) ∧
      (∀ y, y < σ.next → σ'.precs y = σ.precs y) ∧
      σ'.goals = σ.goals ∧ σ'.ppas = σ.ppas ∧ σ'.acts = σ.acts ∧
      (σ'.nodes nId).goal = (σ.nodes nId).goal ∧
      (σ'.nodes nId).ppa = (σ.nodes nId).ppa ∧
      (σ'.nodes nId).action = (σ.nodes nId).action ∧
      (σ'.nodes nId).precond = (σ.nodes nId).precond ∧
      (σ'.nodes nId).leaf = (σ.nodes nId).leaf ∧
      (σ'.nodes nId).parent = (σ.nodes nId).parent ∧
      (σ'.nodes nId).prev = (σ.nodes nId).prev ∧
      (σ'.nodes nId).next = (σ.nodes nId).next := by
  set precsId := σ.next with hpid
  set σa : PState := { σ with next := σ.next + 1 } with hσa
  set σb : PState := σa.setPrecs precsId { root := nId, and := [] } with hσb
  set σc : PState := σb.updNode nId (fun r => { r with preconds := some precsId }) with hσc
  have hnodesc : ∀ y, y ≠ nId → σc.nodes y = σ.nodes y := by
    intro y hy
    simp [hσc, hσb, hσa, PState.updNode, PState.setNode, PState.setPrecs, updf, hy]
  have hnodescn : σc.nodes nId = { σ.nodes nId with preconds := some precsId } := by
    simp [hσc, hσb, hσa, PState.updNode, PState.setNode, PState.setPrecs, updf]
  have hnextc : σc.next = σ.next + 1 := by
    simp [hσc, hσb, hσa, PState.updNode, PState.setNode, PState.setPrecs]
  have hprecsc : σc.precs precsId = { root := nId, and := [] } := by
    simp [hσc, hσb, hσa, PState.updNode, PState.setNode, PState.setPrecs, updf]
  have hprecscy : ∀ y, y ≠ precsId → σc.precs y = σ.precs y := by
    intro y hy
    simp [hσc, hσb, hσa, PState.updNode, PState.setNode, PState.setPrecs, updf, hy]
  have hpcdc : σc.preconds = σ.preconds := by
    simp [hσc, hσb, hσa, PState.updNode, PState.setNode, PState.setPrecs]
  have hchc : ChildrenAre σc nId [] := by
    obtain ⟨hc1, hc2⟩ := hch
    refine ⟨?_, ?_⟩
    · simp only [Chain] at hc1 ⊢
      rw [hnodescn]
      exact hc1
    · rw [hnodescn]
      exact hc2
  have hroot0 : (σc.precs precsId).root = nId := by rw [hprecsc]
  obtain ⟨σ', hrun, hmono, hk, hfr, hpfr, hprcs, hgoals, hppas, hacts⟩ :=
    generateOrLoop_ok [(precsId, conds)] σc
      (by
        intro p hp
        simp only [List.mem_singleton] at hp
        subst hp
        refine ⟨?_, hne, hkeys, ?_, ?_⟩
        · show precsId < σc.next
          omega
        · show (σc.precs precsId).root < σc.next
          rw [hroot0]
          omega
        · show ChildrenAre σc ((σc.precs precsId).root) []
          rw [hroot0]
          exact hchc)
      (by simp)
      (by simp)
  obtain ⟨cids, pids, k1, k2, k3, k4, k5, k6, k7, k8, k9, k10, k11, k12, k13, k14,
      k15, k16, k17, k18⟩ := hk 0 precsId conds (by simp)
  rw [hroot0] at k1 k5 k8 k9 k10 k11 k12 k13 k14 k15 k16 k17 k18
  rw [hnodescn] at k8 k10 k11 k12 k13 k14 k15 k16 k17 k18
  have hgen : generateOr σ nId [conds] = (σ', [precsId], none) := by
    have hunf : generateOr σ nId [conds]
        = (match generateOrLoop σc [(precsId, conds)] with
           | (σ'', e) => (σ'', [precsId], e)) := rfl
    rw [hunf, hrun]
  refine ⟨σ', cids, pids, hgen, by omega, k1, k2, k13, k9, k5, k3, k4, ?_, ?_, ?_,
    ?_, ?_, ?_, ?_, ?_, ?_, k10, k11, k12, k14, k15, k16, k17, k18⟩
  · intro x hx
    have := k6 x hx
    omega
  · intro x hx
    have := k7 x hx
    omega
  · intro i ci pi c h1 h2 h3
    obtain ⟨f1, f2, f3, f4, f5, f6, f7, f8, f9, f10, f11⟩ := k8 i ci pi c h1 h2 h3
    exact ⟨f1, f2, f3, f4, f5, f6, f7, f9, f10, f11⟩
  · intro y hy hyn
    have h1 : σ'.nodes y = σc.nodes y := by
      refine hfr y (by omega) ?_
      simp only [List.map_cons, List.map_nil, List.mem_singleton]
      rw [hroot0]
      exact hyn
    rw [h1, hnodesc y hyn]
  · intro y hy
    rw [hpfr y (by omega), hpcdc]
  · intro y hy
    have h1 : σ'.precs y = σc.precs y := by
      refine hprcs y ?_
      simp only [List.map_cons, List.map_nil, List.mem_singleton]
      omega
    rw [h1, hprecscy y (by omega)]
  · rw [hgoals]
    simp [hσc, hσb, hσa, PState.updNode, PState.setNode, PState.setPrecs]
  · rw [hppas]
    simp [hσc, hσb, hσa, PState.updNode, PState.setNode, PState.setPrecs]
  · rw [hacts]
    simp [hσc, hσb, hσa, PState.updNode, PState.setNode, PState.setPrecs]

/-- `generateOr` with two or more alternatives: the node becomes a Selector
whose children are fresh alternative nodes, one per alternative, each a
Sequence of that alternative's condition-check leaves. -/
theorem generateOr_multi_ok (σ : PState) (nId : Nat) (g1 g2 : List Cond)
    (grest : List (List Cond))
    (hvalid : ∀ g ∈ g1 :: g2 :: grest, g ≠ [] ∧ (g.map Cond.key).Nodup)
    (hn : nId < σ.next) (hch : ChildrenAre σ nId []) :
    ∃ σ' alts precsIds,
      generateOr σ nId (g1 :: g2 :: grest) = (σ', precsIds, none) ∧
      σ.next ≤ σ'.next ∧
      (σ'.nodes nId).tick = some .selector ∧
      ChildrenAre σ' nId alts ∧
      alts.length = (g1 :: g2 :: grest).length ∧
      precsIds.length = (g1 :: g2 :: grest).length ∧
      (∀ k ak pk g, alts.get? k = some ak → precsIds.get? k = some pk →
          (g1 :: g2 :: grest).get? k = some g →
        (σ'.nodes ak).tick = some .sequence ∧
        (σ'.nodes ak).preconds = some pk ∧
        (σ'.nodes ak).parent = some nId ∧
        (σ'.nodes ak).goal = (σ.nodes nId).goal ∧
        (σ'.nodes ak).ppa = (σ.nodes nId).ppa ∧
        (σ'.nodes ak).action = (σ.nodes nId).action ∧
        (σ'.nodes ak).leaf = none ∧
        (σ'.nodes ak).precond = none ∧
        (σ'.precs pk).root = ak ∧
        (∃ cids pids,
          (σ'.precs pk).and = (g.map Cond.key).zip pids ∧
          ChildrenAre σ' ak cids ∧
          cids.length = g.length ∧ pids.length = g.length ∧
          (∀ i ci pi c, cids.get? i = some ci → pids.get? i = some pi →
              g.get? i = some c →
            (σ'.nodes ci).leaf = some (.condLeaf c.key c.matchv pi) ∧
            (σ'.nodes ci).precond = some pi ∧
            (σ'.nodes ci).parent = some ak ∧
            (σ'.nodes ci).preconds = some pk ∧
            (σ'.preconds pi).cond = c ∧
            (σ'.preconds pi).status = .zero ∧
            (σ'.preconds pi).root = ci))) ∧
      (∀ y, y < σ.next → y ≠ nId → σ'.nodes y = σ.nodes y) ∧
      (∀ y, y < σ.next → σ'.preconds y = σ.preconds y) ∧
      (∀ y, y < σ.next → σ'.precs y = σ.precs y) ∧
      σ'.goals = σ.goals ∧ σ'.ppas = σ.ppas ∧ σ'.acts = σ.acts ∧
      (σ'.nodes nId).goal = (σ.nodes nId).goal ∧
      (σ'.nodes nId).ppa = (σ.nodes nId).ppa ∧
      (σ'.nodes nId).action = (σ.nodes nId).action ∧
      (σ'.nodes nId).preconds = (σ.nodes nId).preconds ∧
      (σ'.nodes nId).precond = (σ.nodes nId).precond ∧
      (σ'.nodes nId).leaf = (σ.nodes nId).leaf ∧
      (σ'.nodes nId).parent = (σ.nodes nId).parent ∧
      (σ'.nodes nId).prev = (σ.nodes nId).prev ∧
      (σ'.nodes nId).next = (σ.nodes nId).next := by
  set goal := g1 :: g2 :: grest with hgoal
  set σt : PState := σ.updNode nId (fun r => { r with tick := some .selector }) with hσt
  have hteq : ∀ y, y ≠ nId → σt.nodes y = σ.nodes y := by
    intro y hy
    simp [hσt, PState.updNode, PState.setNode, updf, hy]
  have htn : σt.nodes nId = { σ.nodes nId with tick := some .selector } := by
    simp [hσt, PState.updNode, PState.setNode, updf]
  have hnextt : σt.next = σ.next := by simp [hσt, PState.updNode, PState.setNode]
  have hcht : ChildrenAre σt nId [] := by
    obtain ⟨hc1, hc2⟩ := hch
    refine ⟨?_, ?_⟩
    · simp only [Chain] at hc1 ⊢
      rw [htn]
      exact hc1
    · rw [htn]
      simpa using hc2
  obtain ⟨σm, alts, precsIds, hallocrun, hmonoM, halen, hplen, hchM, hab, hpb, hand,
      hpnd, hAfacts, hAfr, hAlfr, hAprcs, hApcds, hAgoals, hAppas, hAacts,
      m1, m2, m3, m4, m5, m6, m7, m8, m9, m10⟩ :=
    generateOrAlloc_ok nId goal σt [] [] (by omega) (by simp) (by simp) (by simp) hcht
  -- the roots of the allocated preconditions records are precisely the alts
  have hlenpa : precsIds.length = alts.length := by rw [halen, hplen]
  have hrootk : ∀ k pk, precsIds.get? k = some pk →
      ∃ ak, alts.get? k = some ak ∧ (σm.precs pk).root = ak := by
    intro k pk hpk
    have hklen : k < precsIds.length := by
      by_contra hk
      push_neg at hk
      rw [List.get?_eq_none.mpr hk] at hpk
      exact Option.noConfusion hpk
    have hklen' : k < alts.length := by omega
    obtain ⟨ak, hak⟩ : ∃ ak, alts.get? k = some ak :=
      ⟨alts.get ⟨k, hklen'⟩, List.get?_eq_get hklen'⟩
    exact ⟨ak, hak, (hAfacts k ak pk hak hpk).2.2.2.2.2.2.2.2.2.2.1⟩
  have hrootsmap : (precsIds.zip goal).map (fun p => (σm.precs p.1).root) = alts := by
    refine List.ext_get? ?_
    intro n
    rw [List.get?_map]
    match hzn : (precsIds.zip goal).get? n with
    | some z =>
      obtain ⟨h1, h2⟩ := (List.get?_zip_eq_some _ _ _ _).mp hzn
      obtain ⟨ak, hak, hrt⟩ := hrootk n z.1 h1
      simp only [Option.map_some', hrt, hak]
    | none =>
      simp only [Option.map_none']
      have hlz : (precsIds.zip goal).length = precsIds.length := by
        rw [List.length_zip]
        omega
      have : precsIds.length ≤ n := by
        by_contra hc
        push_neg at hc
        have : n < (precsIds.zip goal).length := by omega
        rw [List.get?_eq_get this] at hzn
        exact Option.noConfusion hzn
      rw [List.get?_eq_none.mpr (by omega)]
  obtain ⟨σ', hlooprun, hmonoL, hLk, hLfr, hLpfr, hLprcs, hLgoals, hLppas, hLacts⟩ :=
    generateOrLoop_ok (precsIds.zip goal) σm
      (by
        intro p hp
        have hmem1 : p.1 ∈ precsIds := by
          have := List.of_mem_zip hp
          exact this.1
        have hmem2 : p.2 ∈ goal := (List.of_mem_zip hp).2
        obtain ⟨k, hk⟩ := List.get?_of_mem hmem1
        obtain ⟨ak, hak, hrt⟩ := hrootk k p.1 hk
        have hbp := hpb p.1 hmem1
        have hba := hab ak (List.get?_mem hak)
        have hgv := hvalid p.2 hmem2
        refine ⟨by omega, hgv.1, hgv.2, by rw [hrt]; omega, ?_⟩
        rw [hrt]
        obtain ⟨a1, a2, a3, a4, a5, a6, a7, a8, a9, a10, a11, a12⟩ :=
          hAfacts k ak p.1 hak hk
        refine ⟨?_, ?_⟩
        · simp only [Chain]
          exact a9
        · simpa using a10)
      (by
        rw [List.map_fst_zip precsIds goal (by omega)]
        exact hpnd)
      (by
        rw [hrootsmap]
        exact hand)
  have hnId_notin : nId ∉ alts := fun hmem => by
    have := hab nId hmem
    omega
  have hnIdkeep : σ'.nodes nId = σm.nodes nId := by
    refine hLfr nId (by omega) ?_
    rw [hrootsmap]
    exact hnId_notin
  have hpairk : ∀ k pk g, precsIds.get? k = some pk → goal.get? k = some g →
      (precsIds.zip goal).get? k = some (pk, g) := by
    intro k pk g h1 h2
    exact (List.get?_zip_eq_some _ _ _ _).mpr ⟨h1, h2⟩
  have hgplen : goal.length = precsIds.length := by omega
  have hrun : generateOr σ nId goal = (σ', precsIds, none) := by
    rw [List.nil_append] at hallocrun
    have hunf : generateOr σ nId goal
        = (match goal.foldl (generateOrAlloc nId) (σt, []) with
           | (σm', orL) =>
             match generateOrLoop σm' (orL.zip goal) with
             | (σ'', e) => (σ'', orL, e)) := rfl
    rw [hunf, hallocrun]
    show (match generateOrLoop σm (precsIds.zip goal) with
          | (σ'', e) => (σ'', precsIds, e)) = (σ', precsIds, none)
    rw [hlooprun]
  refine ⟨σ', alts, precsIds, hrun, by omega, ?_, ?_, halen, hplen, ?_, ?_, ?_, ?_,
    ?_, ?_, ?_, ?_, ?_, ?_, ?_, ?_, ?_, ?_, ?_, ?_⟩
  · rw [hnIdkeep, m7, htn]
  · obtain ⟨hchainM, hlastM⟩ := hchM
    simp only [List.nil_append] at hchainM hlastM
    refine ⟨?_, ?_⟩
    · rw [hnIdkeep]
      refine chain_congr hchainM ?_
      intro x hx
      obtain ⟨k, hk⟩ := List.get?_of_mem hx
      have hklen : k < alts.length := by
        by_contra hc
        push_neg at hc
        rw [List.get?_eq_none.mpr hc] at hk
        exact Option.noConfusion hk
      have hkp : k < precsIds.length := by omega
      have hkg : k < goal.length := by omega
      obtain ⟨pk, hpk⟩ : ∃ pk, precsIds.get? k = some pk :=
        ⟨precsIds.get ⟨k, hkp⟩, List.get?_eq_get hkp⟩
      obtain ⟨gk, hgk⟩ : ∃ gk, goal.get? k = some gk :=
        ⟨goal.get ⟨k, hkg⟩, List.get?_eq_get hkg⟩
      obtain ⟨ak', hak', hrt⟩ := hrootk k pk hpk
      have hax : ak' = x := by
        rw [hk] at hak'
        exact (Option.some.injEq _ _ ▸ hak').symm
      subst hax
      obtain ⟨cids', pids', b1, b2, b3, b4, b5, b6, b7, b8, b9, b10, b11, b12, b13,
          b14, b15, b16, b17, b18⟩ := hLk k pk gk (hpairk k pk gk hpk hgk)
      rw [hrt] at b18
      exact b18
    · rw [hnIdkeep]
      exact hlastM
  · intro k ak pk g hak hpk hgk
    obtain ⟨a1, a2, a3, a4, a5, a6, a7, a8, a9, a10, a11, a12⟩ := hAfacts k ak pk hak hpk
    obtain ⟨ak', hak', hrt⟩ := hrootk k pk hpk
    have hax : ak' = ak := by
      rw [hak] at hak'
      exact (Option.some.injEq _ _ ▸ hak').symm
    subst hax
    obtain ⟨cids', pids', b1, b2, b3, b4, b5, b6, b7, b8, b9, b10, b11, b12, b13,
        b14, b15, b16, b17, b18⟩ := hLk k pk g (hpairk k pk g hpk hgk)
    rw [hrt] at b1 b5 b8 b9 b10 b11 b12 b13 b14 b15 b16 b17 b18
    have hgt : (σt.nodes nId).goal = (σ.nodes nId).goal := by rw [htn]
    have hpt : (σt.nodes nId).ppa = (σ.nodes nId).ppa := by rw [htn]
    have hat : (σt.nodes nId).action = (σ.nodes nId).action := by rw [htn]
    refine ⟨b9, b13.trans a4, b16.trans a8, b10.trans (a1.trans hgt),
      b11.trans (a2.trans hpt), b12.trans (a3.trans hat), b15.trans a6,
      b14.trans a5, b1, cids', pids', b2, b5, b3, b4, ?_⟩
    intro i ci pi c h1 h2 h3
    obtain ⟨f1, f2, f3, f4, f5, f6, f7, f8, f9, f10, f11⟩ := b8 i ci pi c h1 h2 h3
    exact ⟨f1, f2, f3, f7.trans a4, f9, f10, f11⟩
  · intro y hy hyn
    have h1 : σ'.nodes y = σm.nodes y := by
      refine hLfr y (by omega) ?_
      rw [hrootsmap]
      intro hmem
      have := hab y hmem
      omega
    rw [h1, hAfr y (by omega) hyn (by simp), hteq y hyn]
  · intro y hy
    have h1 : σ'.preconds y = σm.preconds y := hLpfr y (by omega)
    rw [h1, hApcds]
    simp [hσt, PState.updNode, PState.setNode]
  · intro y hy
    have h1 : σ'.precs y = σm.precs y := by
      refine hLprcs y ?_
      rw [List.map_fst_zip precsIds goal (by omega)]
      intro hmem
      have := hpb y hmem
      omega
    rw [h1, hAprcs y (by omega)]
    simp [hσt, PState.updNode, PState.setNode]
  · rw [hLgoals, hAgoals]
    simp [hσt, PState.updNode, PState.setNode]
  · rw [hLppas, hAppas]
    simp [hσt, PState.updNode, PState.setNode]
  · rw [hLacts, hAacts]
    simp [hσt, PState.updNode, PState.setNode]
  · rw [hnIdkeep, m1, htn]
  · rw [hnIdkeep, m2, htn]
  · rw [hnIdkeep, m3, htn]
  · rw [hnIdkeep, m4, htn]
  · rw [hnIdkeep, m5, htn]
  · rw [hnIdkeep, m6, htn]
  · rw [hnIdkeep, m8, htn]
  · rw [hnIdkeep, m9, htn]
  · rw [hnIdkeep, m10, htn]

theorem childrenAre_congr {σ σ' : PState} (h : σ'.nodes = σ.nodes) {n : Nat} {L : List Nat} :
    ChildrenAre σ n L → ChildrenAre σ' n L := by
  intro hch
  obtain ⟨h1, h2⟩ := hch
  constructor
  · rw [h]
    exact chain_congr h1 (fun x _ => by rw [h])
  · rw [h]
    exact h2

/-- C8: goal compilation produces: for an empty (or nil) goal, a root that
is a Sequence composite with no children; for a goal with exactly one
Conditions, a root Sequence containing one condition-check leaf per
condition; for a goal with two or more Conditions, a root Selector with one
child Sequence per Conditions, each containing that alternative's
condition-check leaves in order. -/
theorem C8_goal_compilation (state : StateM) (conds : List Cond)
    (g1 g2 : List Cond) (grest : List (List Cond))
    (hne : conds ≠ []) (hkeys : (conds.map Cond.key).Nodup)
    (hvalid : ∀ g ∈ g1 :: g2 :: grest, g ≠ [] ∧ (g.map Cond.key).Nodup) :
    (∃ σ' r, planInit state [] = (σ', some r, none) ∧
      (σ'.nodes r).tick = some .sequence ∧ ChildrenAre σ' r []) ∧
    (∃ (σ' : PState) (r : Nat) (cids pids : List Nat),
      planInit state [conds] = (σ', some r, none) ∧
      (σ'.nodes r).tick = some .sequence ∧ ChildrenAre σ' r cids ∧
      cids.length = conds.length ∧ pids.length = conds.length ∧
      (∀ i ci pi c, cids.get? i = some ci → pids.get? i = some pi →
          conds.get? i = some c →
        (σ'.nodes ci).leaf = some (.condLeaf c.key c.matchv pi) ∧
        (σ'.nodes ci).precond = some pi ∧ (σ'.preconds pi).cond = c)) ∧
    (∃ σ' r alts, planInit state (g1 :: g2 :: grest) = (σ', some r, none) ∧
      (σ'.nodes r).tick = some .selector ∧ ChildrenAre σ' r alts ∧
      alts.length = (g1 :: g2 :: grest).length ∧
      (∀ k ak g, alts.get? k = some ak → (g1 :: g2 :: grest).get? k = some g →
        (σ'.nodes ak).tick = some .sequence ∧
        ∃ (cids pids : List Nat), ChildrenAre σ' ak cids ∧ cids.length = g.length ∧
          pids.length = g.length ∧
          (∀ i ci pi c, cids.get? i = some ci → pids.get? i = some pi →
              g.get? i = some c →
            (σ'.nodes ci).leaf = some (.condLeaf c.key c.matchv pi) ∧
            (σ'.nodes ci).precond = some pi ∧ (σ'.preconds pi).cond = c))) := by
  -- the state after the allocations at the top of init, shared by all cases
  set σ0 : PState :=
    ({ emptyState with next := 2 }.setGoal 0
        { root := 1, state := state, or := [] }).setNode 1 { goal := some 0 } with hσ0
  have h1lt : (1 : Nat) < σ0.next := by
    simp [hσ0, PState.setGoal, PState.setNode, emptyState]
  have hch0 : ChildrenAre σ0 1 [] := by
    refine ⟨?_, ?_⟩ <;>
      simp [hσ0, PState.setGoal, PState.setNode, updf, emptyState, Chain, List.getLast?]
  refine ⟨?_, ?_, ?_⟩
  · -- empty goal
    refine ⟨_, 1, rfl, ?_, ?_, ?_⟩ <;>
      simp [planInit, planInitFrom, generateOr, emptyState, PState.setGoal, PState.setNode,
        PState.updNode, PState.updGoal, updf, Chain, List.getLast?]
  · -- single Conditions
    obtain ⟨σ', cids, pids, hrun, hmono, k1, k2, k3, k4, k5, k6, k7, k8, k9, k10,
        k11, k12, k13, k14, k15, k16, k17, k18, k19, k20, k21, k22, k23, k24⟩ :=
      generateOr_single_ok σ0 1 conds hne hkeys h1lt hch0
    have hunf : planInit state [conds]
        = (match generateOr σ0 1 [conds] with
           | (σg, orL, e) =>
             let σg := σg.updGoal 0 (fun g => { g with or := orL })
             match e with
             | none => (σg, some 1, none)
             | some err => (σg, none, some err)) := rfl
    refine ⟨σ'.updGoal 0 (fun g => { g with or := [σ0.next] }), 1, cids, pids, ?_,
      k4, childrenAre_congr (by rfl) k5, k6, k7, ?_⟩
    · rw [hunf, hrun]
    · intro i ci pi c h1 h2 h3
      obtain ⟨f1, f2, f3, f4, f5, f6, f7, f8, f9, f10⟩ := k10 i ci pi c h1 h2 h3
      exact ⟨f1, f2, f8⟩
  · -- two or more Conditions
    obtain ⟨σ', alts, precsIds, hrun, hmono, htick, hchR, halen, hplen, hk,
        w1, w2, w3, w4, w5, w6, w7, w8, w9, w10, w11, w12, w13, w14, w15⟩ :=
      generateOr_multi_ok σ0 1 g1 g2 grest hvalid h1lt hch0
    have hunf : planInit state (g1 :: g2 :: grest)
        = (match generateOr σ0 1 (g1 :: g2 :: grest) with
           | (σg, orL, e) =>
             let σg := σg.updGoal 0 (fun g => { g with or := orL })
             match e with
             | none => (σg, some 1, none)
             | some err => (σg, none, some err)) := rfl
    refine ⟨σ'.updGoal 0 (fun g => { g with or := precsIds }), 1, alts, ?_, htick,
      childrenAre_congr (by rfl) hchR, halen, ?_⟩
    · rw [hunf, hrun]
    · intro k ak g hak hgk
      have hkplen : k < precsIds.length := by
        have hklen : k < alts.length := by
          by_contra hc
          push_neg at hc
          rw [List.get?_eq_none.mpr hc] at hak
          exact Option.noConfusion hak
        omega
      obtain ⟨pk, hpk⟩ : ∃ pk, precsIds.get? k = some pk :=
        ⟨precsIds.get ⟨k, hkplen⟩, List.get?_eq_get hkplen⟩
      obtain ⟨c1, c2, c3, c4, c5, c6, c7, c8, c9, cids, pids, d1, d2, d3, d4, d5⟩ :=
        hk k ak pk g hak hpk hgk
      refine ⟨c1, cids, pids, childrenAre_congr (by rfl) d2, d3, d4, ?_⟩
      intro i ci pi c h1 h2 h3
      obtain ⟨f1, f2, f3, f4, f5, f6, f7⟩ := d5 i ci pi c h1 h2 h3
      exact ⟨f1, f2, f5⟩

/-- Witness for C8: the three cases instantiated at a concrete state and
goals. -/
theorem C8_goal_compilation_witness :
    (∃ σ' r, planInit wState [] = (σ', some r, none) ∧
      (σ'.nodes r).tick = some .sequence ∧ ChildrenAre σ' r []) ∧
    (∃ (σ' : PState) (r : Nat) (cids pids : List Nat),
      planInit wState [[wCond 1 1]] = (σ', some r, none) ∧
      (σ'.nodes r).tick = some .sequence ∧ ChildrenAre σ' r cids ∧
      cids.length = [wCond 1 1].length ∧ pids.length = [wCond 1 1].length ∧
      (∀ i ci pi c, cids.get? i = some ci → pids.get? i = some pi →
          [wCond 1 1].get? i = some c →
        (σ'.nodes ci).leaf = some (.condLeaf c.key c.matchv pi) ∧
        (σ'.nodes ci).precond = some pi ∧ (σ'.preconds pi).cond = c)) ∧
    (∃ σ' r alts, planInit wState [[wCond 1 1], [wCond 2 2]] = (σ', some r, none) ∧
      (σ'.nodes r).tick = some .selector ∧ ChildrenAre σ' r alts ∧
      alts.length = [[wCond 1 1], [wCond 2 2]].length ∧
      (∀ k ak g, alts.get? k = some ak → [[wCond 1 1], [wCond 2 2]].get? k = some g →
        (σ'.nodes ak).tick = some .sequence ∧
        ∃ (cids pids : List Nat), ChildrenAre σ' ak cids ∧ cids.length = g.length ∧
          pids.length = g.length ∧
          (∀ i ci pi c, cids.get? i = some ci → pids.get? i = some pi →
              g.get? i = some c →
            (σ'.nodes ci).leaf = some (.condLeaf c.key c.matchv pi) ∧
            (σ'.nodes ci).precond = some pi ∧ (σ'.preconds pi).cond = c))) :=
  C8_goal_compilation wState [wCond 1 1] [wCond 1 1] [wCond 2 2] []
    (by simp)
    (by decide)
    (by
      intro g hg
      simp only [List.mem_cons, List.not_mem_nil, or_false] at hg
      rcases hg with rfl | rfl
      · exact ⟨by simp, by decide⟩
      · exact ⟨by simp, by decide⟩)

/-- The effect-map loop: with distinct keys it never errors, and the `ok`
flag ends up true exactly when some effect has the post condition's key
and a matching value. -/
theorem buildEffects_ok (pk : Nat) (post : Cond) :
    ∀ (effs : List Eff) (effMap : List (Nat × Eff)) (ok : Bool),
    ((effMap.map Prod.fst ++ effs.map Eff.key).Nodup) →
    ∃ effMap',
      buildEffects pk post effMap ok effs
        = (effMap', (ok || effs.any (fun e => e.key == pk && post.matchv e.value)), none) := by
  intro effs
  induction effs with
  | nil =>
    intro effMap ok _
    exact ⟨effMap, by simp [buildEffects]⟩
  | cons e rest ih =>
    intro effMap ok h
    have hkmem : e.key ∉ effMap.map Prod.fst := by
      rw [List.nodup_append] at h
      intro hmem
      exact h.2.2 hmem (by simp)
    have hlookup : effMap.lookup e.key = none := lookup_none_of_not_mem_keys hkmem
    have hkeys' : (((effMap ++ [(e.key, e)]).map Prod.fst) ++ rest.map Eff.key).Nodup := by
      simpa using h
    obtain ⟨effMap', hrun⟩ := ih (effMap ++ [(e.key, e)])
      (if !ok ∧ e.key = pk ∧ post.matchv e.value then true else ok) hkeys'
    refine ⟨effMap', ?_⟩
    have hstep : buildEffects pk post effMap ok (e :: rest)
        = buildEffects pk post (effMap ++ [(e.key, e)])
            (if !ok ∧ e.key = pk ∧ post.matchv e.value then true else ok) rest := by
      rw [buildEffects]
      simp only [hlookup, Option.isSome_none, Bool.false_eq_true, if_false]
    rw [hstep, hrun]
    congr 1
    congr 1
    by_cases h1 : e.key = pk <;> by_cases h2 : post.matchv e.value <;> cases ok <;>
      simp [h1, h2]

/-- C4 counterexample: with a candidate action whose `Effects()` is empty,
expansion does not skip it and continue with a nil error; `generateAction`
returns the `pabt: invalid action` error, expand aborts and propagates it,
and no action alternative is recorded on the new PPA (record 6). -/
theorem C4_counterexample :
    (expand c4Sigma 3).2 = some GoErr.invalidAction ∧
    (((expand c4Sigma 3).1).ppas 6).actions = [] := by
  constructor <;> rfl

/-- C4 (amended): during PPA expansion, a candidate action whose
`Effects()` returns an empty set makes `generateAction` fail with the
`pabt: invalid action` error, leaving the state untouched, and the action
loop of `expand` aborts right there, returning that error without
processing the remaining candidate actions. -/
theorem C4_empty_effects_is_error :
    (∀ (σ : PState) (nId : Nat) (post : Cond) (act : Act), act.effects = [] →
      generateAction σ nId post act = (σ, false, some .invalidAction)) ∧
    (∀ (σ : PState) (carrier : Nat) (cond : Cond) (act : Act) (rest : List Act),
      act.effects = [] →
      expandActs carrier cond σ (act :: rest) = (σ, some .invalidAction)) := by
  constructor
  · intro σ nId post act h
    simp [generateAction, h]
  · intro σ carrier cond act rest h
    simp [expandActs, generateAction, h]

/-- Witness for C4's amended theorem at a concrete empty-effects action. -/
theorem C4_empty_effects_is_error_witness :
    generateAction emptyState 0 (wCond 1 1) ⟨[], [], true⟩
      = (emptyState, false, some .invalidAction) ∧
    expandActs 0 (wCond 1 1) emptyState [⟨[], [], true⟩]
      = (emptyState, some .invalidAction) :=
  ⟨C4_empty_effects_is_error.1 emptyState 0 (wCond 1 1) ⟨[], [], true⟩ rfl,
   C4_empty_effects_is_error.2 emptyState 0 (wCond 1 1) ⟨[], [], true⟩ [] rfl⟩

/-- C3 counterexample: the action `c3Act` satisfies the claim's hypotheses
(non-empty effects with distinct keys, non-nil leaf) and qualifies for the
failed condition (its effect on key 1 has a matching value), yet it is not
recorded as an alternative of the new PPA and an error is produced: its
`Conditions()` contain an empty alternative, so `generateAction` fails
with `pabt: invalid conditions`, expand aborts, and the PPA record (id 6)
keeps no action alternatives. -/
theorem C3_counterexample :
    c3Act.effects ≠ [] ∧ (c3Act.effects.map Eff.key).Nodup ∧ c3Act.hasNode = true ∧
    (c3Act.effects.any (fun e => e.key == (c3Sigma.preconds 3).cond.key &&
        (c3Sigma.preconds 3).cond.matchv e.value)) = true ∧
    (expand c3Sigma 3).2 = some GoErr.invalidConditions ∧
    (((expand c3Sigma 3).1).ppas 6).actions = [] := by
  refine ⟨by decide, by decide, rfl, rfl, rfl, rfl⟩

/-- C3 (amended): for every action with non-empty effects over distinct
keys, a non-nil behaviour-tree leaf, and valid `Conditions()` (each
alternative non-empty with distinct keys), `generateAction` returns no
error, and the action is recorded as an alternative of the PPA referenced
by the carrier node if and only if some effect has the failed condition's
key and a value the condition matches; a non-qualifying action leaves the
whole state untouched. -/
theorem C3_action_qualification (σ : PState) (nId : Nat) (post : Cond) (act : Act)
    (P : Nat)
    (hppa : (σ.nodes nId).ppa = some P)
    (hne : act.effects ≠ []) (hkeys : (act.effects.map Eff.key).Nodup)
    (hnode : act.hasNode = true) (hconds : CondsValid act.conditions) :
    ∃ σ' ok,
      generateAction σ nId post act = (σ', ok, none) ∧
      ((act.effects.any (fun e => e.key == post.key && post.matchv e.value) = true) ↔
        ∃ r, (σ'.ppas P).actions = (σ.ppas P).actions ++ [r]) ∧
      (act.effects.any (fun e => e.key == post.key && post.matchv e.value) = false →
        σ' = σ) := by
  obtain ⟨effMap, hbe⟩ :=
    buildEffects_ok post.key post act.effects [] false (by simpa using hkeys)
  have hempty : act.effects.isEmpty = false := by
    rcases h : act.effects with _ | ⟨a, t⟩
    · exact absurd h hne
    · rfl
  by_cases hq : act.effects.any (fun e => e.key == post.key && post.matchv e.value) = true
  case neg =>
    have hq' : act.effects.any (fun e => e.key == post.key && post.matchv e.value)
        = false := by
      cases h2 : act.effects.any (fun e => e.key == post.key && post.matchv e.value)
      · rfl
      · exact absurd h2 hq
    have hbe' : buildEffects post.key post [] false act.effects = (effMap, false, none) := by
      rw [hbe, Bool.false_or, hq']
    refine ⟨σ, false, ?_, ?_, fun _ => rfl⟩
    · simp only [generateAction]
      rw [hempty, hbe']
      rfl
    · constructor
      · intro h
        exact absurd h hq
      · rintro ⟨r, hr⟩
        have := congrArg List.length hr
        simp at this
  case pos =>
    have hbe' : buildEffects post.key post [] false act.effects = (effMap, true, none) := by
      rw [hbe, Bool.false_or, hq]
    set rId := σ.next with hrId
    set nodeId := σ.next + 1 with hnodeId
    set σA : PState := { σ with next := σ.next + 2 } with hσA
    set σB : PState :=
      σA.setAct rId { root := 0, node := nodeId, effects := effMap, or := [] } with hσB
    set σC : PState := σB.setNode nodeId
      { goal := (σ.nodes nId).goal, ppa := (σ.nodes nId).ppa, action := some rId,
        leaf := some (.actLeaf rId) } with hσC
    set rootId := σ.next + 2 with hrootId
    set σD : PState := { σC with next := σC.next + 1 } with hσD
    set σE : PState := σD.setNode rootId
      { goal := (σ.nodes nId).goal, ppa := (σ.nodes nId).ppa, action := some rId } with hσE
    set σF : PState := σE.updAct rId (fun r => { r with root := rootId }) with hσF
    have hnextF : σF.next = σ.next + 3 := by
      simp [hσF, hσE, hσD, hσC, hσB, hσA, PState.updAct, PState.setAct, PState.setNode]
    have hppasF : σF.ppas = σ.ppas := by
      simp [hσF, hσE, hσD, hσC, hσB, hσA, PState.updAct, PState.setAct, PState.setNode]
    have hrootF : σF.nodes rootId
        = { goal := (σ.nodes nId).goal, ppa := (σ.nodes nId).ppa, action := some rId } := by
      simp [hσF, hσE, hσD, hσC, hσB, hσA, PState.updAct, PState.setAct, PState.setNode, updf]
    have hchF : ChildrenAre σF rootId [] := by
      refine ⟨?_, ?_⟩ <;> simp [Chain, hrootF]
    have hstep : generateAction σ nId post act
        = (match generateOr σF rootId act.conditions with
           | (σ7, orL, some e) =>
             (σ7.updAct rId (fun r => { r with or := orL }), true, some e)
           | (σ7, orL, none) =>
             let σ8 := σ7.updAct rId (fun r => { r with or := orL })
             let σ9 :=
               if orL.length ≤ 1 then σ8
               else
                 appendChild
                   ((({ σ8 with next := σ8.next + 1 }).setNode σ8.next
                       { goal := (σ.nodes nId).goal, ppa := (σ.nodes nId).ppa,
                         action := some rId, tick := some .sequence }).updAct rId
                     (fun r => { r with root := σ8.next }))
                   σ8.next none ((σ8.acts rId).root)
             let σ10 := appendChild σ9 ((σ9.acts rId).root) none ((σ9.acts rId).node)
             match (σ.nodes nId).ppa with
             | some Q =>
               (σ10.updPpa Q (fun r => { r with actions := r.actions ++ [rId] }), true, none)
             | none => (σ10, true, some GoErr.nilPanic)) := by
      simp only [generateAction]
      rw [hempty, hbe', hnode]
      rfl
    rcases hcase : act.conditions with _ | ⟨g, gs⟩
    · set σOr : PState :=
        σF.updNode rootId (fun r => { r with tick := some TickKind.sequence }) with hσOr
      set σ8 : PState := σOr.updAct rId (fun r => { r with or := ([] : List Nat) }) with hσ8
      set σ10 : PState :=
        appendChild σ8 ((σ8.acts rId).root) none ((σ8.acts rId).node) with hσ10
      set σZ : PState :=
        σ10.updPpa P (fun r => { r with actions := r.actions ++ [rId] }) with hσZ
      have hrun : generateAction σ nId post act = (σZ, true, none) := by
        rw [hstep, hcase, hppa]
        rfl
      have h10 : σ10.ppas = σ.ppas := by
        rw [hσ10, appendChild_ppas]
        simp [hσ8, hσOr, PState.updAct, PState.updNode, hppasF]
      have hZP : (σZ.ppas P).actions = (σ.ppas P).actions ++ [rId] := by
        rw [hσZ]
        simp [PState.updPpa, PState.setPpa, updf, h10]
      refine ⟨σZ, true, hrun, ⟨fun _ => ⟨rId, hZP⟩, fun _ => hq⟩, fun h => ?_⟩
      rw [h] at hq
      exact absurd hq (by decide)
    · rcases gs with _ | ⟨g2, gr⟩
      · obtain ⟨hgne, hgkeys⟩ :=
          hconds g (by rw [hcase]; exact List.mem_singleton_self g)
        obtain ⟨σOr, cids, pids, hgo, -, -, -, -, -, -, -, -, -, -, -, -, -, -, -,
            hppasOr, -, -, -, -, -, -, -, -, -⟩ :=
          generateOr_single_ok σF rootId g hgne hgkeys (by omega) hchF
        set σ8 : PState := σOr.updAct rId (fun r => { r with or := [σF.next] }) with hσ8
        set σ10 : PState :=
          appendChild σ8 ((σ8.acts rId).root) none ((σ8.acts rId).node) with hσ10
        set σZ : PState :=
          σ10.updPpa P (fun r => { r with actions := r.actions ++ [rId] }) with hσZ
        have hrun : generateAction σ nId post act = (σZ, true, none) := by
          rw [hstep, hcase, hppa, hgo]
          rfl
        have h10 : σ10.ppas = σ.ppas := by
          rw [hσ10, appendChild_ppas]
          simp [hσ8, PState.updAct, hppasOr, hppasF]
        have hZP : (σZ.ppas P).actions = (σ.ppas P).actions ++ [rId] := by
          rw [hσZ]
          simp [PState.updPpa, PState.setPpa, updf, h10]
        refine ⟨σZ, true, hrun, ⟨fun _ => ⟨rId, hZP⟩, fun _ => hq⟩, fun h => ?_⟩
        rw [h] at hq
        exact absurd hq (by decide)
      · have hvalid : ∀ a ∈ g :: g2 :: gr, a ≠ [] ∧ ((a.map Cond.key).Nodup) := by
          intro a ha
          exact hconds a (by rw [hcase]; exact ha)
        obtain ⟨σOr, alts, precsIds, hgo, -, -, -, -, hplen, -, -, -, -, -,
            hppasOr, -, -, -, -, -, -, -, -, -, -⟩ :=
          generateOr_multi_ok σF rootId g g2 gr hvalid (by omega) hchF
        rcases precsIds with _ | ⟨p1, _ | ⟨p2, prest⟩⟩
        · simp only [List.length_nil, List.length_cons] at hplen
          omega
        · simp only [List.length_nil, List.length_cons] at hplen
          omega
        set σ8 : PState := σOr.updAct rId (fun r => { r with or := p1 :: p2 :: prest }) with hσ8
        set σ9 : PState := appendChild
            ((({ σ8 with next := σ8.next + 1 }).setNode σ8.next
                { goal := (σ.nodes nId).goal, ppa := some P, action := some rId,
                  tick := some TickKind.sequence }).updAct rId
              (fun r => { r with root := σ8.next }))
            σ8.next none ((σ8.acts rId).root) with hσ9
        set σ10 : PState :=
          appendChild σ9 ((σ9.acts rId).root) none ((σ9.acts rId).node) with hσ10
        set σZ : PState :=
          σ10.updPpa P (fun r => { r with actions := r.actions ++ [rId] }) with hσZ
        have hrun : generateAction σ nId post act = (σZ, true, none) := by
          rw [hstep, hcase, hppa, hgo]
          rfl
        have h10 : σ10.ppas = σ.ppas := by
          rw [hσ10, appendChild_ppas, hσ9, appendChild_ppas]
          simp [hσ8, PState.updAct, PState.setAct, PState.setNode, hppasOr, hppasF]
        have hZP : (σZ.ppas P).actions = (σ.ppas P).actions ++ [rId] := by
          rw [hσZ]
          simp [PState.updPpa, PState.setPpa, updf, h10]
        refine ⟨σZ, true, hrun, ⟨fun _ => ⟨rId, hZP⟩, fun _ => hq⟩, fun h => ?_⟩
        rw [h] at hq
        exact absurd hq (by decide)

/-- Witness for C3's amended theorem: a concrete action with one effect on
key 1 valued 2, qualifying for the failed condition `key 1 == 2`, and a
valid single-alternative Conditions list. -/
theorem C3_action_qualification_witness :
    (((emptyState.setNode 0 { ppa := some 5 }).nodes 0).ppa = some 5) ∧
    (([⟨1, 2⟩] : List Eff) ≠ []) ∧ ((([⟨1, 2⟩] : List Eff).map Eff.key).Nodup) ∧
    ((⟨[[wCond 2 3]], [⟨1, 2⟩], true⟩ : Act).hasNode = true) ∧
    CondsValid (⟨[[wCond 2 3]], [⟨1, 2⟩], true⟩ : Act).conditions ∧
    (∃ σ' ok,
      generateAction (emptyState.setNode 0 { ppa := some 5 }) 0 (wCond 1 2)
          ⟨[[wCond 2 3]], [⟨1, 2⟩], true⟩ = (σ', ok, none) ∧
      (((⟨[[wCond 2 3]], [⟨1, 2⟩], true⟩ : Act).effects.any
          (fun e => e.key == (wCond 1 2).key && (wCond 1 2).matchv e.value) = true) ↔
        ∃ r, (σ'.ppas 5).actions
          = (((emptyState.setNode 0 { ppa := some 5 }).ppas 5)).actions ++ [r]) ∧
      ((⟨[[wCond 2 3]], [⟨1, 2⟩], true⟩ : Act).effects.any
          (fun e => e.key == (wCond 1 2).key && (wCond 1 2).matchv e.value) = false →
        σ' = emptyState.setNode 0 { ppa := some 5 })) :=
  ⟨rfl, List.cons_ne_nil _ _, by simp, rfl,
   (by
      intro g hg
      simp only [List.mem_singleton] at hg
      subst hg
      exact ⟨List.cons_ne_nil _ _, by simp⟩),
   C3_action_qualification (emptyState.setNode 0 { ppa := some 5 }) 0 (wCond 1 2)
     ⟨[[wCond 2 3]], [⟨1, 2⟩], true⟩ 5 rfl (List.cons_ne_nil _ _) (by simp) rfl
     (by
      intro g hg
      simp only [List.mem_singleton] at hg
      subst hg
      exact ⟨List.cons_ne_nil _ _, by simp⟩)⟩

/-- A non-empty list has a last element. -/
theorem getLast?_isSome_of_ne_nil {L : List Nat} (h : L ≠ []) : ∃ z, L.getLast? = some z := by
  induction L with
  | nil => exact absurd rfl h
  | cons a t ih =>
    cases t with
    | nil => exact ⟨a, rfl⟩
    | cons b u =>
      obtain ⟨z, hz⟩ := ih (by simp)
      exact ⟨z, by rw [List.getLast?_cons_cons]; exact hz⟩

/-- `(*node).generateAction` frame and effect specification: a
non-qualifying action leaves the state untouched; a qualifying one
allocates an action record `σ.next` whose root is a fresh link-free node,
records it as the last alternative of the carrier node's PPA, and modifies
no pre-existing node, action, preconditions or goal record (besides that
PPA record's action list). -/
theorem generateAction_spec (σ : PState) (nId : Nat) (post : Cond) (act : Act)
    (P : Nat)
    (hppa : (σ.nodes nId).ppa = some P)
    (hne : act.effects ≠ []) (hkeys : (act.effects.map Eff.key).Nodup)
    (hnode : act.hasNode = true) (hconds : CondsValid act.conditions) :
    (act.effects.any (fun e => e.key == post.key && post.matchv e.value) = false →
      generateAction σ nId post act = (σ, false, none)) ∧
    (act.effects.any (fun e => e.key == post.key && post.matchv e.value) = true →
      ∃ σ' R,
        generateAction σ nId post act = (σ', true, none) ∧
        σ.next < σ'.next ∧
        σ'.ppas P = { σ.ppas P with actions := (σ.ppas P).actions ++ [σ.next] } ∧
        (∀ Q, Q ≠ P → σ'.ppas Q = σ.ppas Q) ∧
        (∀ y, y < σ.next → σ'.nodes y = σ.nodes y) ∧
        (∀ y, y < σ.next → σ'.acts y = σ.acts y) ∧
        (∀ y, y < σ.next → σ'.precs y = σ.precs y) ∧
        (∀ y, y < σ.next → σ'.preconds y = σ.preconds y) ∧
        σ'.goals = σ.goals ∧
        (σ'.acts σ.next).root = R ∧ σ.next < R ∧ R < σ'.next ∧
        (σ'.nodes R).prev = none ∧ (σ'.nodes R).next = none ∧
        (σ'.nodes R).parent = none) := by
  obtain ⟨effMap, hbe⟩ :=
    buildEffects_ok post.key post act.effects [] false (by simpa using hkeys)
  have hempty : act.effects.isEmpty = false := by
    rcases h : act.effects with _ | ⟨a, t⟩
    · exact absurd h hne
    · rfl
  constructor
  · intro hq'
    have hbe' : buildEffects post.key post [] false act.effects = (effMap, false, none) := by
      rw [hbe, Bool.false_or, hq']
    simp only [generateAction]
    rw [hempty, hbe']
    rfl
  · intro hq
    have hbe' : buildEffects post.key post [] false act.effects = (effMap, true, none) := by
      rw [hbe, Bool.false_or, hq]
    set rId := σ.next with hrId
    set nodeId := σ.next + 1 with hnodeId
    set σA : PState := { σ with next := σ.next + 2 } with hσA
    set σB : PState :=
      σA.setAct rId { root := 0, node := nodeId, effects := effMap, or := [] } with hσB
    set σC : PState := σB.setNode nodeId
      { goal := (σ.nodes nId).goal, ppa := (σ.nodes nId).ppa, action := some rId,
        leaf := some (.actLeaf rId) } with hσC
    set rootId := σ.next + 2 with hrootId
    set σD : PState := { σC with next := σC.next + 1 } with hσD
    set σE : PState := σD.setNode rootId
      { goal := (σ.nodes nId).goal, ppa := (σ.nodes nId).ppa, action := some rId } with hσE
    set σF : PState := σE.updAct rId (fun r => { r with root := rootId }) with hσF
    have hnextF : σF.next = σ.next + 3 := by
      simp [hσF, hσE, hσD, hσC, hσB, hσA, PState.updAct, PState.setAct, PState.setNode]
    have hppasF : σF.ppas = σ.ppas := by
      simp [hσF, hσE, hσD, hσC, hσB, hσA, PState.updAct, PState.setAct, PState.setNode]
    have hrootF : σF.nodes rootId
        = { goal := (σ.nodes nId).goal, ppa := (σ.nodes nId).ppa, action := some rId } := by
      simp [hσF, hσE, hσD, hσC, hσB, hσA, PState.updAct, PState.setAct, PState.setNode, updf]
    have hnodeF : σF.nodes nodeId
        = { goal := (σ.nodes nId).goal, ppa := (σ.nodes nId).ppa, action := some rId,
            leaf := some (.actLeaf rId) } := by
      simp [hσF, hσE, hσD, hσC, hσB, hσA, PState.updAct, PState.setAct, PState.setNode, updf,
        show nodeId ≠ rootId by omega]
    have hactF : σF.acts rId
        = { root := rootId, node := nodeId, effects := effMap, or := [] } := by
      simp [hσF, hσE, hσD, hσC, hσB, hσA, PState.updAct, PState.setAct, PState.setNode, updf]
    have hFnodes : ∀ y, y < σ.next → σF.nodes y = σ.nodes y := by
      intro y hy
      simp [hσF, hσE, hσD, hσC, hσB, hσA, PState.updAct, PState.setAct, PState.setNode, updf,
        show y ≠ rootId by omega, show y ≠ nodeId by omega]
    have hFacts : ∀ y, y < σ.next → σF.acts y = σ.acts y := by
      intro y hy
      simp [hσF, hσE, hσD, hσC, hσB, hσA, PState.updAct, PState.setAct, PState.setNode, updf,
        show y ≠ rId by omega]
    have hFprecs : σF.precs = σ.precs := by
      simp [hσF, hσE, hσD, hσC, hσB, hσA, PState.updAct, PState.setAct, PState.setNode]
    have hFpreconds : σF.preconds = σ.preconds := by
      simp [hσF, hσE, hσD, hσC, hσB, hσA, PState.updAct, PState.setAct, PState.setNode]
    have hFgoals : σF.goals = σ.goals := by
      simp [hσF, hσE, hσD, hσC, hσB, hσA, PState.updAct, PState.setAct, PState.setNode]
    have hchF : ChildrenAre σF rootId [] := by
      refine ⟨?_, ?_⟩ <;> simp [Chain, hrootF]
    have hstep : generateAction σ nId post act
        = (match generateOr σF rootId act.conditions with
           | (σ7, orL, some e) =>
             (σ7.updAct rId (fun r => { r with or := orL }), true, some e)
           | (σ7, orL, none) =>
             let σ8 := σ7.updAct rId (fun r => { r with or := orL })
             let σ9 :=
               if orL.length ≤ 1 then σ8
               else
                 appendChild
                   ((({ σ8 with next := σ8.next + 1 }).setNode σ8.next
                       { goal := (σ.nodes nId).goal, ppa := (σ.nodes nId).ppa,
                         action := some rId, tick := some .sequence }).updAct rId
                     (fun r => { r with root := σ8.next }))
                   σ8.next none ((σ8.acts rId).root)
             let σ10 := appendChild σ9 ((σ9.acts rId).root) none ((σ9.acts rId).node)
             match (σ.nodes nId).ppa with
             | some Q =>
               (σ10.updPpa Q (fun r => { r with actions := r.actions ++ [rId] }), true, none)
             | none => (σ10, true, some GoErr.nilPanic)) := by
      simp only [generateAction]
      rw [hempty, hbe', hnode]
      rfl
    rcases hcase : act.conditions with _ | ⟨g, gs⟩
    · -- no Conditions alternatives
      set σOr : PState :=
        σF.updNode rootId (fun r => { r with tick := some TickKind.sequence }) with hσOr
      set σ8 : PState := σOr.updAct rId (fun r => { r with or := ([] : List Nat) }) with hσ8
      set σ10 : PState :=
        appendChild σ8 ((σ8.acts rId).root) none ((σ8.acts rId).node) with hσ10
      set σZ : PState :=
        σ10.updPpa P (fun r => { r with actions := r.actions ++ [rId] }) with hσZ
      have hrun : generateAction σ nId post act = (σZ, true, none) := by
        rw [hstep, hcase, hppa]
        rfl
      have hact8 : σ8.acts rId
          = { root := rootId, node := nodeId, effects := effMap, or := [] } := by
        simp [hσ8, hσOr, PState.updAct, PState.setAct, PState.updNode, PState.setNode, updf,
          hactF]
      have h8n : ∀ y, y ≠ rootId → σ8.nodes y = σF.nodes y := by
        intro y hy
        simp [hσ8, hσOr, PState.updAct, PState.setAct, PState.updNode, PState.setNode, updf, hy]
      have hroot8 : σ8.nodes rootId
          = { goal := (σ.nodes nId).goal, ppa := (σ.nodes nId).ppa, action := some rId,
              tick := some TickKind.sequence } := by
        simp [hσ8, hσOr, PState.updAct, PState.setAct, PState.updNode, PState.setNode, updf,
          hrootF]
      have hnode8 : σ8.nodes nodeId
          = { goal := (σ.nodes nId).goal, ppa := (σ.nodes nId).ppa, action := some rId,
              leaf := some (.actLeaf rId) } := by
        rw [h8n nodeId (by omega), hnodeF]
      have h10eq : σ10
          = ((σ8.updNode nodeId (fun r => { r with parent := some rootId })).updNode rootId
              (fun r => { r with last := some nodeId })).updNode rootId
              (fun r => { r with first := some nodeId }) := by
        rw [hσ10, hact8]
        exact appendChild_none_eq σ8 rootId nodeId (by rw [hroot8]) (by rw [hnode8])
          (by rw [hnode8]) (by rw [hnode8])
      have hZnodes : σZ.nodes = σ10.nodes := by
        rw [hσZ]
        simp [PState.updPpa]
      have hZacts : σZ.acts = σ8.acts := by
        rw [hσZ, h10eq]
        simp [PState.updPpa, PState.updNode, PState.setNode]
      have hZnext : σZ.next = σ.next + 3 := by
        rw [hσZ, h10eq]
        simp [PState.updPpa, PState.updNode, PState.setNode, hσ8, hσOr, PState.updAct,
          PState.setAct, hnextF]
      have h10ppas : σ10.ppas = σ.ppas := by
        rw [h10eq]
        simp [PState.updNode, PState.setNode, hσ8, hσOr, PState.updAct, PState.setAct, hppasF]
      have hZroot : σZ.nodes rootId
          = { goal := (σ.nodes nId).goal, ppa := (σ.nodes nId).ppa, action := some rId,
              tick := some TickKind.sequence, first := some nodeId, last := some nodeId } := by
        rw [hZnodes, h10eq]
        simp [PState.updNode, PState.setNode, updf, show rootId ≠ nodeId by omega, hroot8]
      refine ⟨σZ, rootId, hrun, by omega, ?_, ?_, ?_, ?_, ?_, ?_, ?_, ?_, by omega, by omega,
        ?_, ?_, ?_⟩
      · rw [hσZ]
        simp [PState.updPpa, PState.setPpa, updf, h10ppas]
      · intro Q hQ
        rw [hσZ]
        simp [PState.updPpa, PState.setPpa, updf, hQ, h10ppas]
      · intro y hy
        rw [hZnodes, h10eq]
        simp [PState.updNode, PState.setNode, updf, show y ≠ rootId by omega,
          show y ≠ nodeId by omega]
        rw [h8n y (by omega), hFnodes y hy]
      · intro y hy
        rw [hZacts]
        simp [hσ8, hσOr, PState.updAct, PState.setAct, PState.updNode, PState.setNode, updf,
          show y ≠ rId by omega]
        rw [hFacts y hy]
      · intro y hy
        rw [hσZ, h10eq]
        simp [PState.updPpa, PState.updNode, PState.setNode, hσ8, hσOr, PState.updAct,
          PState.setAct, hFprecs]
      · intro y hy
        rw [hσZ, h10eq]
        simp [PState.updPpa, PState.updNode, PState.setNode, hσ8, hσOr, PState.updAct,
          PState.setAct, hFpreconds]
      · rw [hσZ, h10eq]
        simp [PState.updPpa, PState.updNode, PState.setNode, hσ8, hσOr, PState.updAct,
          PState.setAct, hFgoals]
      · rw [hZacts, hact8]
      · rw [hZroot]
      · rw [hZroot]
      · rw [hZroot]
    · rcases gs with _ | ⟨g2, gr⟩
      · -- exactly one Conditions alternative
        obtain ⟨hgne, hgkeys⟩ :=
          hconds g (by rw [hcase]; exact List.mem_singleton_self g)
        obtain ⟨σOr, cids, pids, hgo, hmono, -, -, -, -, hch7, hlen8, -, hbnd10, -, -,
            hnfr, hpfr, hcfr, hgoals16, hppas17, hacts18, hgoal19, hppa20, -, -, -,
            hpar24, hprev25, hnext26⟩ :=
          generateOr_single_ok σF rootId g hgne hgkeys (by omega) hchF
        set σ8 : PState := σOr.updAct rId (fun r => { r with or := [σF.next] }) with hσ8
        set σ10 : PState :=
          appendChild σ8 ((σ8.acts rId).root) none ((σ8.acts rId).node) with hσ10
        set σZ : PState :=
          σ10.updPpa P (fun r => { r with actions := r.actions ++ [rId] }) with hσZ
        have hrun : generateAction σ nId post act = (σZ, true, none) := by
          rw [hstep, hcase, hppa, hgo]
          rfl
        have hact8 : σ8.acts rId
            = { root := rootId, node := nodeId, effects := effMap, or := [σF.next] } := by
          simp [hσ8, PState.updAct, PState.setAct, updf, hacts18, hactF]
        have h8n : σ8.nodes = σOr.nodes := by
          rw [hσ8]
          simp [PState.updAct]
        have hcne : cids ≠ [] := by
          intro h
          apply hgne
          rw [h] at hlen8
          simp only [List.length_nil] at hlen8
          exact List.eq_nil_of_length_eq_zero hlen8.symm
        obtain ⟨c_last, hcl⟩ := getLast?_isSome_of_ne_nil hcne
        obtain ⟨hclb, hclt⟩ := hbnd10 c_last (mem_of_getLast?_eq hcl)
        have hlast8 : (σ8.nodes rootId).last = some c_last := by
          rw [h8n, hch7.2, hcl]
        have hnode8 : σ8.nodes nodeId
            = { goal := (σ.nodes nId).goal, ppa := (σ.nodes nId).ppa, action := some rId,
                leaf := some (.actLeaf rId) } := by
          rw [h8n, hnfr nodeId (by omega) (by omega), hnodeF]
        have h10eq : σ10
            = (((σ8.updNode nodeId (fun r => { r with parent := some rootId })).updNode rootId
                (fun r => { r with last := some nodeId })).updNode nodeId
                (fun r => { r with prev := some c_last })).updNode c_last
                (fun r => { r with next := some nodeId }) := by
          rw [hσ10, hact8]
          exact appendChild_last_eq σ8 rootId nodeId c_last hlast8 (by rw [hnode8])
            (by rw [hnode8]) (by rw [hnode8])
        have hZnodes : σZ.nodes = σ10.nodes := by
          rw [hσZ]
          simp [PState.updPpa]
        have hZacts : σZ.acts = σ8.acts := by
          rw [hσZ, h10eq]
          simp [PState.updPpa, PState.updNode, PState.setNode]
        have hnext8 : σ8.next = σOr.next := by
          rw [hσ8]
          simp [PState.updAct]
        have hZnext : σZ.next = σOr.next := by
          rw [hσZ, h10eq]
          simp [PState.updPpa, PState.updNode, PState.setNode, hnext8]
        have h10ppas : σ10.ppas = σ.ppas := by
          rw [h10eq]
          simp [PState.updNode, PState.setNode, hσ8, PState.updAct, PState.setAct, hppas17,
            hppasF]
        have hZrootPrev : (σZ.nodes rootId).prev = none := by
          rw [hZnodes, h10eq]
          simp [PState.updNode, PState.setNode, updf, show rootId ≠ nodeId by omega,
            show rootId ≠ c_last by omega, h8n, hprev25, hrootF]
        have hZrootNext : (σZ.nodes rootId).next = none := by
          rw [hZnodes, h10eq]
          simp [PState.updNode, PState.setNode, updf, show rootId ≠ nodeId by omega,
            show rootId ≠ c_last by omega, h8n, hnext26, hrootF]
        have hZrootPar : (σZ.nodes rootId).parent = none := by
          rw [hZnodes, h10eq]
          simp [PState.updNode, PState.setNode, updf, show rootId ≠ nodeId by omega,
            show rootId ≠ c_last by omega, h8n, hpar24, hrootF]
        refine ⟨σZ, rootId, hrun, by omega, ?_, ?_, ?_, ?_, ?_, ?_, ?_, ?_,
          by omega, by omega, hZrootPrev, hZrootNext, hZrootPar⟩
        · rw [hσZ]
          simp [PState.updPpa, PState.setPpa, updf, h10ppas]
        · intro Q hQ
          rw [hσZ]
          simp [PState.updPpa, PState.setPpa, updf, hQ, h10ppas]
        · intro y hy
          rw [hZnodes, h10eq]
          simp [PState.updNode, PState.setNode, updf, show y ≠ rootId by omega,
            show y ≠ nodeId by omega, show y ≠ c_last by omega, h8n]
          rw [hnfr y (by omega) (by omega), hFnodes y hy]
        · intro y hy
          rw [hZacts]
          simp [hσ8, PState.updAct, PState.setAct, updf, show y ≠ rId by omega, hacts18]
          rw [hFacts y hy]
        · intro y hy
          rw [hσZ, h10eq]
          simp [PState.updPpa, PState.updNode, PState.setNode, hσ8, PState.updAct,
            PState.setAct]
          rw [hcfr y (by omega), hFprecs]
        · intro y hy
          rw [hσZ, h10eq]
          simp [PState.updPpa, PState.updNode, PState.setNode, hσ8, PState.updAct,
            PState.setAct]
          rw [hpfr y (by omega), hFpreconds]
        · rw [hσZ, h10eq]
          simp [PState.updPpa, PState.updNode, PState.setNode, hσ8, PState.updAct,
            PState.setAct]
          rw [hgoals16, hFgoals]
        · rw [hZacts, hact8]
      · -- two or more Conditions alternatives
        have hvalid : ∀ a ∈ g :: g2 :: gr, a ≠ [] ∧ ((a.map Cond.key).Nodup) := by
          intro a ha
          exact hconds a (by rw [hcase]; exact ha)
        obtain ⟨σOr, alts, precsIds, hgo, hmono, -, -, -, hplen, -, hnfr, hpfr, hcfr,
            hgoals16, hppas17, hacts18, -, -, -, -, -, -, hpar20, hprev21, hnext22⟩ :=
          generateOr_multi_ok σF rootId g g2 gr hvalid (by omega) hchF
        rcases precsIds with _ | ⟨p1, _ | ⟨p2, prest⟩⟩
        · simp only [List.length_nil, List.length_cons] at hplen
          omega
        · simp only [List.length_nil, List.length_cons] at hplen
          omega
        set σ8 : PState := σOr.updAct rId (fun r => { r with or := p1 :: p2 :: prest }) with hσ8
        set σ9 : PState := appendChild
            ((({ σ8 with next := σ8.next + 1 }).setNode σ8.next
                { goal := (σ.nodes nId).goal, ppa := some P, action := some rId,
                  tick := some TickKind.sequence }).updAct rId
              (fun r => { r with root := σ8.next }))
            σ8.next none ((σ8.acts rId).root) with hσ9
        set σ10 : PState :=
          appendChild σ9 ((σ9.acts rId).root) none ((σ9.acts rId).node) with hσ10
        set σZ : PState :=
          σ10.updPpa P (fun r => { r with actions := r.actions ++ [rId] }) with hσZ
        have hrun : generateAction σ nId post act = (σZ, true, none) := by
          rw [hstep, hcase, hppa, hgo]
          rfl
        have hact8 : σ8.acts rId
            = { root := rootId, node := nodeId, effects := effMap,
                or := p1 :: p2 :: prest } := by
          simp [hσ8, PState.updAct, PState.setAct, updf, hacts18, hactF]
        have h8n : σ8.nodes = σOr.nodes := by
          rw [hσ8]
          simp [PState.updAct]
        have hnext8 : σ8.next = σOr.next := by
          rw [hσ8]
          simp [PState.updAct]
        have h9eq : σ9
            = (((((({ σ8 with next := σ8.next + 1 }).setNode σ8.next
                  { goal := (σ.nodes nId).goal, ppa := some P, action := some rId,
                    tick := some TickKind.sequence }).updAct rId
                  (fun r => { r with root := σ8.next })).updNode rootId
                  (fun r => { r with parent := some (σ8.next) })).updNode (σ8.next)
                  (fun r => { r with last := some rootId })).updNode (σ8.next)
                  (fun r => { r with first := some rootId })) := by
          rw [hσ9, hact8]
          exact appendChild_none_eq _ (σ8.next) rootId
            (by simp [PState.updAct, PState.setAct, PState.setNode, updf])
            (by
              simp [PState.updAct, PState.setAct, PState.setNode, updf,
                show rootId ≠ σ8.next by omega, h8n, hprev21, hrootF])
            (by
              simp [PState.updAct, PState.setAct, PState.setNode, updf,
                show rootId ≠ σ8.next by omega, h8n, hnext22, hrootF])
            (by
              simp [PState.updAct, PState.setAct, PState.setNode, updf,
                show rootId ≠ σ8.next by omega, h8n, hpar20, hrootF])
        have hact9 : σ9.acts rId
            = { root := σ8.next, node := nodeId, effects := effMap,
                or := p1 :: p2 :: prest } := by
          rw [h9eq]
          simp [PState.updNode, PState.setNode, PState.updAct, PState.setAct, updf, hact8]
        have h9last : (σ9.nodes (σ8.next)).last = some rootId := by
          rw [h9eq]
          simp [PState.updNode, PState.setNode, PState.updAct, PState.setAct, updf]
        have h9nodeId : σ9.nodes nodeId
            = { goal := (σ.nodes nId).goal, ppa := (σ.nodes nId).ppa, action := some rId,
                leaf := some (.actLeaf rId) } := by
          rw [h9eq]
          simp [PState.updNode, PState.setNode, PState.updAct, PState.setAct, updf,
            show nodeId ≠ σ8.next by omega, show nodeId ≠ rootId by omega, h8n]
          rw [hnfr nodeId (by omega) (by omega), hnodeF]
        have h10eq : σ10
            = (((σ9.updNode nodeId (fun r => { r with parent := some (σ8.next) })).updNode
                (σ8.next) (fun r => { r with last := some nodeId })).updNode nodeId
                (fun r => { r with prev := some rootId })).updNode rootId
                (fun r => { r with next := some nodeId }) := by
          rw [hσ10, hact9]
          exact appendChild_last_eq σ9 (σ8.next) nodeId rootId h9last (by rw [h9nodeId])
            (by rw [h9nodeId]) (by rw [h9nodeId])
        have hZnodes : σZ.nodes = σ10.nodes := by
          rw [hσZ]
          simp [PState.updPpa]
        have hZacts : σZ.acts = σ9.acts := by
          rw [hσZ, h10eq]
          simp [PState.updPpa, PState.updNode, PState.setNode]
        have hZnext : σZ.next = σ8.next + 1 := by
          rw [hσZ, h10eq, h9eq]
          simp [PState.updPpa, PState.updNode, PState.setNode, PState.updAct, PState.setAct]
        have h10ppas : σ10.ppas = σ.ppas := by
          rw [h10eq, h9eq]
          simp [PState.updNode, PState.setNode, PState.updAct, PState.setAct, hσ8, hppas17,
            hppasF]
        have hZwPrev : (σZ.nodes (σ8.next)).prev = none := by
          rw [hZnodes, h10eq, h9eq]
          simp [PState.updNode, PState.setNode, PState.updAct, PState.setAct, updf,
            show σ8.next ≠ nodeId by omega, show σ8.next ≠ rootId by omega]
        have hZwNext : (σZ.nodes (σ8.next)).next = none := by
          rw [hZnodes, h10eq, h9eq]
          simp [PState.updNode, PState.setNode, PState.updAct, PState.setAct, updf,
            show σ8.next ≠ nodeId by omega, show σ8.next ≠ rootId by omega]
        have hZwPar : (σZ.nodes (σ8.next)).parent = none := by
          rw [hZnodes, h10eq, h9eq]
          simp [PState.updNode, PState.setNode, PState.updAct, PState.setAct, updf,
            show σ8.next ≠ nodeId by omega, show σ8.next ≠ rootId by omega]
        refine ⟨σZ, σ8.next, hrun, by omega, ?_, ?_, ?_, ?_, ?_, ?_, ?_, ?_,
          by omega, by omega, hZwPrev, hZwNext, hZwPar⟩
        · rw [hσZ]
          simp [PState.updPpa, PState.setPpa, updf, h10ppas]
        · intro Q hQ
          rw [hσZ]
          simp [PState.updPpa, PState.setPpa, updf, hQ, h10ppas]
        · intro y hy
          rw [hZnodes, h10eq, h9eq]
          simp [PState.updNode, PState.setNode, PState.updAct, PState.setAct, updf,
            show y ≠ rootId by omega, show y ≠ nodeId by omega,
            show y ≠ σ8.next by omega, h8n]
          rw [hnfr y (by omega) (by omega), hFnodes y hy]
        · intro y hy
          rw [hZacts, h9eq]
          simp [PState.updNode, PState.setNode, PState.updAct, PState.setAct, updf,
            show y ≠ rId by omega, hσ8, hacts18]
          rw [hFacts y hy]
        · intro y hy
          rw [hσZ, h10eq, h9eq]
          simp [PState.updPpa, PState.updNode, PState.setNode, PState.updAct, PState.setAct,
            hσ8]
          rw [hcfr y (by omega), hFprecs]
        · intro y hy
          rw [hσZ, h10eq, h9eq]
          simp [PState.updPpa, PState.updNode, PState.setNode, PState.updAct, PState.setAct,
            hσ8]
          rw [hpfr y (by omega), hFpreconds]
        · rw [hσZ, h10eq, h9eq]
          simp [PState.updPpa, PState.updNode, PState.setNode, PState.updAct, PState.setAct,
            hσ8]
          rw [hgoals16, hFgoals]
        · rw [hZacts, hact9]

/-- The action loop of `(*precondition).expand`: with every candidate
action valid (non-empty distinct-key effects, a BT leaf, valid
Conditions), the loop completes without error, extends the carrier's PPA
action list by exactly one fresh record per qualifying action (in
candidate order), leaves every pre-existing record untouched, and every
recorded alternative's root is a fresh link-free node, the roots strictly
increasing in allocation order. -/
theorem expandActs_spec (carrier : Nat) (cond : Cond) :
    ∀ (lacts : List Act) (σs : PState),
    (∀ a ∈ lacts, a.effects ≠ [] ∧ (a.effects.map Eff.key).Nodup ∧ a.hasNode = true ∧
      CondsValid a.conditions) →
    ∀ ppaId, (σs.nodes carrier).ppa = some ppaId →
    carrier < σs.next →
    ∃ σ', expandActs carrier cond σs lacts = (σ', none) ∧
      σs.next ≤ σ'.next ∧
      (∀ y, y < σs.next → σ'.nodes y = σs.nodes y) ∧
      (∀ y, y < σs.next → σ'.acts y = σs.acts y) ∧
      (∀ y, y < σs.next → σ'.precs y = σs.precs y) ∧
      (∀ y, y < σs.next → σ'.preconds y = σs.preconds y) ∧
      σ'.goals = σs.goals ∧
      (∀ Q, Q ≠ ppaId → σ'.ppas Q = σs.ppas Q) ∧
      ∃ news,
        σ'.ppas ppaId = { σs.ppas ppaId with
          actions := (σs.ppas ppaId).actions ++ news } ∧
        news.length = (lacts.filter (fun a =>
          a.effects.any (fun e => e.key == cond.key && cond.matchv e.value))).length ∧
        (∀ r ∈ news, σs.next ≤ r ∧ r < σ'.next ∧
          σs.next ≤ (σ'.acts r).root ∧ (σ'.acts r).root < σ'.next ∧
          r < (σ'.acts r).root ∧
          (σ'.nodes ((σ'.acts r).root)).prev = none ∧
          (σ'.nodes ((σ'.acts r).root)).next = none ∧
          (σ'.nodes ((σ'.acts r).root)).parent = none) ∧
        List.Pairwise (fun r1 r2 => (σ'.acts r1).root < (σ'.acts r2).root) news := by
  intro lacts
  induction lacts with
  | nil =>
    intro σs hval ppaId hppa hcar
    exact ⟨σs, rfl, le_refl _, fun y _ => rfl, fun y _ => rfl, fun y _ => rfl,
      fun y _ => rfl, rfl, fun Q _ => rfl,
      ⟨[], by simp, by simp, by simp, by simp⟩⟩
  | cons a rest ih =>
    intro σs hval ppaId hppa hcar
    obtain ⟨hane, hakeys, hanode, haconds⟩ := hval a (by simp)
    obtain ⟨hnq, hqual⟩ :=
      generateAction_spec σs carrier cond a ppaId hppa hane hakeys hanode haconds
    by_cases hq : a.effects.any (fun e => e.key == cond.key && cond.matchv e.value) = true
    · obtain ⟨σ1, R, hrun1, hlt1, hppasP, hppasQ, hnodes1, hacts1, hprecs1, hpreconds1,
        hgoals1, hroot1, hRlt1, hRlt2, hRprev, hRnext, hRpar⟩ := hqual hq
      obtain ⟨σ2, hrun2, hle2, hnodes2, hacts2, hprecs2, hpreconds2, hgoals2, hppasQ2,
        news, hnews, hnlen, hnprops, hnsorted⟩ :=
        ih σ1 (fun x hx => hval x (List.mem_cons_of_mem _ hx)) ppaId
          (by rw [hnodes1 carrier hcar]; exact hppa) (by omega)
      refine ⟨σ2, ?_, by omega, ?_, ?_, ?_, ?_, ?_, ?_, σs.next :: news, ?_, ?_, ?_, ?_⟩
      · simp only [expandActs]
        rw [hrun1]
        exact hrun2
      · intro y hy
        rw [hnodes2 y (by omega), hnodes1 y hy]
      · intro y hy
        rw [hacts2 y (by omega), hacts1 y hy]
      · intro y hy
        rw [hprecs2 y (by omega), hprecs1 y hy]
      · intro y hy
        rw [hpreconds2 y (by omega), hpreconds1 y hy]
      · rw [hgoals2, hgoals1]
      · intro Q hQ
        rw [hppasQ2 Q hQ, hppasQ Q hQ]
      · rw [hnews, hppasP]
        simp
      · rw [List.filter_cons]
        simp [hq, hnlen]
      · intro r hr
        rcases List.mem_cons.mp hr with rfl | hr2
        · have hac : σ2.acts σs.next = σ1.acts σs.next := hacts2 _ (by omega)
          have hnd : σ2.nodes R = σ1.nodes R := hnodes2 _ (by omega)
          refine ⟨le_refl _, by omega, ?_, ?_, ?_, ?_, ?_, ?_⟩
          · rw [hac, hroot1]
            omega
          · rw [hac, hroot1]
            omega
          · rw [hac, hroot1]
            omega
          · rw [hac, hroot1, hnd, hRprev]
          · rw [hac, hroot1, hnd, hRnext]
          · rw [hac, hroot1, hnd, hRpar]
        · obtain ⟨h1, h2, h3, h4, h5, h6, h7, h8⟩ := hnprops r hr2
          exact ⟨by omega, h2, by omega, h4, h5, h6, h7, h8⟩
      · refine List.pairwise_cons.mpr ⟨?_, hnsorted⟩
        intro r hr
        obtain ⟨h1, h2, h3, h4, h5, h6, h7, h8⟩ := hnprops r hr
        have hac : σ2.acts σs.next = σ1.acts σs.next := hacts2 _ (by omega)
        rw [hac, hroot1]
        omega
    · have hq' : a.effects.any (fun e => e.key == cond.key && cond.matchv e.value)
          = false := by
        cases h2 : a.effects.any (fun e => e.key == cond.key && cond.matchv e.value)
        · rfl
        · exact absurd h2 hq
      have hrun1 := hnq hq'
      obtain ⟨σ2, hrun2, hle2, hnodes2, hacts2, hprecs2, hpreconds2, hgoals2, hppasQ2,
        news, hnews, hnlen, hnprops, hnsorted⟩ :=
        ih σs (fun x hx => hval x (List.mem_cons_of_mem _ hx)) ppaId hppa hcar
      refine ⟨σ2, ?_, hle2, hnodes2, hacts2, hprecs2, hpreconds2, hgoals2, hppasQ2,
        news, hnews, ?_, hnprops, hnsorted⟩
      · simp only [expandActs]
        rw [hrun1]
        exact hrun2
      · rw [List.filter_cons]
        simp [hq', hnlen]

/-- `ChildrenAre` only inspects the parent's `first`/`last` and the
children's `next` links. -/
theorem childrenAre_frame {σ σ' : PState} {n : Nat} {L : List Nat}
    (hch : ChildrenAre σ n L)
    (hf : (σ'.nodes n).first = (σ.nodes n).first)
    (hl : (σ'.nodes n).last = (σ.nodes n).last)
    (hx : ∀ x ∈ L, (σ'.nodes x).next = (σ.nodes x).next) :
    ChildrenAre σ' n L := by
  obtain ⟨h1, h2⟩ := hch
  exact ⟨by rw [hf]; exact chain_congr h1 hx, by rw [hl, h2]⟩

/-- The action-wiring loop of `(*precondition).expand` reads each action
record from the evolving state, but `appendChild` never modifies action
records, so the loop equals a pure fold over the precomputed root list. -/
theorem foldl_append_acts (w : Nat) :
    ∀ (as : List Nat) (σ : PState),
    as.foldl (fun τ a => appendChild τ w none ((τ.acts a).root)) σ
      = (as.map (fun a => (σ.acts a).root)).foldl
          (fun τ c => appendChild τ w none c) σ := by
  intro as
  induction as with
  | nil => intro σ; rfl
  | cons a rest ih =>
    intro σ
    simp only [List.foldl_cons, List.map_cons]
    rw [ih]
    rw [appendChild_acts]

/-- Appending a list of fresh-linked, pairwise-distinct children under a
group node `w`, one at a time: the children end up as `w`'s child list in
order, every other node and every non-node store is untouched, and `w`
keeps its payload and its own links. -/
theorem append_fresh_list (w : Nat) :
    ∀ (cs : List Nat) (σ : PState) (L : List Nat),
    ChildrenAre σ w L → L.Nodup → w ∉ L →
    (∀ c ∈ cs, (σ.nodes c).prev = none ∧ (σ.nodes c).next = none ∧
      (σ.nodes c).parent = none ∧ c ≠ w ∧ c ∉ L) →
    cs.Nodup →
    ChildrenAre (cs.foldl (fun τ c => appendChild τ w none c) σ) w (L ++ cs) ∧
    (∀ y, y ≠ w → y ∉ L → y ∉ cs →
      (cs.foldl (fun τ c => appendChild τ w none c) σ).nodes y = σ.nodes y) ∧
    ((cs.foldl (fun τ c => appendChild τ w none c) σ).nodes w).prev = (σ.nodes w).prev ∧
    ((cs.foldl (fun τ c => appendChild τ w none c) σ).nodes w).next = (σ.nodes w).next ∧
    ((cs.foldl (fun τ c => appendChild τ w none c) σ).nodes w).parent
      = (σ.nodes w).parent ∧
    ((cs.foldl (fun τ c => appendChild τ w none c) σ).nodes w).tick = (σ.nodes w).tick ∧
    ((cs.foldl (fun τ c => appendChild τ w none c) σ).nodes w).ppa = (σ.nodes w).ppa ∧
    ((cs.foldl (fun τ c => appendChild τ w none c) σ).nodes w).goal = (σ.nodes w).goal ∧
    (cs.foldl (fun τ c => appendChild τ w none c) σ).goals = σ.goals ∧
    (cs.foldl (fun τ c => appendChild τ w none c) σ).ppas = σ.ppas ∧
    (cs.foldl (fun τ c => appendChild τ w none c) σ).acts = σ.acts ∧
    (cs.foldl (fun τ c => appendChild τ w none c) σ).precs = σ.precs ∧
    (cs.foldl (fun τ c => appendChild τ w none c) σ).preconds = σ.preconds ∧
    (cs.foldl (fun τ c => appendChild τ w none c) σ).next = σ.next := by
  intro cs
  induction cs with
  | nil =>
    intro σ L hch hnd hwL hfresh hcnd
    exact ⟨by simpa using hch, fun y _ _ _ => rfl, rfl, rfl, rfl, rfl, rfl, rfl, rfl,
      rfl, rfl, rfl, rfl, rfl⟩
  | cons c rest ih =>
    intro σ L hch hnd hwL hfresh hcnd
    obtain ⟨hcp, hcn, hcpar, hcw, hcL⟩ := hfresh c (by simp)
    obtain ⟨hcrest, hrestnd⟩ := List.nodup_cons.mp hcnd
    obtain ⟨mch, mcrec, mfr, mlast, mnrec, mgoals, mppas, macts, mprecs, mpreconds,
        mnext⟩ :=
      appendChild_last_children σ w c L hch hcp hcn hcpar hcw hcL hwL hnd
    have hnd' : (L ++ [c]).Nodup := by
      rw [List.nodup_append]
      exact ⟨hnd, by simp, fun a ha hb => hcL (by simp at hb; rwa [hb] at ha)⟩
    have hwL' : w ∉ L ++ [c] := by
      simp only [List.mem_append, List.mem_singleton]
      rintro (h | rfl)
      · exact hwL h
      · exact hcw rfl
    have hfresh' : ∀ x ∈ rest,
        ((appendChild σ w none c).nodes x).prev = none ∧
        ((appendChild σ w none c).nodes x).next = none ∧
        ((appendChild σ w none c).nodes x).parent = none ∧ x ≠ w ∧ x ∉ L ++ [c] := by
      intro x hx
      obtain ⟨xp, xn, xpar, xw, xL⟩ := hfresh x (by simp [hx])
      have hxc : x ≠ c := fun h => hcrest (h ▸ hx)
      have hkeep : (appendChild σ w none c).nodes x = σ.nodes x := by
        refine mfr x hxc xw ?_
        intro hlast2
        exact xL (mem_of_getLast?_eq hlast2)
      refine ⟨by rw [hkeep]; exact xp, by rw [hkeep]; exact xn, by rw [hkeep]; exact xpar,
        xw, ?_⟩
      simp only [List.mem_append, List.mem_singleton]
      rintro (h | rfl)
      · exact xL h
      · exact hxc rfl
    obtain ⟨ich, ifr, iprev, inext, ipar, itick, ippa, igoal, igoals, ippas, iacts,
        iprecs, ipreconds, inxt⟩ :=
      ih (appendChild σ w none c) (L ++ [c]) mch hnd' hwL' hfresh' hrestnd
    have hfold : (c :: rest).foldl (fun τ x => appendChild τ w none x) σ
        = rest.foldl (fun τ x => appendChild τ w none x) (appendChild σ w none c) := by
      simp
    rw [hfold]
    have happ : L ++ c :: rest = (L ++ [c]) ++ rest := by simp
    refine ⟨by rw [happ]; exact ich, ?_, ?_, ?_, ?_, ?_, ?_, ?_, ?_, ?_, ?_, ?_, ?_, ?_⟩
    · intro y hyw hyL hyrest2
      have hyc : y ≠ c := by
        intro h
        exact hyrest2 (by simp [h])
      have hyres : y ∉ rest := fun h => hyrest2 (by simp [h])
      have h1 : y ∉ L ++ [c] := by
        simp only [List.mem_append, List.mem_singleton]
        rintro (h | rfl)
        · exact hyL h
        · exact hyc rfl
      rw [ifr y hyw h1 hyres]
      refine mfr y hyc hyw ?_
      intro hlast2
      exact hyL (mem_of_getLast?_eq hlast2)
    · rw [iprev, mnrec]
    · rw [inext, mnrec]
    · rw [ipar, mnrec]
    · rw [itick, mnrec]
    · rw [ippa, mnrec]
    · rw [igoal, mnrec]
    · rw [igoals, mgoals]
    · rw [ippas, mppas]
    · rw [iacts, macts]
    · rw [iprecs, mprecs]
    · rw [ipreconds, mpreconds]
    · rw [inxt, mnext]

/-- C5: a successful expand turns the carrier into the PPA Selector whose
first child is the preserved post-condition node, records one PPA
alternative per qualifying action, and wires them: none leaves only the
post node, one appends its action root directly, two or more go in order
under a single appended Memorize(Selector) node. -/
theorem C5_expand_structure (σ0 : PState) (pid : Nat) (carrier postId ppaId g : Nat)
    (acts : List Act)
    (hcr : (σ0.preconds pid).root = carrier)
    (hpost : postId = σ0.next) (hppaId : ppaId = σ0.next + 1)
    (hcar : carrier < σ0.next)
    (hgoal : (σ0.nodes carrier).goal = some g)
    (hacts : (σ0.goals g).state.actionsFn (σ0.preconds pid).cond = .ok acts)
    (hfirst : (σ0.nodes carrier).first = none) (hlast : (σ0.nodes carrier).last = none)
    (hval : ∀ a ∈ acts, a.effects ≠ [] ∧ (a.effects.map Eff.key).Nodup ∧
      a.hasNode = true ∧ CondsValid a.conditions) :
    ∃ σ', expand σ0 pid = (σ', none) ∧
      (σ'.nodes carrier).tick = some TickKind.selector ∧
      (σ'.nodes carrier).ppa = some ppaId ∧
      (σ'.ppas ppaId).root = carrier ∧
      (σ'.ppas ppaId).post = postId ∧
      (σ'.nodes postId).leaf = (σ0.nodes carrier).leaf ∧
      (σ'.nodes postId).precond = (σ0.nodes carrier).precond ∧
      (σ'.nodes postId).tick = (σ0.nodes carrier).tick ∧
      (σ'.ppas ppaId).actions.length = (acts.filter (fun a => a.effects.any
          (fun e => e.key == (σ0.preconds pid).cond.key &&
            (σ0.preconds pid).cond.matchv e.value))).length ∧
      ((σ'.ppas ppaId).actions = [] → ChildrenAre σ' carrier [postId]) ∧
      (∀ a, (σ'.ppas ppaId).actions = [a] →
        ChildrenAre σ' carrier [postId, (σ'.acts a).root]) ∧
      (2 ≤ (σ'.ppas ppaId).actions.length →
        ∃ w, ChildrenAre σ' carrier [postId, w] ∧
          (σ'.nodes w).tick = some TickKind.memorizeSelector ∧
          (σ'.nodes w).ppa = some ppaId ∧
          ChildrenAre σ' w ((σ'.ppas ppaId).actions.map (fun a => (σ'.acts a).root))) := by
  subst hcr hpost hppaId
  set σ1 : PState := { σ0 with next := σ0.next + 2 } with hσ1
  set σ2 : PState := σ1.setNode σ0.next
    { goal := some g,
      ppa := (σ0.nodes ((σ0.preconds pid).root)).ppa,
      action := (σ0.nodes ((σ0.preconds pid).root)).action,
      preconds := (σ0.nodes ((σ0.preconds pid).root)).preconds,
      precond := (σ0.nodes ((σ0.preconds pid).root)).precond,
      leaf := (σ0.nodes ((σ0.preconds pid).root)).leaf,
      tick := (σ0.nodes ((σ0.preconds pid).root)).tick } with hσ2
  set σ3 : PState := σ2.setPpa (σ0.next + 1)
    { root := (σ0.preconds pid).root, post := σ0.next, actions := [] } with hσ3
  set σ4 : PState := copyNode σ3 ((σ0.preconds pid).root)
    { goal := some g, ppa := some (σ0.next + 1),
      tick := some TickKind.selector } with hσ4
  set σ5 : PState := appendChild σ4 ((σ0.preconds pid).root) none (σ0.next) with hσ5
  have hstep : expand σ0 pid
      = (match expandActs ((σ0.preconds pid).root) ((σ0.preconds pid).cond) σ5 acts with
         | (σ6, some e) => (σ6, some e)
         | (σ6, none) =>
           match (σ6.ppas (σ0.next + 1)).actions with
           | [] => (σ6, none)
           | [a] => (appendChild σ6 ((σ0.preconds pid).root) none ((σ6.acts a).root), none)
           | _ =>
             let wId := σ6.next
             let σ7 : PState := { σ6 with next := σ6.next + 1 }
             let σ8 := σ7.setNode wId
               { goal := some g,
                 ppa := some (σ0.next + 1), tick := some TickKind.memorizeSelector }
             let σ9 := ((σ8.ppas (σ0.next + 1)).actions).foldl
               (fun τ a => appendChild τ wId none ((τ.acts a).root)) σ8
             (appendChild σ9 ((σ0.preconds pid).root) none wId, none)) := by
    simp only [expand, hgoal, hacts]
  have h4c : σ4.nodes ((σ0.preconds pid).root)
      = { goal := some g, ppa := some (σ0.next + 1),
          tick := some TickKind.selector,
          parent := (σ0.nodes ((σ0.preconds pid).root)).parent,
          prev := (σ0.nodes ((σ0.preconds pid).root)).prev,
          next := (σ0.nodes ((σ0.preconds pid).root)).next } := by
    simp [hσ4, hσ3, hσ2, hσ1, copyNode, PState.updNode, PState.setNode, PState.setPpa,
      updf, show (σ0.preconds pid).root ≠ σ0.next by omega, hfirst, hlast]
  have h4p : σ4.nodes (σ0.next)
      = { goal := some g,
          ppa := (σ0.nodes ((σ0.preconds pid).root)).ppa,
          action := (σ0.nodes ((σ0.preconds pid).root)).action,
          preconds := (σ0.nodes ((σ0.preconds pid).root)).preconds,
          precond := (σ0.nodes ((σ0.preconds pid).root)).precond,
          leaf := (σ0.nodes ((σ0.preconds pid).root)).leaf,
          tick := (σ0.nodes ((σ0.preconds pid).root)).tick } := by
    simp [hσ4, hσ3, hσ2, hσ1, copyNode, PState.updNode, PState.setNode, PState.setPpa,
      updf, show σ0.next ≠ (σ0.preconds pid).root by omega]
  have h5eq : σ5
      = ((σ4.updNode (σ0.next)
            (fun r => { r with parent := some ((σ0.preconds pid).root) })).updNode
          ((σ0.preconds pid).root) (fun r => { r with last := some (σ0.next) })).updNode
          ((σ0.preconds pid).root) (fun r => { r with first := some (σ0.next) }) := by
    rw [hσ5]
    exact appendChild_none_eq σ4 ((σ0.preconds pid).root) (σ0.next) (by rw [h4c])
      (by rw [h4p]) (by rw [h4p]) (by rw [h4p])
  have h5c : σ5.nodes ((σ0.preconds pid).root)
      = { goal := some g, ppa := some (σ0.next + 1),
          tick := some TickKind.selector,
          parent := (σ0.nodes ((σ0.preconds pid).root)).parent,
          prev := (σ0.nodes ((σ0.preconds pid).root)).prev,
          next := (σ0.nodes ((σ0.preconds pid).root)).next,
          first := some (σ0.next), last := some (σ0.next) } := by
    rw [h5eq]
    simp [PState.updNode, PState.setNode, updf,
      show (σ0.preconds pid).root ≠ σ0.next by omega, h4c]
  have h5p : σ5.nodes (σ0.next)
      = { goal := some g,
          ppa := (σ0.nodes ((σ0.preconds pid).root)).ppa,
          action := (σ0.nodes ((σ0.preconds pid).root)).action,
          preconds := (σ0.nodes ((σ0.preconds pid).root)).preconds,
          precond := (σ0.nodes ((σ0.preconds pid).root)).precond,
          leaf := (σ0.nodes ((σ0.preconds pid).root)).leaf,
          tick := (σ0.nodes ((σ0.preconds pid).root)).tick,
          parent := some ((σ0.preconds pid).root) } := by
    rw [h5eq]
    simp [PState.updNode, PState.setNode, updf,
      show σ0.next ≠ (σ0.preconds pid).root by omega, h4p]
  have h5ppa : σ5.ppas (σ0.next + 1)
      = { root := (σ0.preconds pid).root, post := σ0.next, actions := [] } := by
    rw [h5eq]
    simp [PState.updNode, PState.setNode, hσ4, copyNode, hσ3, PState.setPpa, updf]
  have h5next : σ5.next = σ0.next + 2 := by
    rw [h5eq]
    simp [PState.updNode, PState.setNode, hσ4, copyNode, hσ3, PState.setPpa, hσ2, hσ1]
  obtain ⟨σ6, hrun6, hle6, hn6, ha6, hpc6, hpd6, hg6, hpq6, news, hnews6, hnlen6,
      hnprops6, hnsorted6⟩ :=
    expandActs_spec ((σ0.preconds pid).root) ((σ0.preconds pid).cond) acts σ5 hval
      (σ0.next + 1) (by rw [h5c]) (by omega)
  have hppa6 : σ6.ppas (σ0.next + 1)
      = { root := (σ0.preconds pid).root, post := σ0.next, actions := news } := by
    rw [hnews6, h5ppa]
    simp
  have hactions6 : (σ6.ppas (σ0.next + 1)).actions = news := by
    rw [hppa6]
  have hstep2 : expand σ0 pid
      = (match (σ6.ppas (σ0.next + 1)).actions with
         | [] => (σ6, none)
         | [a] => (appendChild σ6 ((σ0.preconds pid).root) none ((σ6.acts a).root), none)
         | _ =>
           let wId := σ6.next
           let σ7 : PState := { σ6 with next := σ6.next + 1 }
           let σ8 := σ7.setNode wId
             { goal := some g,
               ppa := some (σ0.next + 1), tick := some TickKind.memorizeSelector }
           let σ9 := ((σ8.ppas (σ0.next + 1)).actions).foldl
             (fun τ a => appendChild τ wId none ((τ.acts a).root)) σ8
           (appendChild σ9 ((σ0.preconds pid).root) none wId, none)) := by
    rw [hstep, hrun6]
  have h6c : σ6.nodes ((σ0.preconds pid).root) = σ5.nodes ((σ0.preconds pid).root) :=
    hn6 _ (by omega)
  have h6p : σ6.nodes (σ0.next) = σ5.nodes (σ0.next) := hn6 _ (by omega)
  rcases news with _ | ⟨a1, _ | ⟨a2, arest⟩⟩
  · -- no qualifying action
    refine ⟨σ6, ?_, ?_, ?_, ?_, ?_, ?_, ?_, ?_, ?_, ?_, ?_, ?_⟩
    · rw [hstep2, hactions6]
    · rw [h6c, h5c]
    · rw [h6c, h5c]
    · rw [hppa6]
    · rw [hppa6]
    · rw [h6p, h5p]
    · rw [h6p, h5p]
    · rw [h6p, h5p]
    · rw [hactions6]
      simpa using hnlen6
    · intro _
      refine ⟨?_, ?_⟩
      · constructor
        · rw [h6c, h5c]
        · simp only [Chain]
          rw [h6p, h5p]
      · rw [h6c, h5c]
        simp
    · intro a ha
      rw [hactions6] at ha
      exact absurd ha (by simp)
    · intro hlen2
      rw [hactions6] at hlen2
      simp at hlen2
  · -- exactly one qualifying action
    obtain ⟨hb1, hb2, hb3, hb4, hb5, hb6, hb7, hb8⟩ := hnprops6 a1 (by simp)
    set σE : PState :=
      appendChild σ6 ((σ0.preconds pid).root) none ((σ6.acts a1).root) with hσE
    have hEeq : σE
        = (((σ6.updNode ((σ6.acts a1).root)
              (fun r => { r with parent := some ((σ0.preconds pid).root) })).updNode
            ((σ0.preconds pid).root)
            (fun r => { r with last := some ((σ6.acts a1).root) })).updNode
            ((σ6.acts a1).root) (fun r => { r with prev := some (σ0.next) })).updNode
            (σ0.next) (fun r => { r with next := some ((σ6.acts a1).root) }) := by
      rw [hσE]
      exact appendChild_last_eq σ6 ((σ0.preconds pid).root) ((σ6.acts a1).root) (σ0.next)
        (by rw [h6c, h5c]) hb6 hb7 hb8
    have hEc : σE.nodes ((σ0.preconds pid).root)
        = { σ6.nodes ((σ0.preconds pid).root) with
            last := some ((σ6.acts a1).root) } := by
      rw [hEeq]
      simp [PState.updNode, PState.setNode, updf,
        show (σ0.preconds pid).root ≠ (σ6.acts a1).root by omega,
        show (σ0.preconds pid).root ≠ σ0.next by omega]
    have hEp : σE.nodes (σ0.next)
        = { σ6.nodes (σ0.next) with next := some ((σ6.acts a1).root) } := by
      rw [hEeq]
      simp [PState.updNode, PState.setNode, updf,
        show σ0.next ≠ (σ0.preconds pid).root by omega,
        show σ0.next ≠ (σ6.acts a1).root by omega]
    have hER : σE.nodes ((σ6.acts a1).root)
        = { σ6.nodes ((σ6.acts a1).root) with
            parent := some ((σ0.preconds pid).root), prev := some (σ0.next) } := by
      rw [hEeq]
      simp [PState.updNode, PState.setNode, updf,
        show (σ6.acts a1).root ≠ σ0.next by omega,
        show (σ6.acts a1).root ≠ (σ0.preconds pid).root by omega]
    have hEppas : σE.ppas = σ6.ppas := by
      rw [hEeq]
      simp [PState.updNode, PState.setNode]
    have hEacts : σE.acts = σ6.acts := by
      rw [hEeq]
      simp [PState.updNode, PState.setNode]
    refine ⟨σE, ?_, ?_, ?_, ?_, ?_, ?_, ?_, ?_, ?_, ?_, ?_, ?_⟩
    · rw [hstep2, hactions6]
    · rw [hEc]
      simp only []
      rw [show ({ σ6.nodes ((σ0.preconds pid).root) with
        last := some ((σ6.acts a1).root) } : NodeRec).tick
        = (σ6.nodes ((σ0.preconds pid).root)).tick from rfl, h6c, h5c]
    · rw [hEc]
      rw [show ({ σ6.nodes ((σ0.preconds pid).root) with
        last := some ((σ6.acts a1).root) } : NodeRec).ppa
        = (σ6.nodes ((σ0.preconds pid).root)).ppa from rfl, h6c, h5c]
    · rw [hEppas, hppa6]
    · rw [hEppas, hppa6]
    · rw [hEp]
      rw [show ({ σ6.nodes (σ0.next) with next := some ((σ6.acts a1).root) } :
        NodeRec).leaf = (σ6.nodes (σ0.next)).leaf from rfl, h6p, h5p]
    · rw [hEp]
      rw [show ({ σ6.nodes (σ0.next) with next := some ((σ6.acts a1).root) } :
        NodeRec).precond = (σ6.nodes (σ0.next)).precond from rfl, h6p, h5p]
    · rw [hEp]
      rw [show ({ σ6.nodes (σ0.next) with next := some ((σ6.acts a1).root) } :
        NodeRec).tick = (σ6.nodes (σ0.next)).tick from rfl, h6p, h5p]
    · rw [hEppas, hactions6]
      simpa using hnlen6
    · intro h
      rw [hEppas, hactions6] at h
      exact absurd h (by simp)
    · intro a ha
      rw [hEppas, hactions6] at ha
      have ha1 : a = a1 := by
        simpa using ha.symm
      subst ha1
      rw [hEacts]
      refine ⟨?_, ?_⟩
      · constructor
        · rw [hEc]
          rw [show ({ σ6.nodes ((σ0.preconds pid).root) with
            last := some ((σ6.acts a).root) } : NodeRec).first
            = (σ6.nodes ((σ0.preconds pid).root)).first from rfl, h6c, h5c]
        · simp only [Chain]
          refine ⟨?_, ?_⟩
          · rw [hEp]
          · rw [hER]
            rw [show ({ σ6.nodes ((σ6.acts a).root) with
              parent := some ((σ0.preconds pid).root), prev := some (σ0.next) } :
              NodeRec).next = (σ6.nodes ((σ6.acts a).root)).next from rfl, hb7]
      · rw [hEc]
        simp
    · intro hlen2
      rw [hEppas, hactions6] at hlen2
      simp at hlen2
  · -- two or more qualifying actions
    set w : Nat := σ6.next with hw
    set σ8 : PState := ({ σ6 with next := σ6.next + 1 }).setNode w
      { goal := some g, ppa := some (σ0.next + 1),
        tick := some TickKind.memorizeSelector } with hσ8
    set cs : List Nat := (a1 :: a2 :: arest).map (fun a => (σ6.acts a).root) with hcs
    set σ9 : PState := ((σ8.ppas (σ0.next + 1)).actions).foldl
      (fun τ a => appendChild τ w none ((τ.acts a).root)) σ8 with hσ9
    set σE : PState := appendChild σ9 ((σ0.preconds pid).root) none w with hσE
    have h8acts : σ8.acts = σ6.acts := by
      rw [hσ8]
      simp [PState.setNode]
    have h8ppas : σ8.ppas = σ6.ppas := by
      rw [hσ8]
      simp [PState.setNode]
    have h8n : ∀ y, y ≠ w → σ8.nodes y = σ6.nodes y := by
      intro y hy
      rw [hσ8]
      simp [PState.setNode, updf, hy]
    have h8w : σ8.nodes w
        = { goal := some g, ppa := some (σ0.next + 1),
            tick := some TickKind.memorizeSelector } := by
      rw [hσ8]
      simp [PState.setNode, updf]
    have hcsprops : ∀ c ∈ cs, σ5.next ≤ c ∧ c < σ6.next ∧ (σ6.nodes c).prev = none ∧
        (σ6.nodes c).next = none ∧ (σ6.nodes c).parent = none := by
      intro c hc
      rw [hcs] at hc
      obtain ⟨r, hrmem, rfl⟩ := List.mem_map.mp hc
      obtain ⟨k1, k2, k3, k4, k5, k6, k7, k8⟩ := hnprops6 r hrmem
      exact ⟨k3, k4, k6, k7, k8⟩
    have hcsnd : cs.Nodup := by
      rw [hcs]
      exact (List.pairwise_map.mpr hnsorted6).imp (fun h => Nat.ne_of_lt h)
    have h9unf : σ9 = cs.foldl (fun τ c => appendChild τ w none c) σ8 := by
      rw [hσ9, show (σ8.ppas (σ0.next + 1)).actions = a1 :: a2 :: arest from by
        rw [h8ppas, hactions6], foldl_append_acts, h8acts]
    obtain ⟨fch, ffr, fprev, fnextl, fparent, ftick, fppa, fgoal, fgoals, fppas, facts,
        fprecs, fpreconds, fnxt⟩ :=
      append_fresh_list w cs σ8 [] (by refine ⟨?_, ?_⟩ <;> simp [Chain, h8w])
        (by simp) (by simp)
        (by
          intro c hc
          obtain ⟨k1, k2, k3, k4, k5⟩ := hcsprops c hc
          have hcw : c ≠ w := by omega
          refine ⟨?_, ?_, ?_, hcw, by simp⟩ <;> rw [h8n c hcw] <;>
            first
              | exact k3
              | exact k4
              | exact k5)
        hcsnd
    have h9ch : ChildrenAre σ9 w cs := by
      rw [h9unf]
      simpa using fch
    have h9c : σ9.nodes ((σ0.preconds pid).root) = σ6.nodes ((σ0.preconds pid).root) := by
      rw [h9unf, ffr ((σ0.preconds pid).root) (by omega) (by simp) ?_, h8n _ (by omega)]
      intro hmem
      obtain ⟨k1, k2, k3, k4, k5⟩ := hcsprops _ hmem
      omega
    have h9p : σ9.nodes (σ0.next) = σ6.nodes (σ0.next) := by
      rw [h9unf, ffr (σ0.next) (by omega) (by simp) ?_, h8n _ (by omega)]
      intro hmem
      obtain ⟨k1, k2, k3, k4, k5⟩ := hcsprops _ hmem
      omega
    have h9wprev : (σ9.nodes w).prev = none := by
      rw [h9unf, fprev, h8w]
    have h9wnext : (σ9.nodes w).next = none := by
      rw [h9unf, fnextl, h8w]
    have h9wpar : (σ9.nodes w).parent = none := by
      rw [h9unf, fparent, h8w]
    have h9wtick : (σ9.nodes w).tick = some TickKind.memorizeSelector := by
      rw [h9unf, ftick, h8w]
    have h9wppa : (σ9.nodes w).ppa = some (σ0.next + 1) := by
      rw [h9unf, fppa, h8w]
    have h9ppas : σ9.ppas = σ6.ppas := by
      rw [h9unf, fppas, h8ppas]
    have h9acts : σ9.acts = σ6.acts := by
      rw [h9unf, facts, h8acts]
    have hEeq : σE
        = (((σ9.updNode w
              (fun r => { r with parent := some ((σ0.preconds pid).root) })).updNode
            ((σ0.preconds pid).root) (fun r => { r with last := some w })).updNode w
            (fun r => { r with prev := some (σ0.next) })).updNode (σ0.next)
            (fun r => { r with next := some w }) := by
      rw [hσE]
      exact appendChild_last_eq σ9 ((σ0.preconds pid).root) w (σ0.next)
        (by rw [h9c, h6c, h5c]) h9wprev h9wnext h9wpar
    have hEc : σE.nodes ((σ0.preconds pid).root)
        = { σ6.nodes ((σ0.preconds pid).root) with last := some w } := by
      rw [hEeq]
      simp [PState.updNode, PState.setNode, updf,
        show (σ0.preconds pid).root ≠ w by omega,
        show (σ0.preconds pid).root ≠ σ0.next by omega, h9c]
    have hEp : σE.nodes (σ0.next)
        = { σ6.nodes (σ0.next) with next := some w } := by
      rw [hEeq]
      simp [PState.updNode, PState.setNode, updf,
        show σ0.next ≠ (σ0.preconds pid).root by omega, show σ0.next ≠ w by omega, h9p]
    have hEw : σE.nodes w
        = { σ9.nodes w with
            parent := some ((σ0.preconds pid).root), prev := some (σ0.next) } := by
      rw [hEeq]
      simp [PState.updNode, PState.setNode, updf, show w ≠ σ0.next by omega,
        show w ≠ (σ0.preconds pid).root by omega]
    have hEnodes : ∀ y, y ≠ w → y ≠ (σ0.preconds pid).root → y ≠ σ0.next →
        σE.nodes y = σ9.nodes y := by
      intro y k1 k2 k3
      rw [hEeq]
      simp [PState.updNode, PState.setNode, updf, k1, k2, k3]
    have hEppas : σE.ppas = σ6.ppas := by
      rw [hEeq]
      simp [PState.updNode, PState.setNode, h9ppas]
    have hEacts : σE.acts = σ6.acts := by
      rw [hEeq]
      simp [PState.updNode, PState.setNode, h9acts]
    refine ⟨σE, ?_, ?_, ?_, ?_, ?_, ?_, ?_, ?_, ?_, ?_, ?_, ?_⟩
    · rw [hstep2, hactions6]
    · rw [hEc]
      rw [show ({ σ6.nodes ((σ0.preconds pid).root) with last := some w } :
        NodeRec).tick = (σ6.nodes ((σ0.preconds pid).root)).tick from rfl, h6c, h5c]
    · rw [hEc]
      rw [show ({ σ6.nodes ((σ0.preconds pid).root) with last := some w } :
        NodeRec).ppa = (σ6.nodes ((σ0.preconds pid).root)).ppa from rfl, h6c, h5c]
    · rw [hEppas, hppa6]
    · rw [hEppas, hppa6]
    · rw [hEp]
      rw [show ({ σ6.nodes (σ0.next) with next := some w } : NodeRec).leaf
        = (σ6.nodes (σ0.next)).leaf from rfl, h6p, h5p]
    · rw [hEp]
      rw [show ({ σ6.nodes (σ0.next) with next := some w } : NodeRec).precond
        = (σ6.nodes (σ0.next)).precond from rfl, h6p, h5p]
    · rw [hEp]
      rw [show ({ σ6.nodes (σ0.next) with next := some w } : NodeRec).tick
        = (σ6.nodes (σ0.next)).tick from rfl, h6p, h5p]
    · rw [hEppas, hactions6]
      simpa using hnlen6
    · intro h
      rw [hEppas, hactions6] at h
      exact absurd h (by simp)
    · intro a ha
      rw [hEppas, hactions6] at ha
      exact absurd ha (by simp)
    · intro _
      refine ⟨w, ?_, ?_, ?_, ?_⟩
      · refine ⟨?_, ?_⟩
        · constructor
          · rw [hEc]
            rw [show ({ σ6.nodes ((σ0.preconds pid).root) with last := some w } :
              NodeRec).first = (σ6.nodes ((σ0.preconds pid).root)).first from rfl,
              h6c, h5c]
          · simp only [Chain]
            refine ⟨?_, ?_⟩
            · rw [hEp]
            · rw [hEw]
              rw [show ({ σ9.nodes w with
                parent := some ((σ0.preconds pid).root), prev := some (σ0.next) } :
                NodeRec).next = (σ9.nodes w).next from rfl,
                h9wnext]
        · rw [hEc]
          simp
      · rw [hEw]
        rw [show ({ σ9.nodes w with
          parent := some ((σ0.preconds pid).root), prev := some (σ0.next) } :
          NodeRec).tick = (σ9.nodes w).tick from rfl, h9wtick]
      · rw [hEw]
        rw [show ({ σ9.nodes w with
          parent := some ((σ0.preconds pid).root), prev := some (σ0.next) } :
          NodeRec).ppa = (σ9.nodes w).ppa from rfl, h9wppa]
      · have hmapE : (σE.ppas (σ0.next + 1)).actions.map (fun a => (σE.acts a).root)
            = cs := by
          rw [hEppas, hactions6, hEacts, hcs]
        rw [hmapE]
        obtain ⟨c1, c2⟩ := h9ch
        refine ⟨?_, ?_⟩
        · rw [hEw]
          rw [show ({ σ9.nodes w with
            parent := some ((σ0.preconds pid).root), prev := some (σ0.next) } :
            NodeRec).first = (σ9.nodes w).first from rfl]
          refine chain_congr c1 ?_
          intro x hx
          obtain ⟨k1, k2, k3, k4, k5⟩ := hcsprops x hx
          rw [hEnodes x (by omega) (by omega) (by omega)]
        · rw [hEw]
          rw [show ({ σ9.nodes w with
            parent := some ((σ0.preconds pid).root), prev := some (σ0.next) } :
            NodeRec).last = (σ9.nodes w).last from rfl, c2]

/-- Witness for C5 at a concrete state: a failed precondition on node 1
with no candidate actions; expand succeeds and the carrier keeps only its
post-condition child. -/
theorem C5_expand_structure_witness :
    ((c5wSigma.preconds 2).root = 1) ∧ (3 = c5wSigma.next) ∧
    (4 = c5wSigma.next + 1) ∧ (1 < c5wSigma.next) ∧
    ((c5wSigma.nodes 1).goal = some 0) ∧
    ((c5wSigma.goals 0).state.actionsFn (c5wSigma.preconds 2).cond
      = .ok ([] : List Act)) ∧
    ((c5wSigma.nodes 1).first = none) ∧ ((c5wSigma.nodes 1).last = none) ∧
    (∀ a ∈ ([] : List Act), a.effects ≠ [] ∧ (a.effects.map Eff.key).Nodup ∧
      a.hasNode = true ∧ CondsValid a.conditions) ∧
    (∃ σ', expand c5wSigma 2 = (σ', none) ∧
      (σ'.nodes 1).tick = some TickKind.selector ∧
      (σ'.nodes 1).ppa = some 4 ∧
      (σ'.ppas 4).root = 1 ∧
      (σ'.ppas 4).post = 3 ∧
      (σ'.nodes 3).leaf = (c5wSigma.nodes 1).leaf ∧
      (σ'.nodes 3).precond = (c5wSigma.nodes 1).precond ∧
      (σ'.nodes 3).tick = (c5wSigma.nodes 1).tick ∧
      (σ'.ppas 4).actions.length = (([] : List Act).filter (fun a => a.effects.any
          (fun e => e.key == (c5wSigma.preconds 2).cond.key &&
            (c5wSigma.preconds 2).cond.matchv e.value))).length ∧
      ((σ'.ppas 4).actions = [] → ChildrenAre σ' 1 [3]) ∧
      (∀ a, (σ'.ppas 4).actions = [a] →
        ChildrenAre σ' 1 [3, (σ'.acts a).root]) ∧
      (2 ≤ (σ'.ppas 4).actions.length →
        ∃ w, ChildrenAre σ' 1 [3, w] ∧
          (σ'.nodes w).tick = some TickKind.memorizeSelector ∧
          (σ'.nodes w).ppa = some 4 ∧
          ChildrenAre σ' w ((σ'.ppas 4).actions.map (fun a => (σ'.acts a).root)))) :=
  ⟨rfl, rfl, rfl, by decide, rfl, rfl, rfl, rfl, by simp,
   C5_expand_structure c5wSigma 2 1 3 4 0 [] rfl rfl rfl (by decide) rfl rfl rfl rfl
     (by simp)⟩

/-- C1: the driver of `(*Plan).bt` after an underlying tick returned
Failure with a nil error: if the breadth-first failure search reports no
expandable failed precondition, the plan is discarded (root set to nil, so
the next tick recompiles) and the tick returns Failure with a nil error;
if it finds one, the driver expands it (propagating an expansion error
with the tree kept), then resolves conflicts on the new PPA and the tick
returns Running with a nil error. -/
theorem C1_driver_dispatch (σ : PState) (r : Nat) (sf rf wf bf : Nat) :
    (searchRun σ sf r = some none →
      planTick σ (some r) .failure none sf rf wf bf
        = some (σ, none, .failure, none)) ∧
    (∀ cf σ' e, searchRun σ sf r = some (some cf) → expand σ cf = (σ', some e) →
      planTick σ (some r) .failure none sf rf wf bf
        = some (σ', some r, .failure, some e)) ∧
    (∀ cf σ' P σ'' n, searchRun σ sf r = some (some cf) → expand σ cf = (σ', none) →
      (σ'.nodes ((σ'.preconds cf).root)).ppa = some P →
      resolveRun σ' rf wf bf P = some (σ'', n) →
      planTick σ (some r) .failure none sf rf wf bf
        = some (σ'', some r, .running, none)) := by
  refine ⟨?_, ?_, ?_⟩
  · intro h
    simp [planTick, h]
  · intro cf σ' e h1 h2
    simp [planTick, h1, h2]
  · intro cf σ' P σ'' n h1 h2 h3 h4
    simp [planTick, h1, h2, h3, h4]

/-- Witness for C1 at concrete arenas: `c5wSigma` has no failed
precondition, so the plan is discarded; `c1wSigma` has one, which is
expanded and resolved, the tick turning to Running. -/
theorem C1_driver_dispatch_witness :
    planTick c5wSigma (some 1) Status.failure none 5 5 5 5
      = some (c5wSigma, none, Status.failure, none) ∧
    planTick c1wSigma (some 1) Status.failure none 5 5 5 5
      = some (((resolveRun (expand c1wSigma 2).1 5 5 5 4).getD (emptyState, 0)).1,
          some 1, Status.running, none) :=
  ⟨(C1_driver_dispatch c5wSigma 1 5 5 5 5).1 rfl,
   (C1_driver_dispatch c1wSigma 1 5 5 5 5).2.2 2 (expand c1wSigma 2).1 4
     ((resolveRun (expand c1wSigma 2).1 5 5 5 4).getD (emptyState, 0)).1
     ((resolveRun (expand c1wSigma 2).1 5 5 5 4).getD (emptyState, 0)).2
     rfl rfl rfl rfl⟩

/-- `findSome?` yields `none` exactly when the function fails on every
element. -/
theorem findSome?_none_iff {α β : Type _} (f : α → Option β) :
    ∀ (l : List α), (l.findSome? f = none ↔ ∀ x ∈ l, f x = none)
  | [] => by simp
  | a :: l => by
    rw [List.findSome?_cons]
    cases h : f a with
    | some b => simp [h]
    | none => simp [h, findSome?_none_iff f l]

/-- `(*node).search` visits exactly the breadth-first order `bfsAux`
computes, stopping at the first node whose `expandableFailed` test fires. -/
theorem searchAux_lockstep (σ : PState) :
    ∀ (fuel : Nat) (queue : List Nat) (visited : List Nat),
    bfsAux σ fuel queue = some visited →
    searchAux σ fuel queue = some (visited.findSome? (expandableFailed σ)) := by
  intro fuel
  induction fuel with
  | zero =>
    intro queue visited h
    simp [bfsAux] at h
  | succ n ih =>
    intro queue visited h
    match queue with
    | [] =>
      simp only [bfsAux, Option.some.injEq] at h
      subst h
      simp [searchAux]
    | item :: rest =>
      simp only [bfsAux] at h
      simp only [searchAux]
      split at h
      · simp at h
      · rename_i kids hsc
        split at h
        · simp at h
        · rename_i l hb
          simp only [Option.some.injEq] at h
          subst h
          cases he : expandableFailed σ item with
          | some cf =>
            simp [he, List.findSome?_cons]
          | none =>
            simp [he, List.findSome?_cons, ih _ _ hb]

/-- C6: the failure search is the breadth-first traversal from the root
returning the first visited node whose precondition record has status
Failure and still points back at its carrier; it reports no hit exactly
when no visited node passes that test. -/
theorem C6_search_first_failed (σ : PState) (fuel root : Nat) (visited : List Nat)
    (h : bfsAux σ fuel [root] = some visited) :
    searchRun σ fuel root = some (visited.findSome? (expandableFailed σ)) ∧
    (searchRun σ fuel root = some none ↔
      ∀ x ∈ visited, expandableFailed σ x = none) := by
  have h1 : searchRun σ fuel root = some (visited.findSome? (expandableFailed σ)) :=
    searchAux_lockstep σ fuel [root] visited h
  refine ⟨h1, ?_⟩
  rw [h1]
  constructor
  · intro h2
    have h3 : visited.findSome? (expandableFailed σ) = none := by
      simpa using h2
    exact (findSome?_none_iff (expandableFailed σ) visited).mp h3
  · intro h2
    rw [(findSome?_none_iff (expandableFailed σ) visited).mpr h2]

/-- Witness for C6 on the one-node arena `c1wSigma`: the traversal visits
only the root, whose failed precondition record 2 is the hit. -/
theorem C6_search_first_failed_witness :
    bfsAux c1wSigma 5 [1] = some [1] ∧
    (searchRun c1wSigma 5 1
        = some ([1].findSome? (expandableFailed c1wSigma)) ∧
      (searchRun c1wSigma 5 1 = some none ↔
        ∀ x ∈ [1], expandableFailed c1wSigma x = none)) :=
  ⟨rfl, C6_search_first_failed c1wSigma 5 1 [1] rfl⟩

/-- `setNode` with a record that keeps the target's `precond` field never
changes any node's `precond`. -/
theorem setNode_precond (σ : PState) (i : Nat) (v : NodeRec) (y : Nat)
    (hv : v.precond = (σ.nodes i).precond) :
    ((σ.setNode i v).nodes y).precond = (σ.nodes y).precond := by
  by_cases h : y = i <;> simp [PState.setNode, updf, h, hv]

/-- `updNode` with a link-only update never changes any node's `precond`. -/
theorem updNode_precond (σ : PState) (i : Nat) (f : NodeRec → NodeRec) (y : Nat)
    (hf : ∀ r, (f r).precond = r.precond) :
    ((σ.updNode i f).nodes y).precond = (σ.nodes y).precond :=
  setNode_precond σ i _ y (hf _)

/-- `delete` only rewires links: no node's `precond` field changes. -/
theorem delete_precond_field (σ : PState) (nId y : Nat) :
    ((delete σ nId).nodes y).precond = (σ.nodes y).precond := by
  simp only [delete]
  repeat' split
  all_goals simp [updNode_precond]

/-- `appendChild` only rewires links: no node's `precond` field changes. -/
theorem appendChild_precond_field (σ : PState) (nId : Nat) (nxt : Option Nat) (c y : Nat) :
    ((appendChild σ nId nxt c).nodes y).precond = (σ.nodes y).precond := by
  simp only [appendChild]
  repeat' split
  all_goals simp [updNode_precond, delete_precond_field]

/-- The action-wiring fold of expand only rewires links: no `precond`
field changes. -/
theorem foldl_appendChild_precond (w y : Nat) :
    ∀ (l : List Nat) (σ : PState),
    (((l.foldl (fun τ a => appendChild τ w none ((τ.acts a).root)) σ).nodes y).precond)
      = (σ.nodes y).precond
  | [], σ => rfl
  | a :: t, σ => by
    rw [List.foldl_cons, foldl_appendChild_precond w y t, appendChild_precond_field]

/-- The action-wiring fold never touches the `preconditions` store. -/
theorem foldl_appendChild_preconds (w : Nat) :
    ∀ (l : List Nat) (σ : PState),
    ((l.foldl (fun τ a => appendChild τ w none ((τ.acts a).root)) σ).preconds)
      = σ.preconds
  | [], σ => rfl
  | a :: t, σ => by
    rw [List.foldl_cons, foldl_appendChild_preconds w t, appendChild_preconds]

/-- When the node a precondition record points at no longer points back,
the expandability test can never produce that record. -/
theorem expandableFailed_ne_pid (τ : PState) (pid : Nat)
    (h1 : (τ.nodes ((τ.preconds pid).root)).precond = none) (item : Nat) :
    expandableFailed τ item ≠ some pid := by
  intro h
  simp only [expandableFailed] at h
  split at h
  · rename_i cf hcf
    split at h
    · rename_i hcond
      simp only [Option.some.injEq] at h
      subst h
      rw [h1] at hcond
      exact absurd hcond.2 (by simp)
    · exact absurd h (by simp)
  · exact absurd h (by simp)

/-- A search from anywhere never returns a record whose expandability test
can never fire. -/
theorem searchAux_never_expanded (τ : PState) (pid : Nat)
    (h1 : (τ.nodes ((τ.preconds pid).root)).precond = none) :
    ∀ (fuel : Nat) (queue : List Nat) (cf : Nat),
    searchAux τ fuel queue = some (some cf) → cf ≠ pid := by
  intro fuel
  induction fuel with
  | zero =>
    intro queue cf h
    simp [searchAux] at h
  | succ n ih =>
    intro queue cf h
    match queue with
    | [] => simp [searchAux] at h
    | item :: rest =>
      simp only [searchAux] at h
      split at h
      · rename_i cf2 he
        simp only [Option.some.injEq] at h
        subst h
        intro hcp
        rw [hcp] at he
        exact expandableFailed_ne_pid τ pid h1 item he
      · rename_i he
        split at h
        · simp at h
        · exact ih _ _ h

/-- C10: once expand succeeds on precondition record `pid`, the record
still points at its carrier but the carrier (now the PPA Selector) has a
nil precondition back-reference, so the expandability test fails for `pid`
and no later failure search, from anywhere with any fuel, returns it —
even after the preserved post-condition leaf overwrites `pid`'s status on
a tick. -/
theorem C10_expanded_never_returned (σ0 : PState) (pid carrier g : Nat)
    (acts : List Act)
    (hcr : (σ0.preconds pid).root = carrier)
    (hpid : pid < σ0.next)
    (hcar : carrier < σ0.next)
    (hgoal : (σ0.nodes carrier).goal = some g)
    (hacts : (σ0.goals g).state.actionsFn (σ0.preconds pid).cond = .ok acts)
    (hfirst : (σ0.nodes carrier).first = none) (hlast : (σ0.nodes carrier).last = none)
    (hval : ∀ a ∈ acts, a.effects ≠ [] ∧ (a.effects.map Eff.key).Nodup ∧
      a.hasNode = true ∧ CondsValid a.conditions) :
    ∃ σ', expand σ0 pid = (σ', none) ∧
      (σ'.preconds pid).root = carrier ∧
      (σ'.nodes carrier).precond = none ∧
      (∀ fuel queue cf, searchAux σ' fuel queue = some (some cf) → cf ≠ pid) ∧
      (∀ st key mv,
        ((condLeafTick σ' st key mv pid).1.preconds pid).root = carrier ∧
        ((condLeafTick σ' st key mv pid).1.nodes carrier).precond = none ∧
        (∀ fuel queue cf,
          searchAux (condLeafTick σ' st key mv pid).1 fuel queue = some (some cf) →
            cf ≠ pid)) := by
  subst hcr
  set σ1 : PState := { σ0 with next := σ0.next + 2 } with hσ1
  set σ2 : PState := σ1.setNode σ0.next
    { goal := some g,
      ppa := (σ0.nodes ((σ0.preconds pid).root)).ppa,
      action := (σ0.nodes ((σ0.preconds pid).root)).action,
      preconds := (σ0.nodes ((σ0.preconds pid).root)).preconds,
      precond := (σ0.nodes ((σ0.preconds pid).root)).precond,
      leaf := (σ0.nodes ((σ0.preconds pid).root)).leaf,
      tick := (σ0.nodes ((σ0.preconds pid).root)).tick } with hσ2
  set σ3 : PState := σ2.setPpa (σ0.next + 1)
    { root := (σ0.preconds pid).root, post := σ0.next, actions := [] } with hσ3
  set σ4 : PState := copyNode σ3 ((σ0.preconds pid).root)
    { goal := some g, ppa := some (σ0.next + 1),
      tick := some TickKind.selector } with hσ4
  set σ5 : PState := appendChild σ4 ((σ0.preconds pid).root) none (σ0.next) with hσ5
  have hstep : expand σ0 pid
      = (match expandActs ((σ0.preconds pid).root) ((σ0.preconds pid).cond) σ5 acts with
         | (σ6, some e) => (σ6, some e)
         | (σ6, none) =>
           match (σ6.ppas (σ0.next + 1)).actions with
           | [] => (σ6, none)
           | [a] => (appendChild σ6 ((σ0.preconds pid).root) none ((σ6.acts a).root), none)
           | _ =>
             let wId := σ6.next
             let σ7 : PState := { σ6 with next := σ6.next + 1 }
             let σ8 := σ7.setNode wId
               { goal := some g,
                 ppa := some (σ0.next + 1), tick := some TickKind.memorizeSelector }
             let σ9 := ((σ8.ppas (σ0.next + 1)).actions).foldl
               (fun τ a => appendChild τ wId none ((τ.acts a).root)) σ8
             (appendChild σ9 ((σ0.preconds pid).root) none wId, none)) := by
    simp only [expand, hgoal, hacts]
  have h4c : (σ4.nodes ((σ0.preconds pid).root)).precond = none := by
    simp [hσ4, hσ3, hσ2, hσ1, copyNode, PState.updNode, PState.setNode, PState.setPpa,
      updf]
  have h5cpre : (σ5.nodes ((σ0.preconds pid).root)).precond = none := by
    rw [hσ5, appendChild_precond_field]
    exact h4c
  have h5ppaF : (σ5.nodes ((σ0.preconds pid).root)).ppa = some (σ0.next + 1) := by
    rw [hσ5]
    have h4l : (σ4.nodes ((σ0.preconds pid).root)).last = none := by
      simp [hσ4, hσ3, hσ2, hσ1, copyNode, PState.updNode, PState.setNode, PState.setPpa,
        updf, hlast, show (σ0.preconds pid).root ≠ σ0.next by omega]
    have h4pn : (σ4.nodes (σ0.next)).prev = none ∧ (σ4.nodes (σ0.next)).next = none ∧
        (σ4.nodes (σ0.next)).parent = none := by
      refine ⟨?_, ?_, ?_⟩ <;>
        simp [hσ4, hσ3, hσ2, hσ1, copyNode, PState.updNode, PState.setNode,
          PState.setPpa, updf, show σ0.next ≠ (σ0.preconds pid).root by omega]
    rw [appendChild_none_eq σ4 ((σ0.preconds pid).root) (σ0.next) h4l h4pn.1 h4pn.2.1
      h4pn.2.2]
    simp [PState.updNode, PState.setNode, updf,
      show (σ0.preconds pid).root ≠ σ0.next by omega]
    simp [hσ4, hσ3, hσ2, hσ1, copyNode, PState.updNode, PState.setNode, PState.setPpa,
      updf]
  have h5preconds : σ5.preconds = σ0.preconds := by
    rw [hσ5, appendChild_preconds]
    simp [hσ4, hσ3, hσ2, hσ1, copyNode, PState.updNode, PState.setNode, PState.setPpa]
  have h5next : σ5.next = σ0.next + 2 := by
    rw [hσ5, appendChild_next]
    simp [hσ4, hσ3, hσ2, hσ1, copyNode, PState.updNode, PState.setNode, PState.setPpa]
  obtain ⟨σ6, hrun6, hle6, hn6, ha6, hpc6, hpd6, hg6, hpq6, news, hnews6, hnlen6,
      hnprops6, hnsorted6⟩ :=
    expandActs_spec ((σ0.preconds pid).root) ((σ0.preconds pid).cond) acts σ5 hval
      (σ0.next + 1) h5ppaF (by omega)
  have hppa6 : σ6.ppas (σ0.next + 1)
      = { root := (σ0.preconds pid).root, post := σ0.next, actions := news } := by
    rw [hnews6]
    have : σ5.ppas (σ0.next + 1)
        = { root := (σ0.preconds pid).root, post := σ0.next, actions := [] } := by
      rw [hσ5, appendChild_ppas]
      simp [hσ4, hσ3, hσ2, hσ1, copyNode, PState.updNode, PState.setNode, PState.setPpa,
        updf]
    rw [this]
    simp
  have hactions6 : (σ6.ppas (σ0.next + 1)).actions = news := by
    rw [hppa6]
  have hstep2 : expand σ0 pid
      = (match (σ6.ppas (σ0.next + 1)).actions with
         | [] => (σ6, none)
         | [a] => (appendChild σ6 ((σ0.preconds pid).root) none ((σ6.acts a).root), none)
         | _ =>
           let wId := σ6.next
           let σ7 : PState := { σ6 with next := σ6.next + 1 }
           let σ8 := σ7.setNode wId
             { goal := some g,
               ppa := some (σ0.next + 1), tick := some TickKind.memorizeSelector }
           let σ9 := ((σ8.ppas (σ0.next + 1)).actions).foldl
             (fun τ a => appendChild τ wId none ((τ.acts a).root)) σ8
           (appendChild σ9 ((σ0.preconds pid).root) none wId, none)) := by
    rw [hstep, hrun6]
  have h6pre : (σ6.nodes ((σ0.preconds pid).root)).precond = none := by
    rw [hn6 _ (by omega)]
    exact h5cpre
  have h6preconds : σ6.preconds pid = σ0.preconds pid := by
    rw [hpd6 _ (by omega), h5preconds]
  have hfinish : ∀ σ' : PState,
      (σ'.preconds pid).root = (σ0.preconds pid).root →
      (σ'.nodes ((σ0.preconds pid).root)).precond = none →
      expand σ0 pid = (σ', none) →
      ∃ σ2, expand σ0 pid = (σ2, none) ∧
        (σ2.preconds pid).root = (σ0.preconds pid).root ∧
        (σ2.nodes ((σ0.preconds pid).root)).precond = none ∧
        (∀ fuel queue cf, searchAux σ2 fuel queue = some (some cf) → cf ≠ pid) ∧
        (∀ st key mv,
          ((condLeafTick σ2 st key mv pid).1.preconds pid).root
            = (σ0.preconds pid).root ∧
          ((condLeafTick σ2 st key mv pid).1.nodes ((σ0.preconds pid).root)).precond
            = none ∧
          (∀ fuel queue cf,
            searchAux (condLeafTick σ2 st key mv pid).1 fuel queue = some (some cf) →
              cf ≠ pid)) := by
    intro σ' hroot hpre hrun
    have hsearch : ∀ fuel queue cf, searchAux σ' fuel queue = some (some cf) →
        cf ≠ pid := by
      refine searchAux_never_expanded σ' pid ?_
      rw [hroot]
      exact hpre
    refine ⟨σ', hrun, hroot, hpre, hsearch, ?_⟩
    intro st key mv
    have htickpre : ∀ y, ((condLeafTick σ' st key mv pid).1.preconds y).root
        = (σ'.preconds y).root := by
      intro y
      cases h : st.variableFn key <;>
        simp [condLeafTick, h, PState.updPrecond, PState.setPrecond, updf] <;>
        by_cases hy : y = pid <;> simp [hy]
    have hticknodes : (condLeafTick σ' st key mv pid).1.nodes = σ'.nodes := by
      cases h : st.variableFn key <;>
        simp [condLeafTick, h, PState.updPrecond, PState.setPrecond]
    refine ⟨by rw [htickpre, hroot], by rw [hticknodes]; exact hpre, ?_⟩
    refine searchAux_never_expanded _ pid ?_
    rw [htickpre, hroot, hticknodes]
    exact hpre
  rcases news with _ | ⟨a1, _ | ⟨a2, arest⟩⟩
  · refine hfinish σ6 (by rw [h6preconds]) h6pre ?_
    rw [hstep2, hactions6]
  · refine hfinish (appendChild σ6 ((σ0.preconds pid).root) none ((σ6.acts a1).root))
      ?_ ?_ ?_
    · rw [appendChild_preconds, h6preconds]
    · rw [appendChild_precond_field]
      exact h6pre
    · rw [hstep2, hactions6]
  · refine hfinish _ ?_ ?_ (by rw [hstep2, hactions6])
    · rw [appendChild_preconds, foldl_appendChild_preconds]
      show (σ6.preconds pid).root = (σ0.preconds pid).root
      rw [h6preconds]
    · rw [appendChild_precond_field, foldl_appendChild_precond]
      have hset : ((((({ σ6 with next := σ6.next + 1 } : PState)).setNode (σ6.next)
          { goal := some g, ppa := some (σ0.next + 1),
            tick := some TickKind.memorizeSelector }).nodes
          ((σ0.preconds pid).root)).precond)
          = (σ6.nodes ((σ0.preconds pid).root)).precond := by
        simp [PState.setNode, updf, show (σ0.preconds pid).root ≠ σ6.next by omega]
      rw [hset]
      exact h6pre

/-- Witness for C10 on `c1wSigma`: after expanding precondition record 2,
no search with any fuel ever returns it, also after a status-overwriting
tick of the preserved post leaf. -/
theorem C10_expanded_never_returned_witness :
    ((c1wSigma.preconds 2).root = 1) ∧ (2 < c1wSigma.next) ∧ (1 < c1wSigma.next) ∧
    ((c1wSigma.nodes 1).goal = some 0) ∧
    ((c1wSigma.goals 0).state.actionsFn (c1wSigma.preconds 2).cond
      = .ok ([] : List Act)) ∧
    ((c1wSigma.nodes 1).first = none) ∧ ((c1wSigma.nodes 1).last = none) ∧
    (∃ σ', expand c1wSigma 2 = (σ', none) ∧
      (σ'.preconds 2).root = 1 ∧
      (σ'.nodes 1).precond = none ∧
      (∀ fuel queue cf, searchAux σ' fuel queue = some (some cf) → cf ≠ 2) ∧
      (∀ st key mv,
        ((condLeafTick σ' st key mv 2).1.preconds 2).root = 1 ∧
        ((condLeafTick σ' st key mv 2).1.nodes 1).precond = none ∧
        (∀ fuel queue cf,
          searchAux (condLeafTick σ' st key mv 2).1 fuel queue = some (some cf) →
            cf ≠ 2))) :=
  ⟨rfl, by decide, by decide, rfl, rfl, rfl, rfl,
   C10_expanded_never_returned c1wSigma 2 1 0 [] rfl (by decide) (by decide) rfl rfl
     rfl rfl (by simp)⟩

/-- A `SubReach` either stays put or passes through an immediate sub-PPA. -/
theorem subReach_head {σ : PState} {q o : Nat} (h : SubReach σ q o) :
    q = o ∨ ∃ s ∈ subPpasOf σ q, SubReach σ s o := by
  induction h with
  | refl => exact Or.inl rfl
  | step h2 hmem ih =>
    rcases ih with rfl | ⟨s, hs, hr⟩
    · exact Or.inr ⟨_, hmem, SubReach.refl _⟩
    · exact Or.inr ⟨s, hs, SubReach.step hr hmem⟩

/-- A completed conflicts BFS that reported no conflict visited every PPA
in the sub-PPA closure of its queue, and none had a falsifying action. -/
theorem conflictsAux_all_false (σ : PState) (pairs : List (Nat × Cond)) :
    ∀ (fuel : Nat) (queue : List Nat),
    conflictsAux σ pairs fuel queue = some false →
    ∀ q ∈ queue, ∀ o, SubReach σ q o →
    ((σ.ppas o).actions).any (actFalsifies σ pairs) = false := by
  intro fuel
  induction fuel with
  | zero =>
    intro queue h
    simp [conflictsAux] at h
  | succ n ih =>
    intro queue h q hq o hro
    match queue with
    | [] => simp at hq
    | q0 :: rest =>
      simp only [conflictsAux] at h
      split at h
      · simp at h
      · rename_i hany
        rcases List.mem_cons.mp hq with rfl | hq2
        · rcases subReach_head hro with rfl | ⟨s, hs, hr⟩
          · simpa using hany
          · exact ih _ h s (by simp [hs]) o hr
        · exact ih _ h q (by simp [hq2]) o hro

/-- A completed conflicts check that reported no conflict: no PPA in the
candidate's sub-PPA closure has an action falsifying the pairs. -/
theorem conflictsRun_all_false (σ : PState) (p bf q : Nat)
    (h : conflictsRun σ p bf q = some false) :
    ∀ o, SubReach σ q o →
    ((σ.ppas o).actions).any (actFalsifies σ (pairsOf σ p)) = false := by
  intro o hro
  simp only [conflictsRun] at h
  split at h
  · rename_i hemp
    have hpairs : pairsOf σ p = [] := by
      simpa [List.isEmpty_iff] using hemp
    rw [hpairs]
    simp [actFalsifies]
  · rename_i hemp
    exact conflictsAux_all_false σ (pairsOf σ p) bf [q] h q (by simp) o hro

/-- A completed conflict walk that reported no conflict checked every
candidate along the walk, and each check reported no conflict. -/
theorem conflictAux_all_false (σ : PState) (p bf : Nat) :
    ∀ (fuel : Nat) (n : Nat),
    conflictAux σ p bf fuel n = some none →
    ∀ q, WalkChecked σ n q → conflictsRun σ p bf q = some false := by
  intro fuel
  induction fuel with
  | zero =>
    intro n h
    simp [conflictAux] at h
  | succ k ih =>
    intro n h q hq
    simp only [conflictAux] at h
    split at h
    · rename_i hw
      cases hq with
      | here h2 => rw [hw] at h2; exact absurd h2 (by simp)
      | there h2 _ => rw [hw] at h2; exact absurd h2 (by simp)
    · rename_i m hw
      cases hq with
      | here h2 =>
        rw [hw] at h2
        simp at h2
      | there h2 hq2 =>
        rw [hw] at h2
        simp only [Option.some.injEq, Prod.mk.injEq] at h2
        exact ih m h q (h2.1 ▸ hq2)
    · rename_i m q0 hw
      split at h
      · simp at h
      · simp at h
      · rename_i hc
        cases hq with
        | here h2 =>
          rw [hw] at h2
          simp only [Option.some.injEq, Prod.mk.injEq, Option.some.injEq] at h2
          rw [← h2.2]
          exact hc
        | there h2 hq2 =>
          rw [hw] at h2
          simp only [Option.some.injEq, Prod.mk.injEq] at h2
          exact ih m h q (h2.1 ▸ hq2)

/-- A completed `resolve` leaves a state whose conflict walk reports no
conflict for the receiver. -/
theorem resolveAux_no_conflict (wf bf : Nat) :
    ∀ (fuel : Nat) (σ : PState) (p : Nat) (σ2 : PState) (k : Nat),
    resolveAux wf bf fuel σ p = some (σ2, k) →
    conflictRun σ2 wf bf p = some none := by
  intro fuel
  induction fuel with
  | zero =>
    intro σ p σ2 k h
    simp [resolveAux] at h
  | succ n ih =>
    intro σ p σ2 k h
    simp only [resolveAux] at h
    split at h
    · simp at h
    · rename_i hc
      simp only [Option.some.injEq, Prod.mk.injEq] at h
      rw [← h.1]
      exact hc
    · rename_i c hc
      split at h
      · simp at h
      · rename_i par hpar
        split at h
        · simp at h
        · rename_i σp kp hrec
          simp only [Option.some.injEq, Prod.mk.injEq] at h
          exact h.1 ▸ ih _ p σp kp hrec

/-- C2: after `resolve` completes for PPA `p`, every PPA `q` the conflict
walk checks (previous siblings that are expanded PPA roots, also after
moving up to enclosing PPA roots) and every PPA `o` in `q`'s sub-PPA
closure is conflict-free against `p`: no action of `o` declares an effect
on a key for which one of `p`'s alternatives' precondition conditions
fails to match the effect's value. -/
theorem C2_conflict_free_after_resolve (σ : PState) (rf wf bf p : Nat)
    (σ2 : PState) (k : Nat)
    (hres : resolveRun σ rf wf bf p = some (σ2, k)) :
    ∀ q, WalkChecked σ2 ((σ2.ppas p).root) q →
    ∀ o, SubReach σ2 q o →
    ∀ a ∈ (σ2.ppas o).actions, ∀ pr ∈ pairsOf σ2 p, ∀ eff,
      ((σ2.acts a).effects).lookup pr.1 = some eff →
      pr.2.matchv eff.value = true := by
  intro q hq o hro a ha pr hpr eff heff
  have h1 : conflictRun σ2 wf bf p = some none :=
    resolveAux_no_conflict wf bf rf σ p σ2 k hres
  have h2 : conflictsRun σ2 p bf q = some false :=
    conflictAux_all_false σ2 p bf wf ((σ2.ppas p).root) h1 q hq
  have h3 : ((σ2.ppas o).actions).any (actFalsifies σ2 (pairsOf σ2 p)) = false :=
    conflictsRun_all_false σ2 p bf q h2 o hro
  have h4 : actFalsifies σ2 (pairsOf σ2 p) a = false := by
    cases hfa : actFalsifies σ2 (pairsOf σ2 p) a with
    | false => rfl
    | true =>
      have h5 := List.any_eq_true.mpr ⟨a, ha, hfa⟩
      rw [h3] at h5
      exact absurd h5 (by simp)
  simp only [actFalsifies] at h4
  have h6 : (match ((σ2.acts a).effects).lookup pr.1 with
      | some eff2 => !pr.2.matchv eff2.value
      | none => false) = false := by
    cases hg : (match ((σ2.acts a).effects).lookup pr.1 with
        | some eff2 => !pr.2.matchv eff2.value
        | none => false) with
    | false => rfl
    | true =>
      have h7 : (pairsOf σ2 p).any (fun pair =>
          match ((σ2.acts a).effects).lookup pair.1 with
          | some eff2 => !pair.2.matchv eff2.value
          | none => false) = true :=
        List.any_eq_true.mpr ⟨pr, hpr, hg⟩
      rw [h4] at h7
      exact absurd h7 (by simp)
  rw [heff] at h6
  simpa using h6

/-- Witness for C2 on the post-expand state of `c1wSigma`: resolve
completes with no promotions and the (vacuous) candidate set is
conflict-free. -/
theorem C2_conflict_free_after_resolve_witness :
    resolveRun (expand c1wSigma 2).1 5 5 5 4
      = some (((resolveRun (expand c1wSigma 2).1 5 5 5 4).getD (emptyState, 0)).1,
          ((resolveRun (expand c1wSigma 2).1 5 5 5 4).getD (emptyState, 0)).2) ∧
    (∀ q, WalkChecked ((resolveRun (expand c1wSigma 2).1 5 5 5 4).getD
            (emptyState, 0)).1
          ((((resolveRun (expand c1wSigma 2).1 5 5 5 4).getD
            (emptyState, 0)).1.ppas 4).root) q →
      ∀ o, SubReach ((resolveRun (expand c1wSigma 2).1 5 5 5 4).getD
            (emptyState, 0)).1 q o →
      ∀ a ∈ ((((resolveRun (expand c1wSigma 2).1 5 5 5 4).getD
            (emptyState, 0)).1.ppas o).actions),
      ∀ pr ∈ pairsOf ((resolveRun (expand c1wSigma 2).1 5 5 5 4).getD
            (emptyState, 0)).1 4, ∀ eff,
        (((((resolveRun (expand c1wSigma 2).1 5 5 5 4).getD
            (emptyState, 0)).1.acts a).effects).lookup pr.1) = some eff →
        pr.2.matchv eff.value = true) :=
  ⟨rfl,
   C2_conflict_free_after_resolve (expand c1wSigma 2).1 5 5 5 4
     ((resolveRun (expand c1wSigma 2).1 5 5 5 4).getD (emptyState, 0)).1
     ((resolveRun (expand c1wSigma 2).1 5 5 5 4).getD (emptyState, 0)).2 rfl⟩

end PABT
